import Mathlib

/-!
# Migration script generation and repository fetchers of gh-gei

A shallow embedding of `pkg/scriptgen/generator.go` and `pkg/scriptgen/templates.go`
(namespace `Scriptgen`), of the fetchers `pkg/github/client.go`, `pkg/ado/client.go` and
`pkg/bbs/client.go` (namespaces `Github`, `Ado`, `Bbs`), of `pkg/http/client.go` and
`pkg/retry/retry.go` (namespaces `Http`, `Retry`), and of `cmd/gei/generate_script.go`
(namespace `Gei`). The definitions of all packages come first, the theorems after them.

* Go `string` values are Lean `String`s; `fmt.Sprintf` with `%s` verbs is string
  concatenation in the order of the format string.
* A `strings.Builder` is its write log: the list of the arguments of the
  `WriteString` calls made so far, oldest first.  `Builder.String` is the
  concatenation of the log, which is what the Go builder returns.
* A `[]string` that is only ever extended with `append` is a `List String`, and
  `append(parts, x)` is `parts ++ [x]`.
* Statements about the blocks and entries that the generator writes are statements about
  the write log; the script text is the concatenation of the log. Statements about the lines
  of a script are statements about `textLines` of the returned text, the pieces of the text
  between its newline characters. Statements about the tokens of a command are statements
  about the `parts` slice, which `strings.Join` turns into the command.
* A fetcher is a function of the request log: it takes the list of the calls of
  `http.Client.Get` made so far and returns its result with the extended list. The server
  is a function from the log and the request to the answer; library functions
  (`json.Unmarshal`, `url.PathEscape`, `strings.EqualFold`) are fields of a `Lib` structure.
* An unbounded `for` loop is a function with a fuel argument that returns `none` when the
  fuel runs out; the theorems give the fuel that suffices for a result.
* An operation handed to the retry policy is a function from its state to an error (or
  `none`) and its next state; the number of its invocations is read off a counter added to
  the state.
* A Go function that returns early with an error is a `do` block in `Except String`, or a
  chain of matches that returns at the same places.
-/

set_option maxRecDepth 100000

namespace Scriptgen

/-! ## templates.go -/

/-- Constant PwshShebang of templates.go: PwshShebang is the PowerShell shebang line. -/
def PwshShebang : String :=
  "#!/usr/bin/env pwsh"

/-- Constant ExecFunctionBlock of templates.go: ExecFunctionBlock defines the Exec helper function for sequential scripts. -/
def ExecFunctionBlock : String :=
  "\nfunction Exec \x7b\n    param (\n        [scriptblock]$ScriptBlock\n    )\n    & @ScriptBlock\n    if ($lastexitcode -ne 0) \x7b\n        exit $lastexitcode\n    \x7d\n\x7d"

/-- Constant ExecAndGetMigrationIDFunctionBlock of templates.go: ExecAndGetMigrationIDFunctionBlock defines the helper function for parallel scripts. -/
def ExecAndGetMigrationIDFunctionBlock : String :=
  "\nfunction ExecAndGetMigrationID \x7b\n    param (\n        [scriptblock]$ScriptBlock\n    )\n    $MigrationID = & @ScriptBlock | ForEach-Object \x7b\n        Write-Host $_\n        $_\n    \x7d | Select-String -Pattern \"\\(ID: (.+)\\)\" | ForEach-Object \x7b $_.matches.groups[1] \x7d\n    return $MigrationID\n\x7d"

/-- Constant ValidateGHPAT of templates.go: ValidateGHPAT validates that GH_PAT is set. -/
def ValidateGHPAT : String :=
  "\nif (-not $env:GH_PAT) \x7b\n    Write-Error \"GH_PAT environment variable must be set to a valid GitHub Personal Access Token with the appropriate scopes. For more information see https://docs.github.com/en/migrations/using-github-enterprise-importer/preparing-to-migrate-with-github-enterprise-importer/managing-access-for-github-enterprise-importer#creating-a-personal-access-token-for-github-enterprise-importer\"\n    exit 1\n\x7d else \x7b\n    Write-Host \"GH_PAT environment variable is set and will be used to authenticate to GitHub.\"\n\x7d"

/-- Constant ValidateAzureStorageConnectionString of templates.go: ValidateAzureStorageConnectionString validates Azure storage credentials. -/
def ValidateAzureStorageConnectionString : String :=
  "\nif (-not $env:AZURE_STORAGE_CONNECTION_STRING) \x7b\n    Write-Error \"AZURE_STORAGE_CONNECTION_STRING environment variable must be set to a valid Azure Storage Connection String that will be used to upload the migration archive to Azure Blob Storage.\"\n    exit 1\n\x7d else \x7b\n    Write-Host \"AZURE_STORAGE_CONNECTION_STRING environment variable is set and will be used to upload the migration archive to Azure Blob Storage.\"\n\x7d"

/-- Constant ValidateAWSAccessKeyID of templates.go: ValidateAWSAccessKeyID validates AWS access key ID. -/
def ValidateAWSAccessKeyID : String :=
  "\nif (-not $env:AWS_ACCESS_KEY_ID) \x7b\n    Write-Error \"AWS_ACCESS_KEY_ID environment variable must be set to a valid AWS Access Key ID that will be used to upload the migration archive to AWS S3.\"\n    exit 1\n\x7d else \x7b\n    Write-Host \"AWS_ACCESS_KEY_ID environment variable is set and will be used to upload the migration archive to AWS S3.\"\n\x7d"

/-- Constant ValidateAWSSecretAccessKey of templates.go: ValidateAWSSecretAccessKey validates AWS secret access key. -/
def ValidateAWSSecretAccessKey : String :=
  "\nif (-not $env:AWS_SECRET_ACCESS_KEY) \x7b\n    Write-Error \"AWS_SECRET_ACCESS_KEY environment variable must be set to a valid AWS Secret Access Key that will be used to upload the migration archive to AWS S3.\"\n    exit 1\n\x7d else \x7b\n    Write-Host \"AWS_SECRET_ACCESS_KEY environment variable is set and will be used to upload the migration archive to AWS S3.\"\n\x7d"

/-- Constant ValidateADOPAT of templates.go: ValidateADOPAT validates that ADO_PAT is set (for ado2gh). -/
def ValidateADOPAT : String :=
  "\nif (-not $env:ADO_PAT) \x7b\n    Write-Error \"ADO_PAT environment variable must be set to a valid Azure DevOps Personal Access Token.\"\n    exit 1\n\x7d else \x7b\n    Write-Host \"ADO_PAT environment variable is set and will be used to authenticate to Azure DevOps.\"\n\x7d"

/-- Constant ValidateBBSUsername of templates.go: ValidateBBSUsername validates that BBS_USERNAME is set (for bbs2gh). -/
def ValidateBBSUsername : String :=
  "\nif (-not $env:BBS_USERNAME) \x7b\n    Write-Error \"BBS_USERNAME environment variable must be set.\"\n    exit 1\n\x7d else \x7b\n    Write-Host \"BBS_USERNAME environment variable is set and will be used to authenticate to Bitbucket Server.\"\n\x7d"

/-- Constant ValidateBBSPassword of templates.go: ValidateBBSPassword validates that BBS_PASSWORD is set (for bbs2gh). -/
def ValidateBBSPassword : String :=
  "\nif (-not $env:BBS_PASSWORD) \x7b\n    Write-Error \"BBS_PASSWORD environment variable must be set.\"\n    exit 1\n\x7d else \x7b\n    Write-Host \"BBS_PASSWORD environment variable is set and will be used to authenticate to Bitbucket Server.\"\n\x7d"

/-! ## Library functions used by generator.go -/

/-- Go `strings.Builder`, as the log of the strings written to it. -/
structure Builder where
  writes : List String
deriving DecidableEq, Repr

/-- The zero value `var sb strings.Builder`. -/
def Builder.empty : Builder := ⟨[]⟩

/-- Go `sb.WriteString(s)`. -/
def Builder.WriteString (sb : Builder) (s : String) : Builder :=
  ⟨sb.writes ++ [s]⟩

/-- Go `sb.String()`: everything written so far, in order. -/
def Builder.String (sb : Builder) : String :=
  String.join sb.writes

/-- Go `strings.Join(elems, sep)`. -/
def stringsJoin (elems : List String) (sep : String) : String :=
  sep.intercalate elems

/-! ## generator.go -/

/-- Repository represents a repository to be migrated. -/
structure Repository where
  Name : String
  Visibility : String
deriving DecidableEq, Repr

/-- GeneratorOptions contains options for script generation. -/
structure GeneratorOptions where
  SourceOrg : String
  TargetOrg : String
  Sequential : Bool
  Verbose : Bool
  SkipReleases : Bool
  LockSourceRepo : Bool
  DownloadMigrationLog : Bool
  TargetAPIURL : String
  TargetUploadsURL : String
  GHESAPIUrl : String
  AWSBucketName : String
  AWSRegion : String
  NoSSLVerify : Bool
  KeepArchive : Bool
  UseGithubStorage : Bool
  BlobCredentialsRequired : Bool
  CLIVersion : String
  CLICommand : String
  ADOOrg : String
  ADOTeamProject : String
  BBSServerURL : String
  BBSProject : String
deriving DecidableEq, Repr

/-- Generator generates PowerShell migration scripts. -/
structure Generator where
  options : GeneratorOptions
  repos : List Repository
deriving DecidableEq, Repr

/-- NewGenerator creates a new script generator. -/
def NewGenerator (options : GeneratorOptions) (repos : List Repository) : Generator :=
  { options := options, repos := repos }

namespace Generator

/-- The `parts` slice of `buildMigrateRepoCommand` just before `strings.Join`. -/
def buildMigrateRepoParts (g : Generator) (repo : Repository) (wait : Bool) : List String :=
  let parts : List String := []
  let parts := parts ++ [g.options.CLICommand ++ " migrate-repo"]
  let parts :=
    if g.options.TargetAPIURL ≠ "" then
      parts ++ ["--target-api-url \"" ++ g.options.TargetAPIURL ++ "\""]
    else parts
  let parts :=
    if g.options.TargetUploadsURL ≠ "" then
      parts ++ ["--target-uploads-url \"" ++ g.options.TargetUploadsURL ++ "\""]
    else parts
  let parts :=
    if g.options.ADOOrg ≠ "" then
      let parts := parts ++ ["--ado-org \"" ++ g.options.ADOOrg ++ "\""]
      let parts := parts ++ ["--ado-team-project \"" ++ g.options.ADOTeamProject ++ "\""]
      parts ++ ["--ado-repo \"" ++ repo.Name ++ "\""]
    else if g.options.BBSServerURL ≠ "" then
      let parts := parts ++ ["--bbs-server-url \"" ++ g.options.BBSServerURL ++ "\""]
      let parts := parts ++ ["--bbs-project \"" ++ g.options.BBSProject ++ "\""]
      parts ++ ["--bbs-repo \"" ++ repo.Name ++ "\""]
    else
      let parts := parts ++ ["--github-source-org \"" ++ g.options.SourceOrg ++ "\""]
      parts ++ ["--source-repo \"" ++ repo.Name ++ "\""]
  let parts := parts ++ ["--github-target-org \"" ++ g.options.TargetOrg ++ "\""]
  let parts := parts ++ ["--target-repo \"" ++ repo.Name ++ "\""]
  let parts :=
    if g.options.GHESAPIUrl ≠ "" then
      let parts := parts ++ ["--ghes-api-url \"" ++ g.options.GHESAPIUrl ++ "\""]
      let parts :=
        if g.options.AWSBucketName ≠ "" then
          parts ++ ["--aws-bucket-name \"" ++ g.options.AWSBucketName ++ "\""]
        else parts
      let parts :=
        if g.options.AWSRegion ≠ "" then
          parts ++ ["--aws-region \"" ++ g.options.AWSRegion ++ "\""]
        else parts
      let parts := if g.options.NoSSLVerify then parts ++ ["--no-ssl-verify"] else parts
      let parts := if g.options.KeepArchive then parts ++ ["--keep-archive"] else parts
      if g.options.UseGithubStorage then parts ++ ["--use-github-storage"] else parts
    else parts
  let parts := if g.options.Verbose then parts ++ ["--verbose"] else parts
  let parts := if !wait then parts ++ ["--queue-only"] else parts
  let parts := if g.options.SkipReleases then parts ++ ["--skip-releases"] else parts
  let parts := if g.options.LockSourceRepo then parts ++ ["--lock-source-repo"] else parts
  parts ++ ["--target-repo-visibility " ++ repo.Visibility]

/-- buildMigrateRepoCommand builds the migrate-repo command. -/
def buildMigrateRepoCommand (g : Generator) (repo : Repository) (wait : Bool) : String :=
  stringsJoin (g.buildMigrateRepoParts repo wait) " "

/-- buildWaitForMigrationCommand builds the wait-for-migration command. -/
def buildWaitForMigrationCommand (g : Generator) (repoName : String) : String :=
  let parts : List String := []
  let parts := parts ++ [g.options.CLICommand ++ " wait-for-migration"]
  let parts :=
    if g.options.TargetAPIURL ≠ "" then
      parts ++ ["--target-api-url \"" ++ g.options.TargetAPIURL ++ "\""]
    else parts
  let parts := parts ++ ["--migration-id $RepoMigrations[\"" ++ repoName ++ "\"]"]
  stringsJoin parts " "

/-- buildDownloadLogsCommand builds the download-logs command. -/
def buildDownloadLogsCommand (g : Generator) (repoName : String) : String :=
  let parts : List String := []
  let parts := parts ++ [g.options.CLICommand ++ " download-logs"]
  let parts :=
    if g.options.TargetAPIURL ≠ "" then
      parts ++ ["--target-api-url \"" ++ g.options.TargetAPIURL ++ "\""]
    else parts
  let parts := parts ++ ["--github-target-org \"" ++ g.options.TargetOrg ++ "\""]
  let parts := parts ++ ["--target-repo \"" ++ repoName ++ "\""]
  stringsJoin parts " "

/-- versionComment returns the version comment for the script header. -/
def versionComment (g : Generator) : String :=
  "# =========== Created with CLI version " ++ g.options.CLIVersion ++ " ==========="

/-- writeValidationBlocks writes environment variable validation blocks. -/
def writeValidationBlocks (g : Generator) (sb : Builder) : Builder :=
  let sb := sb.WriteString ValidateGHPAT
  let sb := sb.WriteString "\n"
  let sb :=
    if g.options.ADOOrg ≠ "" then
      let sb := sb.WriteString ValidateADOPAT
      sb.WriteString "\n"
    else sb
  let sb :=
    if g.options.BBSServerURL ≠ "" then
      let sb := sb.WriteString ValidateBBSUsername
      let sb := sb.WriteString "\n"
      let sb := sb.WriteString ValidateBBSPassword
      sb.WriteString "\n"
    else sb
  if !g.options.UseGithubStorage && g.options.BlobCredentialsRequired then
    if g.options.AWSBucketName ≠ "" || g.options.AWSRegion ≠ "" then
      let sb := sb.WriteString ValidateAWSAccessKeyID
      let sb := sb.WriteString "\n"
      let sb := sb.WriteString ValidateAWSSecretAccessKey
      sb.WriteString "\n"
    else
      let sb := sb.WriteString ValidateAzureStorageConnectionString
      sb.WriteString "\n"
  else sb

/-- The builder of `generateSequentialScript` at its `return`. -/
def generateSequentialBuilder (g : Generator) : Builder :=
  let sb := Builder.empty
  let sb := sb.WriteString (PwshShebang ++ "\n")
  let sb := sb.WriteString "\n"
  let sb := sb.WriteString (g.versionComment ++ "\n")
  let sb := sb.WriteString (ExecFunctionBlock ++ "\n")
  let sb := g.writeValidationBlocks sb
  let sb := sb.WriteString ("# =========== Organization: " ++ g.options.SourceOrg ++ " ===========\n")
  g.repos.foldl
    (fun sb repo =>
      let migrateCmd := g.buildMigrateRepoCommand repo true
      let sb := sb.WriteString ("Exec \x7b " ++ migrateCmd ++ " \x7d\n")
      if g.options.DownloadMigrationLog then
        let downloadCmd := g.buildDownloadLogsCommand repo.Name
        sb.WriteString ("Exec \x7b " ++ downloadCmd ++ " \x7d\n")
      else sb)
    sb

/-- generateSequentialScript generates a sequential migration script. -/
def generateSequentialScript (g : Generator) : String :=
  g.generateSequentialBuilder.String

/-- The builder of `generateParallelScript` at its `return`. -/
def generateParallelBuilder (g : Generator) : Builder :=
  let sb := Builder.empty
  let sb := sb.WriteString (PwshShebang ++ "\n")
  let sb := sb.WriteString "\n"
  let sb := sb.WriteString (g.versionComment ++ "\n")
  let sb := sb.WriteString (ExecAndGetMigrationIDFunctionBlock ++ "\n")
  let sb := g.writeValidationBlocks sb
  let sb := sb.WriteString "\n"
  let sb := sb.WriteString "$Succeeded = 0\n"
  let sb := sb.WriteString "$Failed = 0\n"
  let sb := sb.WriteString "$RepoMigrations = [ordered]@\x7b\x7d\n"
  let sb := sb.WriteString "\n"
  let sb := sb.WriteString ("# =========== Organization: " ++ g.options.SourceOrg ++ " ===========\n")
  let sb := sb.WriteString "\n"
  let sb := sb.WriteString "# === Queuing repo migrations ===\n"
  let sb := g.repos.foldl
    (fun sb repo =>
      let migrateCmd := g.buildMigrateRepoCommand repo false
      let sb := sb.WriteString ("$MigrationID = ExecAndGetMigrationID \x7b " ++ migrateCmd ++ " \x7d\n")
      let sb := sb.WriteString ("$RepoMigrations[\"" ++ repo.Name ++ "\"] = $MigrationID\n")
      sb.WriteString "\n")
    sb
  let sb := sb.WriteString "\n"
  let sb := sb.WriteString
    ("# =========== Waiting for all migrations to finish for Organization: " ++
      g.options.SourceOrg ++ " ===========\n")
  let sb := sb.WriteString "\n"
  let sb := g.repos.foldl
    (fun sb repo =>
      let waitCmd := g.buildWaitForMigrationCommand repo.Name
      let sb := sb.WriteString
        ("if ($RepoMigrations[\"" ++ repo.Name ++ "\"]) \x7b " ++ waitCmd ++ " \x7d\n")
      let sb := sb.WriteString
        ("if ($RepoMigrations[\"" ++ repo.Name ++
          "\"] -and $lastexitcode -eq 0) \x7b $Succeeded++ \x7d else \x7b $Failed++ \x7d\n")
      let sb :=
        if g.options.DownloadMigrationLog then
          let downloadCmd := g.buildDownloadLogsCommand repo.Name
          sb.WriteString (downloadCmd ++ "\n")
        else sb
      sb.WriteString "\n")
    sb
  let sb := sb.WriteString "\n"
  let sb := sb.WriteString "Write-Host =============== Summary ===============\n"
  let sb := sb.WriteString "Write-Host Total number of successful migrations: $Succeeded\n"
  let sb := sb.WriteString "Write-Host Total number of failed migrations: $Failed\n"
  let sb := sb.WriteString "\n"
  let sb := sb.WriteString "if ($Failed -ne 0) \x7b\n"
  let sb := sb.WriteString "    exit 1\n"
  let sb := sb.WriteString "\x7d\n"
  let sb := sb.WriteString "\n"
  sb.WriteString "\n"

/-- generateParallelScript generates a parallel migration script. -/
def generateParallelScript (g : Generator) : String :=
  g.generateParallelBuilder.String

/-- Generate generates the migration script based on options. -/
def Generate (g : Generator) : String :=
  if g.options.Sequential then g.generateSequentialScript
  else g.generateParallelScript

end Generator

/-! ## Vocabulary of the statements -/

/-- Go `strings.HasPrefix(s, p)`. -/
def startsWith (s p : String) : Bool := p.data.isPrefixOf s.data

/-- Go `strings.HasSuffix(s, p)`. -/
def endsWith (s p : String) : Bool := p.data.isSuffixOf s.data

/-- A token `flag "value"`: the flag, a blank, and a value in double quotes. -/
def isValueToken (flag t : String) : Bool :=
  startsWith t (flag ++ " \"") && endsWith t "\""

/-- The credential-check blocks that `writeValidationBlocks` writes to a fresh builder: its
writes without the `"\n"` written after each block. -/
def credentialChecks (g : Generator) : List String :=
  (g.writeValidationBlocks Builder.empty).writes.filter (fun w => w != "\n")

/-- The fixed order of the seven credential-check blocks. -/
def checkOrder : List String :=
  [ValidateGHPAT, ValidateADOPAT, ValidateBBSUsername, ValidateBBSPassword,
   ValidateAWSAccessKeyID, ValidateAWSSecretAccessKey, ValidateAzureStorageConnectionString]

/-- The storage-credential checks among a list of blocks. -/
def storageChecks (blocks : List String) : List String :=
  blocks.filter (fun b =>
    b == ValidateAWSAccessKeyID || b == ValidateAWSSecretAccessKey ||
    b == ValidateAzureStorageConnectionString)

/-- An invocation line of a sequential script: `Exec { ... }`. -/
def isExecLine (w : String) : Bool :=
  startsWith w "Exec \x7b " && endsWith w " \x7d\n"

/-- A queuing line of a parallel script: `$MigrationID = ExecAndGetMigrationID { ... }`. -/
def isQueueLine (w : String) : Bool :=
  startsWith w "$MigrationID = ExecAndGetMigrationID \x7b " && endsWith w " \x7d\n"

/-- A waiting line of a parallel script: it opens with the guard `if ($RepoMigrations["` and
closes the block after the registry look-up that ends the wait-for-migration command,
`"] }`. -/
def isWaitLine (w : String) : Bool :=
  startsWith w "if ($RepoMigrations[\"" && endsWith w "\"] \x7d\n"

/-- A tally line of a parallel script: the guard `if ($RepoMigrations["<name>"] -and
$lastexitcode -eq 0)` with the branches `{ $Succeeded++ } else { $Failed++ }`. -/
def isTallyLine (w : String) : Bool :=
  startsWith w "if ($RepoMigrations[\"" &&
    endsWith w "\"] -and $lastexitcode -eq 0) \x7b $Succeeded++ \x7d else \x7b $Failed++ \x7d\n"

/-- The fixed lines of a parallel script. -/
def parallelFixedLines : List String :=
  [PwshShebang ++ "\n", "\n", ExecAndGetMigrationIDFunctionBlock ++ "\n",
    "$Succeeded = 0\n", "$Failed = 0\n", "$RepoMigrations = [ordered]@\x7b\x7d\n",
    "# === Queuing repo migrations ===\n",
    "Write-Host =============== Summary ===============\n",
    "Write-Host Total number of successful migrations: $Succeeded\n",
    "Write-Host Total number of failed migrations: $Failed\n",
    "if ($Failed -ne 0) \x7b\n", "    exit 1\n", "\x7d\n"]

/-! ## Tokens of the migrate-repo command -/

/-- The optional target URL tokens of a migrate-repo command. -/
def targetUrlTokens (g : Generator) : List String :=
  (if g.options.TargetAPIURL ≠ "" then
    ["--target-api-url \"" ++ g.options.TargetAPIURL ++ "\""] else []) ++
  (if g.options.TargetUploadsURL ≠ "" then
    ["--target-uploads-url \"" ++ g.options.TargetUploadsURL ++ "\""] else [])

/-- The ADO source-identity block: org, team project, repo. -/
def adoBlock (g : Generator) (repo : Repository) : List String :=
  ["--ado-org \"" ++ g.options.ADOOrg ++ "\"",
   "--ado-team-project \"" ++ g.options.ADOTeamProject ++ "\"",
   "--ado-repo \"" ++ repo.Name ++ "\""]

/-- The Bitbucket Server source-identity block: server URL, project, repo. -/
def bbsBlock (g : Generator) (repo : Repository) : List String :=
  ["--bbs-server-url \"" ++ g.options.BBSServerURL ++ "\"",
   "--bbs-project \"" ++ g.options.BBSProject ++ "\"",
   "--bbs-repo \"" ++ repo.Name ++ "\""]

/-- The GitHub source-identity block: source org, source repo. -/
def githubBlock (g : Generator) (repo : Repository) : List String :=
  ["--github-source-org \"" ++ g.options.SourceOrg ++ "\"",
   "--source-repo \"" ++ repo.Name ++ "\""]

/-- The source-identity block selected by the options: ADO when `ADOOrg` is set, else
Bitbucket Server when `BBSServerURL` is set, else GitHub. -/
def sourceIdentityBlock (g : Generator) (repo : Repository) : List String :=
  if g.options.ADOOrg ≠ "" then adoBlock g repo
  else if g.options.BBSServerURL ≠ "" then bbsBlock g repo
  else githubBlock g repo

/-- The GHES tokens of a migrate-repo command, all of them under `GHESAPIUrl ≠ ""`. -/
def ghesTokens (g : Generator) : List String :=
  if g.options.GHESAPIUrl ≠ "" then
    ["--ghes-api-url \"" ++ g.options.GHESAPIUrl ++ "\""] ++
    (if g.options.AWSBucketName ≠ "" then
      ["--aws-bucket-name \"" ++ g.options.AWSBucketName ++ "\""] else []) ++
    (if g.options.AWSRegion ≠ "" then
      ["--aws-region \"" ++ g.options.AWSRegion ++ "\""] else []) ++
    (if g.options.NoSSLVerify = true then ["--no-ssl-verify"] else []) ++
    (if g.options.KeepArchive = true then ["--keep-archive"] else []) ++
    (if g.options.UseGithubStorage = true then ["--use-github-storage"] else [])
  else []

/-- The bare flags between the GHES tokens and the visibility token. -/
def modeTokens (g : Generator) (wait : Bool) : List String :=
  (if g.options.Verbose = true then ["--verbose"] else []) ++
  (if wait = false then ["--queue-only"] else []) ++
  (if g.options.SkipReleases = true then ["--skip-releases"] else []) ++
  (if g.options.LockSourceRepo = true then ["--lock-source-repo"] else [])

/-- A token of the ADO block. -/
def isAdoToken (t : String) : Bool :=
  isValueToken "--ado-org" t || isValueToken "--ado-team-project" t ||
  isValueToken "--ado-repo" t

/-- A token of the Bitbucket Server block. -/
def isBbsToken (t : String) : Bool :=
  isValueToken "--bbs-server-url" t || isValueToken "--bbs-project" t ||
  isValueToken "--bbs-repo" t

/-- A token of the GitHub source block. -/
def isGithubSourceToken (t : String) : Bool :=
  isValueToken "--github-source-org" t || isValueToken "--source-repo" t

/-- A token of one of the three source-identity blocks. -/
def isSourceIdentityToken (t : String) : Bool :=
  isAdoToken t || isBbsToken t || isGithubSourceToken t

/-- The flag name of a token: its text up to the first blank. -/
def flagName (t : String) : String :=
  String.mk (t.data.takeWhile (fun c => c != ' '))

/-- A token of the GHES group: one of the three valued flags or one of the three bare flags. -/
def isGhesToken (t : String) : Bool :=
  isValueToken "--ghes-api-url" t || isValueToken "--aws-bucket-name" t ||
  isValueToken "--aws-region" t || t == "--no-ssl-verify" || t == "--keep-archive" ||
  t == "--use-github-storage"

/-- One of the four bare flags written after the GHES tokens. -/
def isModeFlag (t : String) : Bool :=
  t == "--verbose" || t == "--queue-only" || t == "--skip-releases" ||
  t == "--lock-source-repo"

/-! ## Source selection of a configuration -/

/-- The source identifiers of a configuration are for one source only, and the selection is
encoded by which fields are non-empty: a configuration does not name both an ADO org and a
Bitbucket Server URL. -/
def exclusiveSource (o : GeneratorOptions) : Bool :=
  o.ADOOrg == "" || o.BBSServerURL == ""

/-! ## Sample configurations -/

/-- A record of options naming both an ADO org and a Bitbucket server, with AWS storage and
blob credentials required. -/
def sampleAdoBbsAws : Generator :=
  NewGenerator
    { SourceOrg := "src", TargetOrg := "tgt", Sequential := false, Verbose := false,
      SkipReleases := false, LockSourceRepo := false, DownloadMigrationLog := false,
      TargetAPIURL := "", TargetUploadsURL := "", GHESAPIUrl := "",
      AWSBucketName := "bucket", AWSRegion := "", NoSSLVerify := false, KeepArchive := false,
      UseGithubStorage := false, BlobCredentialsRequired := true, CLIVersion := "1.0",
      CLICommand := "gh gei", ADOOrg := "contoso", ADOTeamProject := "proj",
      BBSServerURL := "https://bbs.example.com", BBSProject := "KEY" }
    [⟨"repo1", "private"⟩]

/-- A Bitbucket Server configuration with AWS storage and blob credentials required. -/
def sampleBbsAws : Generator :=
  { sampleAdoBbsAws with
    options := { sampleAdoBbsAws.options with ADOOrg := "", ADOTeamProject := "" } }

/-- A record of options naming both an ADO org and a Bitbucket server, without storage
checks. -/
def sampleAdoBbs : Generator :=
  { sampleAdoBbsAws with
    options := { sampleAdoBbsAws.options with
      AWSBucketName := "", BlobCredentialsRequired := false } }

/-- An ADO configuration without storage checks. -/
def sampleAdo : Generator :=
  { sampleAdoBbs with
    options := { sampleAdoBbs.options with BBSServerURL := "", BBSProject := "" } }

/-- A sequential GitHub-to-GitHub configuration with log download and two repositories. -/
def sampleSequential : Generator :=
  NewGenerator
    { SourceOrg := "src", TargetOrg := "tgt", Sequential := true, Verbose := false,
      SkipReleases := false, LockSourceRepo := false, DownloadMigrationLog := true,
      TargetAPIURL := "", TargetUploadsURL := "", GHESAPIUrl := "",
      AWSBucketName := "", AWSRegion := "", NoSSLVerify := false, KeepArchive := false,
      UseGithubStorage := false, BlobCredentialsRequired := false, CLIVersion := "1.0",
      CLICommand := "gh gei", ADOOrg := "", ADOTeamProject := "",
      BBSServerURL := "", BBSProject := "" }
    [⟨"r1", "private"⟩, ⟨"r2", "public"⟩]

/-- The same configuration in parallel mode, without log download. -/
def sampleParallel : Generator :=
  { sampleSequential with
    options := { sampleSequential.options with
      Sequential := false, DownloadMigrationLog := false } }

/-! ## The lines of a script text -/

/-- The pieces of a list of characters between its newline characters. -/
def splitLines : List Char → List (List Char)
  | [] => [[]]
  | ch :: rest =>
    if ch = '\n' then [] :: splitLines rest
    else
      match splitLines rest with
      | [] => [[ch]]
      | piece :: pieces => (ch :: piece) :: pieces

/-- The lines of a text: Go `strings.Split(text, "\n")`. The last line of a text that ends
with a newline is `""`. No line holds a newline, and joining the lines with newlines gives
the text back (`textLines_no_newline`, `textLines_join`). -/
def textLines (text : String) : List String :=
  (splitLines text.data).map String.mk

/-- The string holds a newline character. -/
def hasNewline (s : String) : Bool :=
  s.data.contains '\n'

/-- The strings that the generator embeds in a script: the string options, and the names
and visibilities of the repositories. -/
def embeddedStrings (g : Generator) : List String :=
  [g.options.SourceOrg, g.options.TargetOrg, g.options.TargetAPIURL,
    g.options.TargetUploadsURL, g.options.GHESAPIUrl, g.options.AWSBucketName,
    g.options.AWSRegion, g.options.CLIVersion, g.options.CLICommand, g.options.ADOOrg,
    g.options.ADOTeamProject, g.options.BBSServerURL, g.options.BBSProject] ++
  g.repos.flatMap (fun repo => [repo.Name, repo.Visibility])

/-- No string that the generator embeds holds a newline character. -/
def newlineFree (g : Generator) : Bool :=
  (embeddedStrings g).all (fun s => !hasNewline s)

/-- The text that `fmt.Sprintf("Exec { %s }\n", cmd)` writes, without the newline. -/
def execText (cmd : String) : String :=
  "Exec \x7b " ++ cmd ++ " \x7d"

/-- The text of the queuing line of a repository, without the newline. -/
def queueText (g : Generator) (repo : Repository) : String :=
  "$MigrationID = ExecAndGetMigrationID \x7b " ++ g.buildMigrateRepoCommand repo false ++ " \x7d"

/-- The text of the registry assignment of a repository, without the newline. -/
def registryText (repo : Repository) : String :=
  "$RepoMigrations[\"" ++ repo.Name ++ "\"] = $MigrationID"

/-- The text of the waiting line of a repository, without the newline. -/
def waitText (g : Generator) (repo : Repository) : String :=
  "if ($RepoMigrations[\"" ++ repo.Name ++ "\"]) \x7b " ++
    g.buildWaitForMigrationCommand repo.Name ++ " \x7d"

/-- The text of the tally line of a repository, without the newline. -/
def tallyText (repo : Repository) : String :=
  "if ($RepoMigrations[\"" ++ repo.Name ++
    "\"] -and $lastexitcode -eq 0) \x7b $Succeeded++ \x7d else \x7b $Failed++ \x7d"

/-- The banner comment with the source organization, without the newline. -/
def organizationComment (g : Generator) : String :=
  "# =========== Organization: " ++ g.options.SourceOrg ++ " ==========="

/-- The banner comment of the waiting phase, without the newline. -/
def waitingComment (g : Generator) : String :=
  "# =========== Waiting for all migrations to finish for Organization: " ++
    g.options.SourceOrg ++ " ==========="

/-- A line of the text of the form `Exec { ... }`. -/
def isExecText (l : String) : Bool :=
  startsWith l "Exec \x7b " && endsWith l " \x7d"

/-- A line of the text of the form `$MigrationID = ExecAndGetMigrationID { ... }`. -/
def isQueueText (l : String) : Bool :=
  startsWith l "$MigrationID = ExecAndGetMigrationID \x7b " && endsWith l " \x7d"

/-- A line of the text of the form `if ($RepoMigrations["..."]) { ... "] }`: the guard on the
registry, and the block closed after the registry look-up that ends the wait-for-migration
command. -/
def isWaitText (l : String) : Bool :=
  startsWith l "if ($RepoMigrations[\"" && endsWith l "\"] \x7d"

/-- A line of the text of the form
`if ($RepoMigrations["..."] -and $lastexitcode -eq 0) { $Succeeded++ } else { $Failed++ }`. -/
def isTallyText (l : String) : Bool :=
  startsWith l "if ($RepoMigrations[\"" &&
    endsWith l "\"] -and $lastexitcode -eq 0) \x7b $Succeeded++ \x7d else \x7b $Failed++ \x7d"

/-- The pieces of the sequential script, in the order in which `generateSequentialScript`
writes them, each without the newline that the script writes after it: the header, the
credential checks, the banner, and the invocations of the repositories. The script is proved
to be the concatenation of these pieces, each followed by a newline
(`generateSequentialScript_segments`). -/
def sequentialSegments (g : Generator) : List String :=
  [PwshShebang, "", g.versionComment, ExecFunctionBlock] ++ credentialChecks g ++
    [organizationComment g] ++
    g.repos.flatMap (fun repo =>
      execText (g.buildMigrateRepoCommand repo true) ::
        (if g.options.DownloadMigrationLog = true then
          [execText (g.buildDownloadLogsCommand repo.Name)] else []))

/-- The pieces of the parallel script, in the order in which `generateParallelScript` writes
them, each without the newline that the script writes after it: the header, the credential
checks, the initialisation of the counters and the registry, the banners, the three pieces of
the queuing phase per repository, the pieces of the waiting phase per repository, and the
summary with the exit check. The script is proved to be the concatenation of these pieces,
each followed by a newline (`generateParallelScript_segments`). -/
def parallelSegments (g : Generator) : List String :=
  [PwshShebang, "", g.versionComment, ExecAndGetMigrationIDFunctionBlock] ++
    credentialChecks g ++
    ["", "$Succeeded = 0", "$Failed = 0", "$RepoMigrations = [ordered]@\x7b\x7d", "",
      organizationComment g, "", "# === Queuing repo migrations ==="] ++
    g.repos.flatMap (fun repo => [queueText g repo, registryText repo, ""]) ++
    ["", waitingComment g, ""] ++
    g.repos.flatMap (fun repo =>
      [waitText g repo, tallyText repo] ++
        (if g.options.DownloadMigrationLog = true then
          [g.buildDownloadLogsCommand repo.Name] else []) ++ [""]) ++
    ["", "Write-Host =============== Summary ===============",
      "Write-Host Total number of successful migrations: $Succeeded",
      "Write-Host Total number of failed migrations: $Failed", "",
      "if ($Failed -ne 0) \x7b", "    exit 1", "\x7d", "", ""]

/-- A sequential configuration without log download and with one repository, whose name
closes the quoted argument and the `Exec` block, starts a new line and opens another
`Exec` block. -/
def sampleInjectedExec : Generator :=
  NewGenerator { sampleSequential.options with DownloadMigrationLog := false }
    [⟨"a\" \x7d\nExec \x7b gh gei delete-repo --repo \"b", "private"⟩]

/-- A parallel configuration with one repository, whose name closes the quoted argument and
the script block, starts a new line and opens another queuing line. -/
def sampleInjectedQueue : Generator :=
  NewGenerator sampleParallel.options
    [⟨"a\" \x7d\n$MigrationID = ExecAndGetMigrationID \x7b gh gei delete-repo --repo \"b",
      "private"⟩]

/-- A parallel configuration with one repository, whose name completes a tally line, starts
a new line and opens another guard on the registry. -/
def sampleInjectedTally : Generator :=
  NewGenerator sampleParallel.options
    [⟨"a\"] -and $lastexitcode -eq 0) \x7b $Succeeded++ \x7d else \x7b $Failed++ \x7d\nif ($RepoMigrations[\"b",
      "private"⟩]

end Scriptgen

/-! ## pkg/http, as the fetchers use it

The fetchers of `pkg/github`, `pkg/ado` and `pkg/bbs` call `http.Client.Get` and look only at
the body or the error it returns. A fetcher therefore holds a `Getter`: the function that
gives the result of each call, which may depend on the requests made before. Every call is
recorded in a request log that the fetcher functions take and return, so that "no request
is made" is "the log is returned unchanged". Go `error` values are their messages.
Logging has no effect on results and is left out. -/

namespace Http

/-- One call of `http.Client.Get`: the URL and the headers. A Go `map[string]string` literal
is the list of its entries in the order of the source. -/
structure Request where
  url : String
  headers : List (String × String)
deriving DecidableEq, Repr

/-- What `http.Client.Get` returns for a request (the body, or an error), given the requests
made before through the same client. -/
abbrev Getter := List Request → Request → Except String String

end Http

/-! ## pkg/retry and `http.Client.Get` -/

namespace Retry

/-- Policy provides retry capabilities for operations. Durations are in nanoseconds. -/
structure Policy where
  maxAttempts : Nat
  delay : Nat
  maxDelay : Nat
deriving DecidableEq, Repr

/-- WithMaxAttempts sets the maximum number of retry attempts. -/
def WithMaxAttempts (attempts : Nat) : Policy → Policy :=
  fun p => { p with maxAttempts := attempts }

/-- WithDelay sets the initial delay between retries. -/
def WithDelay (delay : Nat) : Policy → Policy :=
  fun p => { p with delay := delay }

/-- WithMaxDelay sets the maximum delay between retries. -/
def WithMaxDelay (maxDelay : Nat) : Policy → Policy :=
  fun p => { p with maxDelay := maxDelay }

/-- New creates a new retry policy with the given options. -/
def New (opts : List (Policy → Policy)) : Policy :=
  let p : Policy := { maxAttempts := 3, delay := 1000000000, maxDelay := 30000000000 }
  opts.foldl (fun p opt => opt p) p

/-- The library function `retry.Do` of `avast/retry-go`, with the options that `Policy.Execute`
passes (`Attempts`, `Delay`, `MaxDelay`, `Context`, `DelayType`, `OnRetry`; no `RetryIf`) and
a context that is never cancelled: `fn` is called until it returns no error or, for
`attempts ≥ 1`, until it has been called `attempts` times; every error is retried, and
`attempts = 0` retries until success. `n` counts the calls already made, `errorLog` holds
their errors. The result is `none` when the fuel runs out (possible only for `attempts = 0`
or a fuel below `attempts`), else the error log of the failed run (`none` for success) and
the final state. Delays are not modelled. `retry_test.go` pins this behaviour: one call on
success, two calls when the second succeeds, `maxAttempts` calls when all fail. -/
def Do {σ : Type} (fn : σ → Option String × σ) (attempts : Nat) :
    Nat → Nat → List String → σ → Option (Option (List String) × σ)
  | 0, _, _, _ => none
  | fuel + 1, n, errorLog, s =>
    match fn s with
    | (none, s') => some (none, s')
    | (some err, s') =>
      let errorLog := errorLog ++ [err]
      if attempts ≠ 0 ∧ n + 1 = attempts then some (some errorLog, s')
      else Do fn attempts fuel (n + 1) errorLog s'

/-- Execute executes the given function with retry logic. -/
def Policy.Execute {σ : Type} (p : Policy) (fn : σ → Option String × σ) (fuel : Nat) (s : σ) :
    Option (Option (List String) × σ) :=
  Do fn p.maxAttempts fuel 0 [] s

/-- HTTPRetryableStatusCodes returns HTTP status codes that should trigger a retry. -/
def HTTPRetryableStatusCodes : List Int :=
  [408, 429, 500, 502, 503, 504]

/-- IsRetryableHTTPStatus checks if an HTTP status code should trigger a retry. -/
def IsRetryableHTTPStatus (statusCode : Int) : Bool :=
  HTTPRetryableStatusCodes.any (fun code => statusCode == code)

end Retry

namespace Http

/-- What one attempt of the closure in `Client.Get` meets: `http.NewRequestWithContext` fails,
`httpClient.Do` fails, `io.ReadAll` fails, or a response with a status code and a body. -/
inductive Outcome where
  | newRequestError (err : String)
  | doError (err : String)
  | readError (err : String)
  | response (StatusCode : Int) (body : String)
deriving DecidableEq, Repr

/-- Client is a shared HTTP client with retry logic. `httpClient` gives the outcome of an
attempt, given the attempts made before. -/
structure Client where
  httpClient : List Request → Request → Outcome
  retryPolicy : Retry.Policy

/-- Config contains configuration for the HTTP client. `Timeout` is in nanoseconds. -/
structure Config where
  Timeout : Nat
  RetryAttempts : Int
  NoSSLVerify : Bool
deriving DecidableEq, Repr

/-- DefaultConfig returns a Config with sensible defaults. -/
def DefaultConfig : Config :=
  { Timeout := 30000000000, RetryAttempts := 3, NoSSLVerify := false }

/-- NewClient creates a new HTTP client with the given configuration. `transport` gives the
outcomes of the attempts made through the client; the conversion `uint(cfg.RetryAttempts)`
wraps modulo `2^64`. -/
def NewClient (cfg : Config) (transport : List Request → Request → Outcome) : Client :=
  let retryPolicy := Retry.New
    [Retry.WithMaxAttempts (cfg.RetryAttempts % 2 ^ 64).toNat,
      Retry.WithDelay 1000000000,
      Retry.WithMaxDelay 30000000000]
  { httpClient := transport, retryPolicy := retryPolicy }

/-- The state that the closure of `Client.Get` reads and writes: the attempts made so far
and the captured variable `responseBody`. -/
structure GetState where
  attempts : List Request
  responseBody : String
deriving DecidableEq, Repr

/-- The closure that `Client.Get` hands to `retryPolicy.Execute`: one attempt. -/
def Client.getAttempt (c : Client) (url : String) (headers : List (String × String))
    (s : GetState) : Option String × GetState :=
  let req : Request := { url := url, headers := headers }
  let s' : GetState := { s with attempts := s.attempts ++ [req] }
  match c.httpClient s.attempts req with
  | .newRequestError err => (some ("failed to create request: " ++ err), s)
  | .doError err => (some ("request failed: " ++ err), s')
  | .readError err => (some ("failed to read response body: " ++ err), s')
  | .response StatusCode body =>
    if StatusCode < 200 ∨ StatusCode ≥ 300 then
      (some ("HTTP " ++ toString StatusCode ++ ": " ++ body), s')
    else
      (none, { s' with responseBody := body })

/-- Get performs an HTTP GET request with retry logic. The result is the body or the errors
of the failed attempts, with the attempts made; `none` when the fuel runs out. -/
def Client.Get (c : Client) (fuel : Nat) (attempts : List Request) (url : String)
    (headers : List (String × String)) :
    Option (Except (List String) String × List Request) :=
  let s : GetState := { attempts := attempts, responseBody := "" }
  match c.retryPolicy.Execute (c.getAttempt url headers) fuel s with
  | none => none
  | some (some err, s') => some (.error err, s'.attempts)
  | some (none, s') => some (.ok s'.responseBody, s'.attempts)

end Http

/-! ## pkg/github

`json.Unmarshal` and `url.PathEscape` are library functions and are parameters of the
model. The unbounded `for` loop of `GetRepos` takes a fuel: `none` is "not finished within
the fuel". -/

namespace Github

/-- A value that `encoding/json` stores in an `interface{}`. -/
inductive JSONValue where
  | null
  | bool (b : Bool)
  | number (text : String)
  | string (s : String)
  | array (items : List JSONValue)
  | object (fields : List (String × JSONValue))

/-- A decoded `map[string]interface{}`, as the list of its entries; `m[key]` is
`List.lookup`. -/
abbrev JSONObject := List (String × JSONValue)

/-- The library functions that the client calls. -/
structure Lib where
  /-- Go `url.PathEscape`. -/
  PathEscape : String → String
  /-- Go `json.Unmarshal` into a `[]map[string]interface{}`. -/
  Unmarshal : String → Except String (List JSONObject)

/-- Repo represents a GitHub repository. -/
structure Repo where
  Name : String
  Visibility : String
deriving DecidableEq, Repr

/-- Client is a GitHub API client. -/
structure Client where
  http : Http.Getter
  apiURL : String
  pat : String

/-- Go `v, _ := m[key].(string)`: the string stored under `key`, and `""` when the key is
missing or holds another kind of value. -/
def stringField (m : JSONObject) (key : String) : String :=
  match m.lookup key with
  | some (JSONValue.string s) => s
  | _ => ""

/-- buildHeaders constructs the HTTP headers for GitHub API requests. -/
def Client.buildHeaders (c : Client) : List (String × String) :=
  let headers : List (String × String) :=
    [("Accept", "application/vnd.github+json"), ("X-GitHub-Api-Version", "2022-11-28")]
  if c.pat ≠ "" then headers ++ [("Authorization", "Bearer " ++ c.pat)] else headers

/-- The body of the loop of `GetRepos` over `pageRepos`: one record is appended to `repos`
when its name is not empty. -/
def collectRepo (repos : List Repo) (repoData : JSONObject) : List Repo :=
  let name := stringField repoData "name"
  let visibility := stringField repoData "visibility"
  if name ≠ "" then repos ++ [{ Name := name, Visibility := visibility }]
  else repos

/-- The `for` loop of `GetRepos`, entered with the current `page`, the `repos` collected so
far and the request log. -/
def Client.getReposLoop (lib : Lib) (c : Client) (apiURL : String) :
    Nat → Nat → List Repo → List Http.Request →
      Option (Except String (List Repo) × List Http.Request)
  | 0, _, _, _ => none
  | fuel + 1, page, repos, log =>
    let pageURL := apiURL ++ "&page=" ++ toString page
    let headers := c.buildHeaders
    let req : Http.Request := { url := pageURL, headers := headers }
    match c.http log req with
    | .error err =>
      some (.error ("failed to fetch repos (page " ++ toString page ++ "): " ++ err),
        log ++ [req])
    | .ok body =>
      match lib.Unmarshal body with
      | .error err => some (.error ("failed to parse repos response: " ++ err), log ++ [req])
      | .ok pageRepos =>
        if pageRepos.length = 0 then some (.ok repos, log ++ [req])
        else
          let repos := pageRepos.foldl collectRepo repos
          if pageRepos.length < 100 then some (.ok repos, log ++ [req])
          else c.getReposLoop lib apiURL fuel (page + 1) repos (log ++ [req])

/-- GetRepos fetches all repositories for a given organization. -/
def Client.GetRepos (lib : Lib) (c : Client) (fuel : Nat) (log : List Http.Request)
    (org : String) : Option (Except String (List Repo) × List Http.Request) :=
  let escapedOrg := lib.PathEscape org
  let apiURL := c.apiURL ++ "/orgs/" ++ escapedOrg ++ "/repos?per_page=100"
  c.getReposLoop lib apiURL fuel 1 [] log

end Github

/-! ## pkg/ado -/

namespace Ado

/-- TeamProject represents an Azure DevOps team project. -/
structure TeamProject where
  ID : String
  Name : String
deriving DecidableEq, Repr

/-- Repository represents an Azure DevOps repository. -/
structure Repository where
  ID : String
  Name : String
  Size : Nat
  IsDisabled : Bool
deriving DecidableEq, Repr

/-- The type teamProjectsResponse is the response from the projects list API. -/
structure teamProjectsResponse where
  Value : List TeamProject
deriving DecidableEq, Repr

/-- The type repositoriesResponse is the response from the repositories list API. -/
structure repositoriesResponse where
  Value : List Repository
deriving DecidableEq, Repr

/-- The type serviceEndpoint represents a service connection endpoint (`Kind` is the Go
field `Type`). -/
structure serviceEndpoint where
  ID : String
  Kind : String
  Name : String
deriving DecidableEq, Repr

/-- The type serviceEndpointsResponse is the response from the service endpoints API. -/
structure serviceEndpointsResponse where
  Value : List serviceEndpoint
deriving DecidableEq, Repr

/-- The library functions that the client calls. -/
structure Lib where
  /-- Go `url.PathEscape`. -/
  PathEscape : String → String
  /-- Go `strings.EqualFold`. -/
  EqualFold : String → String → Bool
  /-- Go `json.Unmarshal` into a `teamProjectsResponse`. -/
  UnmarshalTeamProjects : String → Except String teamProjectsResponse
  /-- Go `json.Unmarshal` into a `repositoriesResponse`. -/
  UnmarshalRepositories : String → Except String repositoriesResponse
  /-- Go `json.Unmarshal` into a `serviceEndpointsResponse`. -/
  UnmarshalServiceEndpoints : String → Except String serviceEndpointsResponse

/-- Client is a client for the Azure DevOps API. -/
structure Client where
  httpClient : Http.Getter
  baseURL : String
  pat : String

/-- makeAuthHeaders creates authentication headers for ADO API requests. -/
def Client.makeAuthHeaders (c : Client) : List (String × String) :=
  [("Authorization", "Basic " ++ c.pat), ("Content-Type", "application/json")]

/-- GetTeamProjects retrieves all team projects in an organization. -/
def Client.GetTeamProjects (lib : Lib) (c : Client) (log : List Http.Request) (org : String) :
    Except String (List TeamProject) × List Http.Request :=
  if org = "" then (.error "org cannot be empty", log)
  else
    let orgEscaped := lib.PathEscape org
    let apiURL := c.baseURL ++ "/" ++ orgEscaped ++ "/_apis/projects?api-version=6.1-preview"
    let req : Http.Request := { url := apiURL, headers := c.makeAuthHeaders }
    match c.httpClient log req with
    | .error err => (.error ("failed to get team projects: " ++ err), log ++ [req])
    | .ok body =>
      match lib.UnmarshalTeamProjects body with
      | .error err =>
        (.error ("failed to parse team projects response: " ++ err), log ++ [req])
      | .ok response => (.ok response.Value, log ++ [req])

/-- GetRepos retrieves all repositories in a team project. -/
def Client.GetRepos (lib : Lib) (c : Client) (log : List Http.Request)
    (org teamProject : String) : Except String (List Repository) × List Http.Request :=
  if org = "" then (.error "org cannot be empty", log)
  else if teamProject = "" then (.error "teamProject cannot be empty", log)
  else
    let orgEscaped := lib.PathEscape org
    let projectEscaped := lib.PathEscape teamProject
    let apiURL := c.baseURL ++ "/" ++ orgEscaped ++ "/" ++ projectEscaped ++
      "/_apis/git/repositories?api-version=6.1-preview.1"
    let req : Http.Request := { url := apiURL, headers := c.makeAuthHeaders }
    match c.httpClient log req with
    | .error err => (.error ("failed to get repositories: " ++ err), log ++ [req])
    | .ok body =>
      match lib.UnmarshalRepositories body with
      | .error err =>
        (.error ("failed to parse repositories response: " ++ err), log ++ [req])
      | .ok response => (.ok response.Value, log ++ [req])

/-- GetEnabledRepos retrieves only enabled repositories in a team project. -/
def Client.GetEnabledRepos (lib : Lib) (c : Client) (log : List Http.Request)
    (org teamProject : String) : Except String (List Repository) × List Http.Request :=
  match c.GetRepos lib log org teamProject with
  | (.error err, log) => (.error err, log)
  | (.ok repos, log) =>
    let enabled : List Repository := []
    let enabled := repos.foldl
      (fun enabled repo => if !repo.IsDisabled then enabled ++ [repo] else enabled) enabled
    (.ok enabled, log)

/-- The loop of `getTeamProjectGithubAppId` over `response.Value`: the ID of the first
endpoint that passes one of the two checks, `""` when the list is exhausted. -/
def scanEndpoints (lib : Lib) (githubOrg teamProject : String) : List serviceEndpoint → String
  | [] => ""
  | endpoint :: rest =>
    if lib.EqualFold endpoint.Kind "GitHub" && lib.EqualFold endpoint.Name githubOrg then
      endpoint.ID
    else if lib.EqualFold endpoint.Kind "GitHubProximaPipelines" &&
        lib.EqualFold endpoint.Name teamProject then
      endpoint.ID
    else scanEndpoints lib githubOrg teamProject rest

/-- The function getTeamProjectGithubAppId retrieves the GitHub App ID for a specific team
project. -/
def Client.getTeamProjectGithubAppId (lib : Lib) (c : Client) (log : List Http.Request)
    (org githubOrg teamProject : String) : Except String String × List Http.Request :=
  let orgEscaped := lib.PathEscape org
  let projectEscaped := lib.PathEscape teamProject
  let apiURL := c.baseURL ++ "/" ++ orgEscaped ++ "/" ++ projectEscaped ++
    "/_apis/serviceendpoint/endpoints?api-version=6.0-preview.4"
  let req : Http.Request := { url := apiURL, headers := c.makeAuthHeaders }
  match c.httpClient log req with
  | .error err => (.error ("failed to get service endpoints: " ++ err), log ++ [req])
  | .ok body =>
    match lib.UnmarshalServiceEndpoints body with
    | .error err =>
      (.error ("failed to parse service endpoints response: " ++ err), log ++ [req])
    | .ok response => (.ok (scanEndpoints lib githubOrg teamProject response.Value), log ++ [req])

/-- The loop of `GetGithubAppId` over `teamProjects`, with the `return "", nil` that follows
it. -/
def Client.searchTeamProjects (lib : Lib) (c : Client) (org githubOrg : String) :
    List String → List Http.Request → Except String String × List Http.Request
  | [], log => (.ok "", log)
  | teamProject :: rest, log =>
    match c.getTeamProjectGithubAppId lib log org githubOrg teamProject with
    | (.error _, log) => c.searchTeamProjects lib org githubOrg rest log
    | (.ok appID, log) =>
      if appID ≠ "" then (.ok appID, log)
      else c.searchTeamProjects lib org githubOrg rest log

/-- GetGithubAppId retrieves the GitHub App service connection ID for a GitHub organization
by searching through team projects for a matching service endpoint. -/
def Client.GetGithubAppId (lib : Lib) (c : Client) (log : List Http.Request)
    (org githubOrg : String) (teamProjects : List String) :
    Except String String × List Http.Request :=
  if org = "" then (.error "org cannot be empty", log)
  else if githubOrg = "" then (.error "githubOrg cannot be empty", log)
  else if teamProjects.length = 0 then (.ok "", log)
  else c.searchTeamProjects lib org githubOrg teamProjects log

end Ado

/-! ## pkg/bbs -/

namespace Bbs

/-- Project represents a Bitbucket Server project. -/
structure Project where
  ID : Int
  Key : String
  Name : String
deriving DecidableEq, Repr

/-- Repository represents a Bitbucket Server repository. -/
structure Repository where
  ID : Int
  Slug : String
  Name : String
deriving DecidableEq, Repr

/-- The type projectsResponse is the paginated response from the projects API. -/
structure projectsResponse where
  Values : List Project
  Size : Int
  IsLastPage : Bool
  Start : Int
  Limit : Int
  NextPageStart : Int
deriving DecidableEq, Repr

/-- The type repositoriesResponse is the paginated response from the repositories API. -/
structure repositoriesResponse where
  Values : List Repository
  Size : Int
  IsLastPage : Bool
  Start : Int
  Limit : Int
  NextPageStart : Int
deriving DecidableEq, Repr

/-- The library functions that the client calls. -/
structure Lib where
  /-- Go `url.PathEscape`. -/
  PathEscape : String → String
  /-- Go `json.Unmarshal` into a `projectsResponse`. -/
  UnmarshalProjects : String → Except String projectsResponse
  /-- Go `json.Unmarshal` into a `repositoriesResponse`. -/
  UnmarshalRepositories : String → Except String repositoriesResponse

/-- Client is a client for the Bitbucket Server API. -/
structure Client where
  httpClient : Http.Getter
  baseURL : String
  username : String
  password : String

/-- makeAuthHeaders creates authentication headers for BBS API requests. -/
def Client.makeAuthHeaders (c : Client) : List (String × String) :=
  let auth := c.username ++ ":" ++ c.password
  [("Authorization", "Basic " ++ auth), ("Content-Type", "application/json")]

/-- The `for` loop of `GetProjects`, entered with the current `start`, the projects collected
so far and the request log. -/
def Client.getProjectsLoop (lib : Lib) (c : Client) (limit : Int) :
    Nat → Int → List Project → List Http.Request →
      Option (Except String (List Project) × List Http.Request)
  | 0, _, _, _ => none
  | fuel + 1, start, allProjects, log =>
    let apiURL := c.baseURL ++ "/rest/api/1.0/projects?start=" ++ toString start ++
      "&limit=" ++ toString limit
    let req : Http.Request := { url := apiURL, headers := c.makeAuthHeaders }
    match c.httpClient log req with
    | .error err => some (.error ("failed to get projects: " ++ err), log ++ [req])
    | .ok body =>
      match lib.UnmarshalProjects body with
      | .error err =>
        some (.error ("failed to parse projects response: " ++ err), log ++ [req])
      | .ok response =>
        let allProjects := allProjects ++ response.Values
        if response.IsLastPage then some (.ok allProjects, log ++ [req])
        else c.getProjectsLoop lib limit fuel response.NextPageStart allProjects (log ++ [req])

/-- GetProjects retrieves all projects in the Bitbucket Server instance. -/
def Client.GetProjects (lib : Lib) (c : Client) (fuel : Nat) (log : List Http.Request) :
    Option (Except String (List Project) × List Http.Request) :=
  let allProjects : List Project := []
  let start : Int := 0
  let limit : Int := 25
  c.getProjectsLoop lib limit fuel start allProjects log

/-- The `for` loop of `GetRepos`, entered with the current `start`, the repositories
collected so far and the request log. -/
def Client.getReposLoop (lib : Lib) (c : Client) (projectKey : String) (limit : Int) :
    Nat → Int → List Repository → List Http.Request →
      Option (Except String (List Repository) × List Http.Request)
  | 0, _, _, _ => none
  | fuel + 1, start, allRepos, log =>
    let projectKeyEscaped := lib.PathEscape projectKey
    let apiURL := c.baseURL ++ "/rest/api/1.0/projects/" ++ projectKeyEscaped ++
      "/repos?start=" ++ toString start ++ "&limit=" ++ toString limit
    let req : Http.Request := { url := apiURL, headers := c.makeAuthHeaders }
    match c.httpClient log req with
    | .error err => some (.error ("failed to get repositories: " ++ err), log ++ [req])
    | .ok body =>
      match lib.UnmarshalRepositories body with
      | .error err =>
        some (.error ("failed to parse repositories response: " ++ err), log ++ [req])
      | .ok response =>
        let allRepos := allRepos ++ response.Values
        if response.IsLastPage then some (.ok allRepos, log ++ [req])
        else
          c.getReposLoop lib projectKey limit fuel response.NextPageStart allRepos
            (log ++ [req])

/-- GetRepos retrieves all repositories in a project. -/
def Client.GetRepos (lib : Lib) (c : Client) (fuel : Nat) (log : List Http.Request)
    (projectKey : String) : Option (Except String (List Repository) × List Http.Request) :=
  if projectKey = "" then some (.error "projectKey cannot be empty", log)
  else
    let allRepos : List Repository := []
    let start : Int := 0
    let limit : Int := 25
    c.getReposLoop lib projectKey limit fuel start allRepos log

end Bbs

/-! ## Vocabulary of the fetcher statements -/

namespace Http

/-- A sample server that answers every attempt with status 404. -/
def sampleNotFound : List Request → Request → Outcome :=
  fun _ _ => .response 404 "Not Found"

/-- The request of the samples. -/
def sampleRequest : Request :=
  { url := "https://api.github.com/orgs/octo/repos", headers := [("Accept", "application/json")] }

end Http

namespace Github

/-- The request that the loop of `GetRepos` makes for a page. -/
def requestAt (c : Client) (apiURL : String) (page : Nat) : Http.Request :=
  { url := apiURL ++ "&page=" ++ toString page, headers := c.buildHeaders }

/-- The request that `GetRepos` makes for a page of an organization. -/
def pageRequest (lib : Lib) (c : Client) (org : String) (page : Nat) : Http.Request :=
  requestAt c (c.apiURL ++ "/orgs/" ++ lib.PathEscape org ++ "/repos?per_page=100") page

/-- The wording of the specification for the result of `GetRepos`: of the records, in
their order, those that hold a non-empty string under `name`, each with the string it
holds under `visibility` (`""` when it holds none). -/
def normalize (records : List JSONObject) : List Repo :=
  records.filterMap (fun record =>
    match record.lookup "name" with
    | some (JSONValue.string name) =>
      if name ≠ "" then some { Name := name, Visibility := stringField record "visibility" }
      else none
    | _ => none)

/-- The repository read off a record: its name and its visibility. -/
def toRepo (record : JSONObject) : Repo :=
  { Name := stringField record "name", Visibility := stringField record "visibility" }

/-- The page with index `page` (counted from 0) of a source that holds `records` and serves
them in consecutive pages of 100. -/
def pageOf (records : List JSONObject) (page : Nat) : List JSONObject :=
  (records.drop (page * 100)).take 100

/-- A sample record: a repository with a name of `n + 1` letters. -/
def sampleRecord (n : Nat) : JSONObject :=
  [("id", JSONValue.number "1"),
    ("name", JSONValue.string (String.mk (List.replicate (n + 1) 'r'))),
    ("visibility", JSONValue.string "private")]

/-- A sample source of `total` repositories. -/
def sampleRecords (total : Nat) : List JSONObject :=
  (List.range total).map sampleRecord

/-- Sample records of which only the first and the last hold a non-empty string under
`name`. -/
def sampleMixedRecords : List JSONObject :=
  [[("name", JSONValue.string "alpha"), ("visibility", JSONValue.string "public")],
    [("visibility", JSONValue.string "private")],
    [("name", JSONValue.number "7"), ("visibility", JSONValue.string "private")],
    [("name", JSONValue.string ""), ("visibility", JSONValue.string "internal")],
    [("name", JSONValue.string "omega"), ("visibility", JSONValue.null)]]

/-- A sample server: it answers its `n`-th request (counted from 0) with a body of `n`
marks. -/
def sampleClient : Client :=
  { http := fun log _ => .ok (String.mk (List.replicate log.length 'x')),
    apiURL := "https://api.github.com",
    pat := "" }

/-- The library for the sample server over a source holding `records`: a body of `n` marks
parses to the page with index `n`. -/
def sampleLib (records : List JSONObject) : Lib :=
  { PathEscape := fun s => s,
    Unmarshal := fun body => .ok (pageOf records body.length) }

end Github

namespace Ado

/-- The request that `GetRepos` makes. -/
def reposRequest (lib : Lib) (c : Client) (org teamProject : String) : Http.Request :=
  { url := c.baseURL ++ "/" ++ lib.PathEscape org ++ "/" ++ lib.PathEscape teamProject ++
      "/_apis/git/repositories?api-version=6.1-preview.1",
    headers := c.makeAuthHeaders }

/-- The wording of the specification for `GetEnabledRepos`: the outcome of `GetRepos`, of
whose result only the repositories with `IsDisabled = false` are kept. -/
def enabledReposSpec (lib : Lib) (c : Client) (log : List Http.Request)
    (org teamProject : String) : Except String (List Repository) × List Http.Request :=
  match c.GetRepos lib log org teamProject with
  | (.error err, log) => (.error err, log)
  | (.ok repos, log) => (.ok (repos.filter (fun repo => repo.IsDisabled = false)), log)

/-- The request with which `GetGithubAppId` probes a team project. -/
def endpointsRequest (lib : Lib) (c : Client) (org teamProject : String) : Http.Request :=
  { url := c.baseURL ++ "/" ++ lib.PathEscape org ++ "/" ++ lib.PathEscape teamProject ++
      "/_apis/serviceendpoint/endpoints?api-version=6.0-preview.4",
    headers := c.makeAuthHeaders }

/-- The wording of the specification for a matching endpoint: type GitHub with the name of
the GitHub organization, or type GitHubProximaPipelines with the name of the team project. -/
def matchesEndpoint (lib : Lib) (githubOrg teamProject : String) (endpoint : serviceEndpoint) :
    Bool :=
  (lib.EqualFold endpoint.Kind "GitHub" && lib.EqualFold endpoint.Name githubOrg) ||
    (lib.EqualFold endpoint.Kind "GitHubProximaPipelines" &&
      lib.EqualFold endpoint.Name teamProject)

/-- The outcome of probing a team project after the requests of `log`: the id of the first
matching endpoint of its listing, and `none` when the request fails, the answer does not
parse, or the listing has no matching endpoint. -/
def probe (lib : Lib) (c : Client) (log : List Http.Request)
    (org githubOrg teamProject : String) : Option String :=
  match c.httpClient log (endpointsRequest lib c org teamProject) with
  | .error _ => none
  | .ok body =>
    match lib.UnmarshalServiceEndpoints body with
    | .error _ => none
    | .ok response =>
      (response.Value.find? (matchesEndpoint lib githubOrg teamProject)).map
        (fun endpoint => endpoint.ID)

/-- A sample server: it answers its `n`-th request (counted from 0) with the `n`-th of
`answers`, and fails when they are used up. -/
def sampleClient (answers : List (Except String String)) : Client :=
  { httpClient := fun log _ => (answers.get? log.length).getD (.error "connection refused"),
    baseURL := "https://dev.azure.com",
    pat := "pat" }

/-- The library for the sample server: letters are compared after lowering them, and three
bodies parse to a listing of endpoints. -/
def sampleLib : Lib :=
  { PathEscape := fun s => s,
    EqualFold := fun a b => a.data.map Char.toLower == b.data.map Char.toLower,
    UnmarshalTeamProjects := fun _ => .error "unexpected end of JSON input",
    UnmarshalRepositories := fun _ => .error "unexpected end of JSON input",
    UnmarshalServiceEndpoints := fun body =>
      if body = "empty-id" then .ok { Value := [{ ID := "", Kind := "GitHub", Name := "octo" }] }
      else if body = "app-b" then
        .ok { Value := [{ ID := "other", Kind := "Generic", Name := "octo" },
          { ID := "id-b", Kind := "github", Name := "Octo" }] }
      else if body = "app-c" then
        .ok { Value := [{ ID := "id-c", Kind := "GitHubProximaPipelines", Name := "C" }] }
      else if body = "no-endpoints" then .ok { Value := [] }
      else .error "invalid character" }

end Ado

namespace Bbs

/-- The `start` of the request with index `i` (counted from 0) of a paging loop entered
with `start`, when the answer with index `i` names `next i` as its `nextPageStart`. -/
def startOf (start : Int) (next : Nat → Int) : Nat → Int
  | 0 => start
  | i + 1 => next i

/-- The request that `GetProjects` makes for the page at `start`. -/
def projectsRequest (c : Client) (start limit : Int) : Http.Request :=
  { url := c.baseURL ++ "/rest/api/1.0/projects?start=" ++ toString start ++ "&limit=" ++
      toString limit,
    headers := c.makeAuthHeaders }

/-- The request that `GetRepos` makes for the page at `start` of a project. -/
def reposRequest (lib : Lib) (c : Client) (projectKey : String) (start limit : Int) :
    Http.Request :=
  { url := c.baseURL ++ "/rest/api/1.0/projects/" ++ lib.PathEscape projectKey ++
      "/repos?start=" ++ toString start ++ "&limit=" ++ toString limit,
    headers := c.makeAuthHeaders }

/-- A sample server: it answers its `n`-th request (counted from 0) with a body of `n`
marks. -/
def sampleClient : Client :=
  { httpClient := fun log _ => .ok (String.mk (List.replicate log.length 'x')),
    baseURL := "https://bbs.example.com",
    username := "user",
    password := "pass" }

/-- The answers of the sample server to a listing of projects: two projects, then a last
page with one. -/
def sampleProjectPages (n : Nat) : projectsResponse :=
  match n with
  | 0 =>
    { Values := [{ ID := 1, Key := "PROJ1", Name := "Project 1" },
        { ID := 2, Key := "PROJ2", Name := "Project 2" }],
      Size := 2, IsLastPage := false, Start := 0, Limit := 25, NextPageStart := 2 }
  | _ =>
    { Values := [{ ID := 3, Key := "PROJ3", Name := "Project 3" }],
      Size := 1, IsLastPage := true, Start := 2, Limit := 25, NextPageStart := 0 }

/-- The answers of the sample server to a listing of repositories: one repository, then a
last page with one. -/
def sampleRepoPages (n : Nat) : repositoriesResponse :=
  match n with
  | 0 =>
    { Values := [{ ID := 1, Slug := "repo1", Name := "Repository 1" }],
      Size := 1, IsLastPage := false, Start := 0, Limit := 25, NextPageStart := 1 }
  | _ =>
    { Values := [{ ID := 2, Slug := "repo2", Name := "Repository 2" }],
      Size := 1, IsLastPage := true, Start := 1, Limit := 25, NextPageStart := 0 }

/-- The library for the sample server: a body of `n` marks parses to the answer with index
`n`. -/
def sampleLib : Lib :=
  { PathEscape := fun s => s,
    UnmarshalProjects := fun body => .ok (sampleProjectPages body.length),
    UnmarshalRepositories := fun body => .ok (sampleRepoPages body.length) }

end Bbs

namespace Scriptgen

/-- The parallel sample with one repository whose name holds a double quote, a dollar sign
and a newline. -/
def sampleHostile : Generator :=
  { sampleParallel with repos := [⟨"a\"$b\nc", "private"⟩] }

end Scriptgen

/-! ## pkg/retry: ExecuteWithResult -/

namespace Retry

/-- The variables that the closure of `ExecuteWithResult` captures (`result`, `lastErr`),
with the state of `fn`. -/
structure ResultState (σ T : Type) where
  result : T
  lastErr : Option String
  inner : σ

/-- The closure that `ExecuteWithResult` hands to `Execute`: it calls `fn` and stores what
it returns. -/
def resultClosure {σ T : Type} (fn : σ → (T × Option String) × σ) (st : ResultState σ T) :
    Option String × ResultState σ T :=
  match fn st.inner with
  | ((result, err), inner) => (err, { result := result, lastErr := err, inner := inner })

/-- ExecuteWithResult executes the given function with retry logic and returns a result.
`zero` is the zero value of `T`; `%w` of a nil error prints `%!w(<nil>)`. The result is
`none` when the fuel runs out. -/
def ExecuteWithResult {σ T : Type} (zero : T) (p : Policy) (fn : σ → (T × Option String) × σ)
    (fuel : Nat) (s : σ) : Option ((T × Option String) × σ) :=
  let st : ResultState σ T := { result := zero, lastErr := none, inner := s }
  match p.Execute (resultClosure fn) fuel st with
  | none => none
  | some (some _, st) =>
    let lastErr := match st.lastErr with
      | some err => err
      | none => "%!w(<nil>)"
    some ((st.result,
      some ("retry failed after " ++ toString p.maxAttempts ++ " attempts: " ++ lastErr)),
      st.inner)
  | some (none, st) => some ((st.result, none), st.inner)

end Retry

/-! ## Vocabulary of the retry statements -/

namespace Retry

/-- The state of an operation after `i` calls, from the state `s`. -/
def stateAt {σ : Type} (fn : σ → Option String × σ) (s : σ) : Nat → σ
  | 0 => s
  | i + 1 => (fn (stateAt fn s i)).2

/-- The error that call `i` (counted from 0) of an operation returns, `none` for success. -/
def outcomeAt {σ : Type} (fn : σ → Option String × σ) (s : σ) (i : Nat) : Option String :=
  (fn (stateAt fn s i)).1

/-- An operation with a counter of its invocations. -/
def counted {σ : Type} (fn : σ → Option String × σ) (st : σ × Nat) : Option String × (σ × Nat) :=
  ((fn st.1).1, ((fn st.1).2, st.2 + 1))

/-- The operation under a function with a result: its error and its next state. -/
def erase {σ T : Type} (fn : σ → (T × Option String) × σ) (s : σ) : Option String × σ :=
  ((fn s).1.2, (fn s).2)

/-- The result that call `i` (counted from 0) of a function with a result returns. -/
def resultAt {σ T : Type} (fn : σ → (T × Option String) × σ) (s : σ) (i : Nat) : T :=
  (fn (stateAt (erase fn) s i)).1.1

/-- A sample operation on a call counter: call `i` fails with `failure <i>` while `i` is
below `successAt`, and succeeds from then on. -/
def sampleOp (successAt : Nat) (calls : Nat) : Option String × Nat :=
  (if calls < successAt then some ("failure " ++ toString calls) else none, calls + 1)

/-- A sample function with a result on a call counter: call `i` returns the result `i`,
with the error `failure <i>` while `i` is below `successAt`. -/
def sampleFn (successAt : Nat) (calls : Nat) : (Nat × Option String) × Nat :=
  ((calls, if calls < successAt then some ("failure " ++ toString calls) else none), calls + 1)

end Retry

namespace Github

/-- The wording of the stop rule of `GetRepos`, as a check of the requests that a run
entered with `page` after the requests of `log` has made: the first is the request for
`page`; it is the last when it fails, when its answer does not parse, or when the page has
fewer than 100 records; else the rest is such a run entered with `page + 1`. -/
def pagingTrace (lib : Lib) (c : Client) (apiURL : String) :
    Nat → List Http.Request → List Http.Request → Bool
  | _, _, [] => false
  | page, log, req :: rest =>
    decide (req = requestAt c apiURL page) &&
      match c.http log req with
      | .error _ => rest.isEmpty
      | .ok body =>
        match lib.Unmarshal body with
        | .error _ => rest.isEmpty
        | .ok pageRepos =>
          if pageRepos.length < 100 then rest.isEmpty
          else pagingTrace lib c apiURL (page + 1) (log ++ [req]) rest

/-- A sample record without a name. -/
def sampleNameless : JSONObject :=
  [("id", JSONValue.number "1"), ("visibility", JSONValue.string "private")]

/-- The library for the sample server over a source whose first page holds 100 records
without a name and whose second page holds one named record. -/
def sampleLibNameless : Lib :=
  { PathEscape := fun s => s,
    Unmarshal := fun body =>
      if body.length = 0 then .ok (List.replicate 100 sampleNameless)
      else if body.length = 1 then .ok [sampleRecord 0]
      else .ok [] }

end Github

namespace Bbs

/-- The wording of the paging rule of `GetProjects`, as a check of the requests that a run
entered with `start` after the requests of `log` has made: the first carries `start` and
`limit`; it is the last when it fails, when its answer does not parse, or when the answer
has `isLastPage = true`; else the rest is such a run entered with the `nextPageStart` of the
answer. -/
def projectsTrace (lib : Lib) (c : Client) (limit : Int) :
    Int → List Http.Request → List Http.Request → Bool
  | _, _, [] => false
  | start, log, req :: rest =>
    decide (req = projectsRequest c start limit) &&
      match c.httpClient log req with
      | .error _ => rest.isEmpty
      | .ok body =>
        match lib.UnmarshalProjects body with
        | .error _ => rest.isEmpty
        | .ok response =>
          if response.IsLastPage then rest.isEmpty
          else projectsTrace lib c limit response.NextPageStart (log ++ [req]) rest

/-- The wording of the paging rule of `GetRepos`, as a check of the requests of a run, like
`projectsTrace`. -/
def reposTrace (lib : Lib) (c : Client) (projectKey : String) (limit : Int) :
    Int → List Http.Request → List Http.Request → Bool
  | _, _, [] => false
  | start, log, req :: rest =>
    decide (req = reposRequest lib c projectKey start limit) &&
      match c.httpClient log req with
      | .error _ => rest.isEmpty
      | .ok body =>
        match lib.UnmarshalRepositories body with
        | .error _ => rest.isEmpty
        | .ok response =>
          if response.IsLastPage then rest.isEmpty
          else reposTrace lib c projectKey limit response.NextPageStart (log ++ [req]) rest

/-- The answers of a sample server whose first answer omits `nextPageStart` (the field is
0) and is not the last page. -/
def sampleOmittedPages (n : Nat) : projectsResponse :=
  match n with
  | 0 =>
    { Values := [{ ID := 1, Key := "PROJ1", Name := "Project 1" }],
      Size := 1, IsLastPage := false, Start := 0, Limit := 25, NextPageStart := 0 }
  | _ =>
    { Values := [{ ID := 2, Key := "PROJ2", Name := "Project 2" }],
      Size := 1, IsLastPage := true, Start := 0, Limit := 25, NextPageStart := 0 }

/-- The library for the sample server with the omitted field. -/
def sampleLibOmitted : Lib :=
  { sampleLib with UnmarshalProjects := fun body => .ok (sampleOmittedPages body.length) }

end Bbs

namespace Ado

/-- The library of the samples, with one more body: a listing that starts with an endpoint
of another type, then holds a matching endpoint with an empty id and a matching endpoint
with the id `late`. -/
def sampleLibLate : Lib :=
  { sampleLib with
    UnmarshalServiceEndpoints := fun body =>
      if body = "empty-then-late" then
        .ok { Value := [{ ID := "x", Kind := "Generic", Name := "octo" },
          { ID := "", Kind := "GitHub", Name := "octo" },
          { ID := "late", Kind := "GitHub", Name := "octo" }] }
      else sampleLib.UnmarshalServiceEndpoints body }

end Ado

/-! ## pkg/github: the client constructor and GetVersion -/

namespace Github

/-- Go `strings.TrimRight(s, cutset)`: `s` without its trailing characters that are in
`cutset`. -/
def stringsTrimRight (s cutset : String) : String :=
  String.mk (s.data.reverse.dropWhile (fun ch => cutset.data.contains ch)).reverse

/-- VersionInfo represents GitHub Enterprise Server version information. -/
structure VersionInfo where
  Version : String
  InstalledVersion : String
deriving DecidableEq, Repr

/-- Config contains configuration for the GitHub API client. -/
structure Config where
  APIURL : String
  PAT : String
  NoSSLVerify : Bool
deriving DecidableEq, Repr

/-- NewClient creates a new GitHub API client. -/
def NewClient (cfg : Config) (httpClient : Http.Getter) : Client :=
  let apiURL := cfg.APIURL
  let apiURL := if apiURL = "" then "https://api.github.com" else apiURL
  let apiURL := stringsTrimRight apiURL "/"
  { http := httpClient, apiURL := apiURL, pat := cfg.PAT }

/-- GetVersion fetches the GitHub Enterprise Server version. `unmarshalObject` is Go
`json.Unmarshal` into a `map[string]interface{}`. -/
def Client.GetVersion (unmarshalObject : String → Except String JSONObject) (c : Client)
    (log : List Http.Request) : Except String VersionInfo × List Http.Request :=
  if c.apiURL = "https://api.github.com" then
    (.error "version endpoint not available on GitHub.com", log)
  else
    let apiURL := c.apiURL ++ "/meta"
    let headers := c.buildHeaders
    let req : Http.Request := { url := apiURL, headers := headers }
    match c.http log req with
    | .error err => (.error ("failed to fetch version: " ++ err), log ++ [req])
    | .ok body =>
      match unmarshalObject body with
      | .error err => (.error ("failed to parse version response: " ++ err), log ++ [req])
      | .ok metaObject =>
        let version := stringField metaObject "installed_version"
        (.ok { Version := version, InstalledVersion := version }, log ++ [req])

end Github

/-! ## cmd/gei/generate_script.go

`strings.Contains`, `strings.HasPrefix`, `strings.Split` (with a separator of one character)
and `strconv.Atoi` (for a 64-bit `int`) are defined on the characters of the string;
`url.ParseRequestURI`, `os.Getenv`, `os.WriteFile`, the logger and the HTTP client are
fields of `Sys`. -/

namespace Gei

/-- Go `strings.Contains(s, substr)`. -/
def stringsContains (s substr : String) : Bool :=
  s.data.tails.any (fun t => substr.data.isPrefixOf t)

/-- Go `strings.HasPrefix(s, p)`. -/
def stringsHasPrefix (s p : String) : Bool :=
  p.data.isPrefixOf s.data

/-- The pieces of a list of characters between the occurrences of `sep`. -/
def splitChars (sep : Char) : List Char → List (List Char)
  | [] => [[]]
  | ch :: rest =>
    if ch = sep then [] :: splitChars sep rest
    else
      match splitChars sep rest with
      | [] => [[ch]]
      | piece :: pieces => (ch :: piece) :: pieces

/-- Go `strings.Split(s, sep)` for a separator of one character. -/
def stringsSplit (s : String) (sep : Char) : List String :=
  (splitChars sep s.data).map String.mk

/-- The number that a list of decimal digits denotes after `acc`, `none` when a character is
not a digit. -/
def parseDigits : List Char → Nat → Option Nat
  | [], acc => some acc
  | ch :: rest, acc =>
    if 48 ≤ ch.toNat ∧ ch.toNat ≤ 57 then parseDigits rest (acc * 10 + (ch.toNat - 48))
    else none

/-- Go `strconv.Atoi(s)` for a 64-bit `int`, `none` for an error: an optional sign followed
by one or more decimal digits that denote a number from `-2^63` to `2^63 - 1`. -/
def strconvAtoi (s : String) : Option Int :=
  match s.data with
  | [] => none
  | ch :: rest =>
    if ch = '-' then
      if rest = [] then none
      else
        match parseDigits rest 0 with
        | some n => if n ≤ 2 ^ 63 then some (-(n : Int)) else none
        | none => none
    else
      let digits := if ch = '+' then rest else ch :: rest
      if digits = [] then none
      else
        match parseDigits digits 0 with
        | some n => if n < 2 ^ 63 then some (n : Int) else none
        | none => none

/-- The options of the generate-script command. -/
structure generateScriptOptions where
  githubSourceOrg : String
  githubTargetOrg : String
  output : String
  ghesAPIURL : String
  awsBucketName : String
  awsRegion : String
  noSSLVerify : Bool
  skipReleases : Bool
  lockSourceRepo : Bool
  downloadMigrationLog : Bool
  sequential : Bool
  githubSourcePAT : String
  keepArchive : Bool
  targetAPIURL : String
  targetUploadsURL : String
  useGithubStorage : Bool
deriving DecidableEq, Repr

/-- What `runGenerateScript` takes from outside the program. -/
structure Sys where
  /-- Go `os.Getenv`. -/
  Getenv : String → String
  /-- What `http.Client.Get` of the client built by `http.NewClient` returns. -/
  httpGet : Http.Getter
  /-- The library functions of the GitHub client. -/
  lib : Github.Lib
  /-- Go `json.Unmarshal` into a `map[string]interface{}`. -/
  UnmarshalObject : String → Except String Github.JSONObject
  /-- Go `url.ParseRequestURI`: the error, `none` for a valid URL. -/
  ParseRequestURI : String → Option String
  /-- Go `os.WriteFile` with a path and a content: the error, `none` for success. -/
  WriteFile : String → String → Option String
  /-- The value of `log.IsVerbose()`. -/
  verbose : Bool
  /-- The package variable `version`. -/
  version : String

/-- SourceGitHubPAT returns the GH_SOURCE_PAT environment variable. -/
def SourceGitHubPAT (sys : Sys) : String :=
  sys.Getenv "GH_SOURCE_PAT"

/-- TargetGitHubPAT returns the GH_PAT environment variable. -/
def TargetGitHubPAT (sys : Sys) : String :=
  sys.Getenv "GH_PAT"

/-- The function validateGenerateScriptOptions: `.error` with the message of the error it
returns, `.ok ()` for nil. -/
def validateGenerateScriptOptions (sys : Sys) (opts : generateScriptOptions) :
    Except String Unit := do
  if stringsContains opts.githubSourceOrg "://" || stringsHasPrefix opts.githubSourceOrg "http"
  then
    throw "--github-source-org expects an organization name, not a URL. Please provide just the organization name (e.g., 'my-org' instead of 'https://github.com/my-org')"
  if stringsContains opts.githubTargetOrg "://" || stringsHasPrefix opts.githubTargetOrg "http"
  then
    throw "--github-target-org expects an organization name, not a URL. Please provide just the organization name (e.g., 'my-org' instead of 'https://github.com/my-org')"
  if opts.awsBucketName ≠ "" then
    if opts.ghesAPIURL = "" then
      throw "--ghes-api-url must be specified when --aws-bucket-name is specified"
    if opts.useGithubStorage then
      throw "the --use-github-storage flag was provided with an AWS S3 Bucket name. Archive cannot be uploaded to both locations"
  if opts.noSSLVerify && opts.ghesAPIURL = "" then
    throw "--ghes-api-url must be specified when --no-ssl-verify is specified"
  if opts.useGithubStorage && opts.ghesAPIURL = "" then
    throw "--ghes-api-url must be specified when --use-github-storage is specified"
  if opts.ghesAPIURL ≠ "" then
    if (sys.ParseRequestURI opts.ghesAPIURL).isSome then
      throw "--ghes-api-url is invalid. Please check URL before trying again"
  return ()

/-- The function isGHESVersionAtLeast. -/
def isGHESVersionAtLeast (versionStr : String) (major minor patch : Int) : Bool :=
  let parts := stringsSplit versionStr '.'
  if parts.length < 3 then false
  else
    match strconvAtoi (parts.getD 0 "") with
    | none => false
    | some vmajor =>
      match strconvAtoi (parts.getD 1 "") with
      | none => false
      | some vminor =>
        match strconvAtoi (parts.getD 2 "") with
        | none => false
        | some vpatch =>
          if vmajor > major then true
          else if vmajor = major ∧ vminor > minor then true
          else if vmajor = major ∧ vminor = minor ∧ vpatch ≥ patch then true
          else false

/-- The part of `runGenerateScript` that sets the variable `blobCredentialsRequired`, with
the request log after it. `GetVersion` returns a value, not a pointer, so that the test
`versionInfo != nil` is left out. -/
def blobCredentialsRequired (sys : Sys) (opts : generateScriptOptions)
    (githubClient : Github.Client) (log : List Http.Request) : Bool × List Http.Request :=
  let blobCredentialsRequired := false
  if opts.ghesAPIURL ≠ "" then
    let blobCredentialsRequired := true
    match githubClient.GetVersion sys.UnmarshalObject log with
    | (.ok versionInfo, log) =>
      if versionInfo.Version ≠ "" then
        let blobCredentialsRequired :=
          if isGHESVersionAtLeast versionInfo.Version 3 8 0 then false
          else blobCredentialsRequired
        (blobCredentialsRequired, log)
      else (blobCredentialsRequired, log)
    | (.error _, log) => (blobCredentialsRequired, log)
  else (blobCredentialsRequired, log)

/-- The value of `genOpts` in `runGenerateScript`; the fields that the literal does not name
have their zero values. -/
def generatorOptions (sys : Sys) (opts : generateScriptOptions) (blobCredentialsRequired : Bool) :
    Scriptgen.GeneratorOptions :=
  { SourceOrg := opts.githubSourceOrg,
    TargetOrg := opts.githubTargetOrg,
    Sequential := opts.sequential,
    Verbose := sys.verbose,
    SkipReleases := opts.skipReleases,
    LockSourceRepo := opts.lockSourceRepo,
    DownloadMigrationLog := opts.downloadMigrationLog,
    TargetAPIURL := opts.targetAPIURL,
    TargetUploadsURL := opts.targetUploadsURL,
    GHESAPIUrl := opts.ghesAPIURL,
    AWSBucketName := opts.awsBucketName,
    AWSRegion := opts.awsRegion,
    NoSSLVerify := opts.noSSLVerify,
    KeepArchive := opts.keepArchive,
    UseGithubStorage := opts.useGithubStorage,
    BlobCredentialsRequired := blobCredentialsRequired,
    CLIVersion := sys.version,
    CLICommand := "gh gei",
    ADOOrg := "",
    ADOTeamProject := "",
    BBSServerURL := "",
    BBSProject := "" }

/-- What a call of `runGenerateScript` leaves behind: the error it returns, the requests it
has made, and the file it has written (path and content). -/
structure Run where
  err : Option String
  requests : List Http.Request
  written : Option (String × String)
deriving DecidableEq, Repr

/-- The function runGenerateScript; `none` when the fuel of `GetRepos` runs out. -/
def runGenerateScript (sys : Sys) (opts : generateScriptOptions) (fuel : Nat) : Option Run :=
  match validateGenerateScriptOptions sys opts with
  | .error err => some { err := some err, requests := [], written := none }
  | .ok () =>
    let githubPAT := opts.githubSourcePAT
    let githubPAT :=
      if githubPAT = "" then
        let githubPAT := SourceGitHubPAT sys
        if githubPAT = "" then TargetGitHubPAT sys else githubPAT
      else githubPAT
    if githubPAT = "" then
      some { err := some "GH_PAT or GH_SOURCE_PAT environment variable must be set",
             requests := [], written := none }
    else
      let sourceAPIURL := opts.ghesAPIURL
      let sourceAPIURL := if sourceAPIURL = "" then "https://api.github.com" else sourceAPIURL
      let githubCfg : Github.Config :=
        { APIURL := sourceAPIURL, PAT := githubPAT, NoSSLVerify := opts.noSSLVerify }
      let githubClient := Github.NewClient githubCfg sys.httpGet
      match githubClient.GetRepos sys.lib fuel [] opts.githubSourceOrg with
      | none => none
      | some (.error err, log) =>
        some { err := some ("failed to get repositories: " ++ err), requests := log,
               written := none }
      | some (.ok repos, log) =>
        if repos.length = 0 then
          some { err := some "a migration script could not be generated because no migratable repos were found",
                 requests := log, written := none }
        else
          match blobCredentialsRequired sys opts githubClient log with
          | (blobCredentialsRequired, log) =>
            let scriptRepos : List Scriptgen.Repository :=
              repos.map (fun repo => { Name := repo.Name, Visibility := repo.Visibility })
            let genOpts := generatorOptions sys opts blobCredentialsRequired
            let generator := Scriptgen.NewGenerator genOpts scriptRepos
            let script := generator.Generate
            match sys.WriteFile opts.output script with
            | some err =>
              some { err := some ("failed to write script: " ++ err), requests := log,
                     written := none }
            | none => some { err := none, requests := log, written := some (opts.output, script) }

end Gei

/-! ## Vocabulary of the statements on cmd/gei -/

namespace Gei

/-- The test that the validation applies to both org names: the name contains `://` or
starts with `http`. -/
def orgIsURL (org : String) : Bool :=
  stringsContains org "://" || stringsHasPrefix org "http"

/-- The value of the variable `githubPAT` of `runGenerateScript` after the look-ups in the
environment. -/
def githubPATOf (sys : Sys) (opts : generateScriptOptions) : String :=
  if opts.githubSourcePAT = "" then
    if SourceGitHubPAT sys = "" then TargetGitHubPAT sys else SourceGitHubPAT sys
  else opts.githubSourcePAT

/-- The value of the variable `githubClient` of `runGenerateScript`. -/
def sourceClient (sys : Sys) (opts : generateScriptOptions) : Github.Client :=
  Github.NewClient
    { APIURL := if opts.ghesAPIURL = "" then "https://api.github.com" else opts.ghesAPIURL,
      PAT := githubPATOf sys opts,
      NoSSLVerify := opts.noSSLVerify }
    sys.httpGet

/-- A sample system: only `GH_PAT` is set, the server answers every request, the listing of
repositories parses to one repository and the version answer to `installed`, every URL is
valid and the file is written. -/
def sampleSys (installed : String) : Sys :=
  { Getenv := fun name => if name = "GH_PAT" then "token" else "",
    httpGet := fun _ _ => .ok "body",
    lib := { PathEscape := fun s => s, Unmarshal := fun _ => .ok [Github.sampleRecord 0] },
    UnmarshalObject := fun _ =>
      .ok [("installed_version", Github.JSONValue.string installed)],
    ParseRequestURI := fun _ => none,
    WriteFile := fun _ _ => none,
    verbose := false,
    version := "dev" }

/-- Sample options for a migration from a GitHub Enterprise Server. -/
def sampleOpts : generateScriptOptions :=
  { githubSourceOrg := "src", githubTargetOrg := "tgt", output := "./migrate.ps1",
    ghesAPIURL := "https://ghes.example.com/api/v3", awsBucketName := "", awsRegion := "",
    noSSLVerify := false, skipReleases := false, lockSourceRepo := false,
    downloadMigrationLog := false, sequential := true, githubSourcePAT := "",
    keepArchive := false, targetAPIURL := "", targetUploadsURL := "",
    useGithubStorage := false }

end Gei

namespace Scriptgen

/-! ## Strings and builders -/

theorem endsWith_eq (s p : String) :
    endsWith s p = p.data.reverse.isPrefixOf s.data.reverse := rfl

theorem join_append (a b : List String) :
    String.join (a ++ b) = String.join a ++ String.join b := by
  simp [String.ext_iff, String.data_join]

theorem join_cons (a : String) (b : List String) :
    String.join (a :: b) = a ++ String.join b := by
  simp [String.ext_iff, String.data_join]

theorem intercalate_go_eq (s : String) (l : List String) (acc : String) :
    String.intercalate.go acc s l = acc ++ String.join (l.map (fun a => s ++ a)) := by
  induction l generalizing acc with
  | nil => simp [String.intercalate.go, String.join]
  | cons a l ih =>
    simp [String.intercalate.go, ih, join_cons, String.append_assoc]

theorem intercalate_cons (s a : String) (l : List String) :
    s.intercalate (a :: l) = a ++ String.join (l.map (fun b => s ++ b)) := by
  simp [String.intercalate, intercalate_go_eq]

theorem intercalate_append (s : String) (xs ys : List String) (hx : xs ≠ []) (hy : ys ≠ []) :
    s.intercalate (xs ++ ys) = s.intercalate xs ++ s ++ s.intercalate ys := by
  cases xs with
  | nil => exact absurd rfl hx
  | cons a xs =>
    cases ys with
    | nil => exact absurd rfl hy
    | cons b ys =>
      simp [intercalate_cons, join_append, join_cons, String.append_assoc]

theorem ite_append_singleton {α : Type} (c : Prop) [Decidable c] (l r : List α) :
    (if c then l ++ r else l) = l ++ (if c then r else []) := by
  split <;> simp

theorem writes_WriteString (sb : Builder) (s : String) :
    (sb.WriteString s).writes = sb.writes ++ [s] := rfl

theorem writes_foldl {α : Type} (f : Builder → α → Builder) (k : α → List String)
    (hf : ∀ sb x, (f sb x).writes = sb.writes ++ k x) (xs : List α) (sb : Builder) :
    (xs.foldl f sb).writes = sb.writes ++ xs.flatMap k := by
  induction xs generalizing sb with
  | nil => simp
  | cons x xs ih => simp [ih, hf, List.append_assoc]

theorem filter_flatMap {α β : Type} (p : β → Bool) (k : α → List β) (xs : List α) :
    (xs.flatMap k).filter p = xs.flatMap (fun x => (k x).filter p) := by
  induction xs with
  | nil => simp
  | cons x xs ih => simp [ih]

theorem flatMap_singleton_eq_map {α β : Type} (k : α → β) (xs : List α) :
    xs.flatMap (fun x => [k x]) = xs.map k := by
  induction xs with
  | nil => simp
  | cons x xs ih => simp [ih]

theorem flatMap_nil_fun {α β : Type} (xs : List α) :
    xs.flatMap (fun _ => ([] : List β)) = [] := by
  induction xs with
  | nil => simp
  | cons x xs ih => simp [ih]

theorem length_flatMap_const {α β : Type} (k : α → List β) (n : Nat) (xs : List α)
    (hk : ∀ x, (k x).length = n) : (xs.flatMap k).length = n * xs.length := by
  induction xs with
  | nil => simp
  | cons x xs ih => simp [ih, hk, Nat.mul_succ, Nat.add_comm]

/-! ## The validation blocks -/

theorem checkOrder_nodup : checkOrder.Nodup := by
  unfold checkOrder
  decide

theorem checks_ne_newline :
    ValidateGHPAT ≠ "\n" ∧ ValidateADOPAT ≠ "\n" ∧ ValidateBBSUsername ≠ "\n" ∧
    ValidateBBSPassword ≠ "\n" ∧ ValidateAWSAccessKeyID ≠ "\n" ∧
    ValidateAWSSecretAccessKey ≠ "\n" ∧ ValidateAzureStorageConnectionString ≠ "\n" := by
  decide

theorem writeValidationBlocks_writes (g : Generator) (sb : Builder) :
    (g.writeValidationBlocks sb).writes =
      sb.writes ++
      ([ValidateGHPAT, "\n"] ++
       (if g.options.ADOOrg ≠ "" then [ValidateADOPAT, "\n"] else []) ++
       (if g.options.BBSServerURL ≠ "" then
          [ValidateBBSUsername, "\n", ValidateBBSPassword, "\n"] else []) ++
       (if (!g.options.UseGithubStorage && g.options.BlobCredentialsRequired) = true then
          (if (g.options.AWSBucketName ≠ "" || g.options.AWSRegion ≠ "") = true then
            [ValidateAWSAccessKeyID, "\n", ValidateAWSSecretAccessKey, "\n"]
          else [ValidateAzureStorageConnectionString, "\n"])
        else [])) := by
  unfold Generator.writeValidationBlocks
  simp only [writes_WriteString]
  split_ifs <;> simp [writes_WriteString]

theorem credentialChecks_eq (g : Generator) :
    credentialChecks g =
      [ValidateGHPAT] ++
      (if g.options.ADOOrg ≠ "" then [ValidateADOPAT] else []) ++
      (if g.options.BBSServerURL ≠ "" then [ValidateBBSUsername, ValidateBBSPassword] else []) ++
      (if (!g.options.UseGithubStorage && g.options.BlobCredentialsRequired) = true then
          (if (g.options.AWSBucketName ≠ "" || g.options.AWSRegion ≠ "") = true then
            [ValidateAWSAccessKeyID, ValidateAWSSecretAccessKey]
          else [ValidateAzureStorageConnectionString])
        else []) := by
  obtain ⟨h1, h2, h3, h4, h5, h6, h7⟩ := checks_ne_newline
  unfold credentialChecks
  rw [writeValidationBlocks_writes]
  simp only [Builder.empty, List.nil_append, List.filter_append]
  split_ifs <;> simp [List.filter_cons, h1, h2, h3, h4, h5, h6, h7]

theorem validation_not_exec (g : Generator) (sb : Builder) :
    (g.writeValidationBlocks sb).writes.filter isExecLine = sb.writes.filter isExecLine := by
  have e : isExecLine ValidateGHPAT = false ∧ isExecLine ValidateADOPAT = false ∧
      isExecLine ValidateBBSUsername = false ∧ isExecLine ValidateBBSPassword = false ∧
      isExecLine ValidateAWSAccessKeyID = false ∧ isExecLine ValidateAWSSecretAccessKey = false ∧
      isExecLine ValidateAzureStorageConnectionString = false ∧ isExecLine "\n" = false := by
    decide
  obtain ⟨h1, h2, h3, h4, h5, h6, h7, h8⟩ := e
  rw [writeValidationBlocks_writes]
  simp only [List.filter_append]
  split_ifs <;> simp [List.filter_cons, h1, h2, h3, h4, h5, h6, h7, h8]

/-! ## Sequential scripts -/

theorem endsWith_append_self (a l : String) : endsWith (a ++ l) l = true := by
  simp [endsWith]

theorem execLine_isExecLine (cmd : String) :
    isExecLine ("Exec \x7b " ++ cmd ++ " \x7d\n") = true := by
  simp [isExecLine, startsWith, endsWith_eq]

theorem generateSequentialBuilder_writes (g : Generator) :
    g.generateSequentialBuilder.writes =
      ([PwshShebang ++ "\n", "\n", g.versionComment ++ "\n", ExecFunctionBlock ++ "\n"] ++
        (g.writeValidationBlocks Builder.empty).writes ++
        ["# =========== Organization: " ++ g.options.SourceOrg ++ " ===========\n"]) ++
      g.repos.flatMap (fun repo =>
        ("Exec \x7b " ++ g.buildMigrateRepoCommand repo true ++ " \x7d\n") ::
          (if g.options.DownloadMigrationLog = true then
            ["Exec \x7b " ++ g.buildDownloadLogsCommand repo.Name ++ " \x7d\n"] else [])) := by
  unfold Generator.generateSequentialBuilder
  simp only []
  rw [writes_foldl _ (fun repo =>
        ("Exec \x7b " ++ g.buildMigrateRepoCommand repo true ++ " \x7d\n") ::
          (if g.options.DownloadMigrationLog = true then
            ["Exec \x7b " ++ g.buildDownloadLogsCommand repo.Name ++ " \x7d\n"] else []))]
  · rw [writes_WriteString, writeValidationBlocks_writes g, writeValidationBlocks_writes g]
    simp [writes_WriteString, Builder.empty]
  · intro sb repo
    split_ifs <;> simp [writes_WriteString]

theorem sequential_preamble_not_exec (g : Generator) :
    ([PwshShebang ++ "\n", "\n", g.versionComment ++ "\n", ExecFunctionBlock ++ "\n"] ++
        (g.writeValidationBlocks Builder.empty).writes ++
        ["# =========== Organization: " ++ g.options.SourceOrg ++ " ===========\n"]).filter
      isExecLine = [] := by
  have e : isExecLine (PwshShebang ++ "\n") = false ∧ isExecLine "\n" = false ∧
      isExecLine (ExecFunctionBlock ++ "\n") = false := by decide
  obtain ⟨h1, h2, h3⟩ := e
  have h4 : isExecLine (g.versionComment ++ "\n") = false := by
    simp [isExecLine, startsWith, Generator.versionComment, List.isPrefixOf_cons₂]
  have h5 : isExecLine
      ("# =========== Organization: " ++ g.options.SourceOrg ++ " ===========\n") = false := by
    simp [isExecLine, startsWith, List.isPrefixOf_cons₂]
  simp only [List.filter_append, validation_not_exec]
  simp [List.filter_cons, h1, h2, h3, h4, h5, Builder.empty]

/-! ## Parallel scripts -/

theorem generateParallelBuilder_writes (g : Generator) :
    g.generateParallelBuilder.writes =
      ([PwshShebang ++ "\n", "\n", g.versionComment ++ "\n",
        ExecAndGetMigrationIDFunctionBlock ++ "\n"] ++
      (g.writeValidationBlocks Builder.empty).writes ++
      ["\n", "$Succeeded = 0\n", "$Failed = 0\n", "$RepoMigrations = [ordered]@\x7b\x7d\n", "\n",
        "# =========== Organization: " ++ g.options.SourceOrg ++ " ===========\n", "\n",
        "# === Queuing repo migrations ===\n"] ++
      g.repos.flatMap (fun repo =>
        ["$MigrationID = ExecAndGetMigrationID \x7b " ++ g.buildMigrateRepoCommand repo false ++
            " \x7d\n",
          "$RepoMigrations[\"" ++ repo.Name ++ "\"] = $MigrationID\n", "\n"])) ++
      (["\n",
        "# =========== Waiting for all migrations to finish for Organization: " ++
          g.options.SourceOrg ++ " ===========\n",
        "\n"] ++
      g.repos.flatMap (fun repo =>
        ["if ($RepoMigrations[\"" ++ repo.Name ++ "\"]) \x7b " ++
            g.buildWaitForMigrationCommand repo.Name ++ " \x7d\n",
          "if ($RepoMigrations[\"" ++ repo.Name ++
            "\"] -and $lastexitcode -eq 0) \x7b $Succeeded++ \x7d else \x7b $Failed++ \x7d\n"] ++
        (if g.options.DownloadMigrationLog = true then
          [g.buildDownloadLogsCommand repo.Name ++ "\n"] else []) ++ ["\n"]) ++
      ["\n", "Write-Host =============== Summary ===============\n",
        "Write-Host Total number of successful migrations: $Succeeded\n",
        "Write-Host Total number of failed migrations: $Failed\n", "\n",
        "if ($Failed -ne 0) \x7b\n", "    exit 1\n", "\x7d\n", "\n", "\n"]) := by
  unfold Generator.generateParallelBuilder
  simp only []
  simp only [writes_WriteString]
  rw [writes_foldl _ (fun repo =>
        ["if ($RepoMigrations[\"" ++ repo.Name ++ "\"]) \x7b " ++
            g.buildWaitForMigrationCommand repo.Name ++ " \x7d\n",
          "if ($RepoMigrations[\"" ++ repo.Name ++
            "\"] -and $lastexitcode -eq 0) \x7b $Succeeded++ \x7d else \x7b $Failed++ \x7d\n"] ++
        (if g.options.DownloadMigrationLog = true then
          [g.buildDownloadLogsCommand repo.Name ++ "\n"] else []) ++ ["\n"])]
  · simp only [writes_WriteString]
    rw [writes_foldl _ (fun repo =>
        ["$MigrationID = ExecAndGetMigrationID \x7b " ++ g.buildMigrateRepoCommand repo false ++
            " \x7d\n",
          "$RepoMigrations[\"" ++ repo.Name ++ "\"] = $MigrationID\n", "\n"])]
    · simp only [writes_WriteString]
      rw [writeValidationBlocks_writes g, writeValidationBlocks_writes g]
      simp [writes_WriteString, Builder.empty]
    · intro sb repo
      simp [writes_WriteString]
  · intro sb repo
    split_ifs <;> simp [writes_WriteString]

theorem buildWaitForMigrationCommand_eq (g : Generator) (repoName : String) :
    g.buildWaitForMigrationCommand repoName =
      g.options.CLICommand ++ " wait-for-migration" ++
      (if g.options.TargetAPIURL ≠ "" then
        " --target-api-url \"" ++ g.options.TargetAPIURL ++ "\"" else "") ++
      " --migration-id $RepoMigrations[\"" ++ repoName ++ "\"]" := by
  unfold Generator.buildWaitForMigrationCommand
  split_ifs <;>
    simp [stringsJoin, intercalate_cons, join_cons, String.join, String.ext_iff]

theorem buildDownloadLogsCommand_eq (g : Generator) (repoName : String) :
    g.buildDownloadLogsCommand repoName =
      g.options.CLICommand ++ " download-logs" ++
      (if g.options.TargetAPIURL ≠ "" then
        " --target-api-url \"" ++ g.options.TargetAPIURL ++ "\"" else "") ++
      " --github-target-org \"" ++ g.options.TargetOrg ++ "\"" ++
      " --target-repo \"" ++ repoName ++ "\"" := by
  unfold Generator.buildDownloadLogsCommand
  split_ifs <;>
    simp [stringsJoin, intercalate_cons, join_cons, String.join, String.ext_iff]

theorem validation_filter (p : String → Bool) (hp : ∀ w ∈ checkOrder, p w = false)
    (hn : p "\n" = false) (g : Generator) (sb : Builder) :
    (g.writeValidationBlocks sb).writes.filter p = sb.writes.filter p := by
  simp only [checkOrder, List.mem_cons, List.mem_singleton, forall_eq_or_imp, forall_eq,
    List.not_mem_nil, false_implies, implies_true, and_true] at hp
  obtain ⟨h1, h2, h3, h4, h5, h6, h7⟩ := hp
  rw [writeValidationBlocks_writes]
  simp only [List.filter_append]
  split_ifs <;> simp [List.filter_cons, h1, h2, h3, h4, h5, h6, h7, hn]

theorem queueLine_isQueueLine (cmd : String) :
    isQueueLine ("$MigrationID = ExecAndGetMigrationID \x7b " ++ cmd ++ " \x7d\n") = true := by
  simp [isQueueLine, startsWith, endsWith_eq]

theorem waitLine_isWaitLine (g : Generator) (name : String) :
    isWaitLine ("if ($RepoMigrations[\"" ++ name ++ "\"]) \x7b " ++
      g.buildWaitForMigrationCommand name ++ " \x7d\n") = true := by
  simp [isWaitLine, startsWith, endsWith_eq, buildWaitForMigrationCommand_eq]

theorem tallyLine_isTallyLine (name : String) :
    isTallyLine ("if ($RepoMigrations[\"" ++ name ++
      "\"] -and $lastexitcode -eq 0) \x7b $Succeeded++ \x7d else \x7b $Failed++ \x7d\n") = true := by
  simp [isTallyLine, startsWith, endsWith_eq]

theorem waitLine_not_tally (g : Generator) (name : String) :
    isTallyLine ("if ($RepoMigrations[\"" ++ name ++ "\"]) \x7b " ++
      g.buildWaitForMigrationCommand name ++ " \x7d\n") = false := by
  simp [isTallyLine, startsWith, endsWith_eq, buildWaitForMigrationCommand_eq,
    List.isPrefixOf_cons₂]

theorem tallyLine_not_wait (name : String) :
    isWaitLine ("if ($RepoMigrations[\"" ++ name ++
      "\"] -and $lastexitcode -eq 0) \x7b $Succeeded++ \x7d else \x7b $Failed++ \x7d\n") = false := by
  simp [isWaitLine, startsWith, endsWith_eq, List.isPrefixOf_cons₂]

theorem downloadLine_not_line (g : Generator) (name : String) :
    isQueueLine (g.buildDownloadLogsCommand name ++ "\n") = false ∧
    isWaitLine (g.buildDownloadLogsCommand name ++ "\n") = false ∧
    isTallyLine (g.buildDownloadLogsCommand name ++ "\n") = false := by
  simp [isQueueLine, isWaitLine, isTallyLine, endsWith_eq, buildDownloadLogsCommand_eq,
    List.isPrefixOf_cons₂]

theorem registryLine_not_line (name : String) :
    isQueueLine ("$RepoMigrations[\"" ++ name ++ "\"] = $MigrationID\n") = false ∧
    isWaitLine ("$RepoMigrations[\"" ++ name ++ "\"] = $MigrationID\n") = false ∧
    isTallyLine ("$RepoMigrations[\"" ++ name ++ "\"] = $MigrationID\n") = false := by
  simp [isQueueLine, isWaitLine, isTallyLine, startsWith, List.isPrefixOf_cons₂]

theorem queueLine_not_line (cmd : String) :
    isWaitLine ("$MigrationID = ExecAndGetMigrationID \x7b " ++ cmd ++ " \x7d\n") = false ∧
    isTallyLine ("$MigrationID = ExecAndGetMigrationID \x7b " ++ cmd ++ " \x7d\n") = false := by
  simp [isWaitLine, isTallyLine, startsWith, List.isPrefixOf_cons₂]

theorem waitLine_not_queue (name cmd : String) :
    isQueueLine ("if ($RepoMigrations[\"" ++ name ++ "\"]) \x7b " ++ cmd ++ " \x7d\n") = false := by
  simp [isQueueLine, startsWith, List.isPrefixOf_cons₂]

theorem tallyLine_not_queue (name : String) :
    isQueueLine ("if ($RepoMigrations[\"" ++ name ++
      "\"] -and $lastexitcode -eq 0) \x7b $Succeeded++ \x7d else \x7b $Failed++ \x7d\n") = false := by
  simp [isQueueLine, startsWith, List.isPrefixOf_cons₂]

theorem comment_not_line (s t : String) :
    isQueueLine ("# " ++ s ++ t) = false ∧ isWaitLine ("# " ++ s ++ t) = false ∧
    isTallyLine ("# " ++ s ++ t) = false := by
  simp [isQueueLine, isWaitLine, isTallyLine, startsWith, List.isPrefixOf_cons₂]

theorem parallel_front_filter (p : String → Bool) (g : Generator)
    (hp : ∀ w ∈ checkOrder, p w = false) (hl : ∀ w ∈ parallelFixedLines, p w = false)
    (hc : ∀ s t, p ("# " ++ s ++ t) = false)
    (hr : ∀ name, p ("$RepoMigrations[\"" ++ name ++ "\"] = $MigrationID\n") = false) :
    ([PwshShebang ++ "\n", "\n", g.versionComment ++ "\n",
        ExecAndGetMigrationIDFunctionBlock ++ "\n"] ++
      (g.writeValidationBlocks Builder.empty).writes ++
      ["\n", "$Succeeded = 0\n", "$Failed = 0\n", "$RepoMigrations = [ordered]@\x7b\x7d\n", "\n",
        "# =========== Organization: " ++ g.options.SourceOrg ++ " ===========\n", "\n",
        "# === Queuing repo migrations ===\n"] ++
      g.repos.flatMap (fun repo =>
        ["$MigrationID = ExecAndGetMigrationID \x7b " ++ g.buildMigrateRepoCommand repo false ++
            " \x7d\n",
          "$RepoMigrations[\"" ++ repo.Name ++ "\"] = $MigrationID\n", "\n"])).filter p =
      g.repos.flatMap (fun repo =>
        [("$MigrationID = ExecAndGetMigrationID \x7b " ++ g.buildMigrateRepoCommand repo false ++
            " \x7d\n")].filter p) := by
  simp only [parallelFixedLines, List.mem_cons, List.mem_singleton, forall_eq_or_imp, forall_eq,
    List.not_mem_nil, false_implies, implies_true, and_true] at hl
  obtain ⟨l1, l2, l3, l4, l5, l6, l7, -, -, -, -, -, -⟩ := hl
  have hv : p (g.versionComment ++ "\n") = false := by
    have e : g.versionComment ++ "\n" =
        "# " ++ ("=========== Created with CLI version " ++ g.options.CLIVersion) ++
          " ===========\n" := by
      simp [Generator.versionComment, String.ext_iff]
    rw [e]
    exact hc _ _
  have hb : p ("# =========== Organization: " ++ g.options.SourceOrg ++ " ===========\n")
      = false := by
    simp only [String.append_assoc]
    have e2 := hc ("=========== Organization: " ++ g.options.SourceOrg) " ===========\n"
    simp only [String.append_assoc] at e2
    exact e2
  simp only [List.filter_append, filter_flatMap, validation_filter p hp l2]
  simp [List.filter_cons, l1, l2, l3, l4, l5, l6, l7, hv, hb, hr, Builder.empty]

theorem parallel_back_filter (p : String → Bool) (g : Generator)
    (hl : ∀ w ∈ parallelFixedLines, p w = false)
    (hc : ∀ s t, p ("# " ++ s ++ t) = false)
    (hd : ∀ name, p (g.buildDownloadLogsCommand name ++ "\n") = false) :
    (["\n",
        "# =========== Waiting for all migrations to finish for Organization: " ++
          g.options.SourceOrg ++ " ===========\n",
        "\n"] ++
      g.repos.flatMap (fun repo =>
        ["if ($RepoMigrations[\"" ++ repo.Name ++ "\"]) \x7b " ++
            g.buildWaitForMigrationCommand repo.Name ++ " \x7d\n",
          "if ($RepoMigrations[\"" ++ repo.Name ++
            "\"] -and $lastexitcode -eq 0) \x7b $Succeeded++ \x7d else \x7b $Failed++ \x7d\n"] ++
        (if g.options.DownloadMigrationLog = true then
          [g.buildDownloadLogsCommand repo.Name ++ "\n"] else []) ++ ["\n"]) ++
      ["\n", "Write-Host =============== Summary ===============\n",
        "Write-Host Total number of successful migrations: $Succeeded\n",
        "Write-Host Total number of failed migrations: $Failed\n", "\n",
        "if ($Failed -ne 0) \x7b\n", "    exit 1\n", "\x7d\n", "\n", "\n"]).filter p =
      g.repos.flatMap (fun repo =>
        ["if ($RepoMigrations[\"" ++ repo.Name ++ "\"]) \x7b " ++
            g.buildWaitForMigrationCommand repo.Name ++ " \x7d\n",
          "if ($RepoMigrations[\"" ++ repo.Name ++
            "\"] -and $lastexitcode -eq 0) \x7b $Succeeded++ \x7d else \x7b $Failed++ \x7d\n"].filter
          p) := by
  simp only [parallelFixedLines, List.mem_cons, List.mem_singleton, forall_eq_or_imp, forall_eq,
    List.not_mem_nil, false_implies, implies_true, and_true] at hl
  obtain ⟨-, l2, -, -, -, -, -, l8, l9, l10, l11, l12, l13⟩ := hl
  have hwb : p ("# =========== Waiting for all migrations to finish for Organization: " ++
      g.options.SourceOrg ++ " ===========\n") = false := by
    have e2 := hc ("=========== Waiting for all migrations to finish for Organization: " ++
      g.options.SourceOrg) " ===========\n"
    simp only [String.append_assoc] at e2 ⊢
    exact e2
  simp only [List.filter_append, filter_flatMap]
  by_cases hdl : g.options.DownloadMigrationLog = true <;>
    simp [List.filter_cons, l2, l8, l9, l10, l11, l12, l13, hwb, hd, hdl]

theorem fixed_not_line :
    (∀ w ∈ checkOrder, isQueueLine w = false ∧ isWaitLine w = false ∧ isTallyLine w = false) ∧
    (∀ w ∈ parallelFixedLines,
      isQueueLine w = false ∧ isWaitLine w = false ∧ isTallyLine w = false) := by
  unfold checkOrder parallelFixedLines
  decide

theorem parallel_structure (g : Generator) :
    ∃ preamble middle summary : List String,
      g.generateParallelBuilder.writes =
        (preamble ++
          g.repos.flatMap (fun repo =>
            ["$MigrationID = ExecAndGetMigrationID \x7b " ++
                g.buildMigrateRepoCommand repo false ++ " \x7d\n",
              "$RepoMigrations[\"" ++ repo.Name ++ "\"] = $MigrationID\n", "\n"])) ++
        (middle ++
          g.repos.flatMap (fun repo =>
            ["if ($RepoMigrations[\"" ++ repo.Name ++ "\"]) \x7b " ++
                g.buildWaitForMigrationCommand repo.Name ++ " \x7d\n",
              "if ($RepoMigrations[\"" ++ repo.Name ++
                "\"] -and $lastexitcode -eq 0) \x7b $Succeeded++ \x7d else \x7b $Failed++ \x7d\n"] ++
            (if g.options.DownloadMigrationLog = true then
              [g.buildDownloadLogsCommand repo.Name ++ "\n"] else []) ++ ["\n"]) ++
          summary) ∧
      (preamble ++
          g.repos.flatMap (fun repo =>
            ["$MigrationID = ExecAndGetMigrationID \x7b " ++
                g.buildMigrateRepoCommand repo false ++ " \x7d\n",
              "$RepoMigrations[\"" ++ repo.Name ++ "\"] = $MigrationID\n", "\n"])).filter
            isQueueLine =
        g.repos.map (fun repo =>
          "$MigrationID = ExecAndGetMigrationID \x7b " ++ g.buildMigrateRepoCommand repo false ++
            " \x7d\n") ∧
      (preamble ++
          g.repos.flatMap (fun repo =>
            ["$MigrationID = ExecAndGetMigrationID \x7b " ++
                g.buildMigrateRepoCommand repo false ++ " \x7d\n",
              "$RepoMigrations[\"" ++ repo.Name ++ "\"] = $MigrationID\n", "\n"])).filter
            (fun w => isWaitLine w || isTallyLine w) = [] ∧
      (middle ++
          g.repos.flatMap (fun repo =>
            ["if ($RepoMigrations[\"" ++ repo.Name ++ "\"]) \x7b " ++
                g.buildWaitForMigrationCommand repo.Name ++ " \x7d\n",
              "if ($RepoMigrations[\"" ++ repo.Name ++
                "\"] -and $lastexitcode -eq 0) \x7b $Succeeded++ \x7d else \x7b $Failed++ \x7d\n"] ++
            (if g.options.DownloadMigrationLog = true then
              [g.buildDownloadLogsCommand repo.Name ++ "\n"] else []) ++ ["\n"]) ++
          summary).filter isQueueLine = [] ∧
      (middle ++
          g.repos.flatMap (fun repo =>
            ["if ($RepoMigrations[\"" ++ repo.Name ++ "\"]) \x7b " ++
                g.buildWaitForMigrationCommand repo.Name ++ " \x7d\n",
              "if ($RepoMigrations[\"" ++ repo.Name ++
                "\"] -and $lastexitcode -eq 0) \x7b $Succeeded++ \x7d else \x7b $Failed++ \x7d\n"] ++
            (if g.options.DownloadMigrationLog = true then
              [g.buildDownloadLogsCommand repo.Name ++ "\n"] else []) ++ ["\n"]) ++
          summary).filter isWaitLine =
        g.repos.map (fun repo =>
          "if ($RepoMigrations[\"" ++ repo.Name ++ "\"]) \x7b " ++
            g.buildWaitForMigrationCommand repo.Name ++ " \x7d\n") ∧
      (middle ++
          g.repos.flatMap (fun repo =>
            ["if ($RepoMigrations[\"" ++ repo.Name ++ "\"]) \x7b " ++
                g.buildWaitForMigrationCommand repo.Name ++ " \x7d\n",
              "if ($RepoMigrations[\"" ++ repo.Name ++
                "\"] -and $lastexitcode -eq 0) \x7b $Succeeded++ \x7d else \x7b $Failed++ \x7d\n"] ++
            (if g.options.DownloadMigrationLog = true then
              [g.buildDownloadLogsCommand repo.Name ++ "\n"] else []) ++ ["\n"]) ++
          summary).filter isTallyLine =
        g.repos.map (fun repo =>
          "if ($RepoMigrations[\"" ++ repo.Name ++
            "\"] -and $lastexitcode -eq 0) \x7b $Succeeded++ \x7d else \x7b $Failed++ \x7d\n") := by
  obtain ⟨hchk, hfix⟩ := fixed_not_line
  have hor : ∀ w, isQueueLine w = false ∧ isWaitLine w = false ∧ isTallyLine w = false →
      (isWaitLine w || isTallyLine w) = false := by
    intro w h
    simp [h.2.1, h.2.2]
  have hfq := parallel_front_filter isQueueLine g (fun w hw => (hchk w hw).1)
    (fun w hw => (hfix w hw).1) (fun s t => (comment_not_line s t).1)
    (fun n => (registryLine_not_line n).1)
  have hfw := parallel_front_filter (fun w => isWaitLine w || isTallyLine w) g
    (fun w hw => hor w (hchk w hw)) (fun w hw => hor w (hfix w hw))
    (fun s t => hor _ (comment_not_line s t)) (fun n => hor _ (registryLine_not_line n))
  have hbq := parallel_back_filter isQueueLine g
    (fun w hw => (hfix w hw).1) (fun s t => (comment_not_line s t).1)
    (fun n => (downloadLine_not_line g n).1)
  have hbw := parallel_back_filter isWaitLine g
    (fun w hw => (hfix w hw).2.1) (fun s t => (comment_not_line s t).2.1)
    (fun n => (downloadLine_not_line g n).2.1)
  have hbt := parallel_back_filter isTallyLine g
    (fun w hw => (hfix w hw).2.2) (fun s t => (comment_not_line s t).2.2)
    (fun n => (downloadLine_not_line g n).2.2)
  simp only [List.filter_cons, queueLine_isQueueLine, (queueLine_not_line _).1,
    (queueLine_not_line _).2, waitLine_isWaitLine, tallyLine_not_wait, waitLine_not_queue,
    waitLine_not_tally, tallyLine_isTallyLine,
    tallyLine_not_queue, List.filter_nil, if_true, if_false, Bool.false_eq_true, Bool.or_false,
    flatMap_nil_fun, flatMap_singleton_eq_map] at hfq hfw hbq hbw hbt
  exact ⟨_, _, _, generateParallelBuilder_writes g, hfq, hfw, hbq, hbw, hbt⟩

/-! ## The token list of the migrate-repo command -/

theorem buildMigrateRepoParts_eq (g : Generator) (repo : Repository) (wait : Bool) :
    g.buildMigrateRepoParts repo wait =
      [g.options.CLICommand ++ " migrate-repo"] ++ targetUrlTokens g ++
      sourceIdentityBlock g repo ++
      ["--github-target-org \"" ++ g.options.TargetOrg ++ "\"",
        "--target-repo \"" ++ repo.Name ++ "\""] ++
      ghesTokens g ++ modeTokens g wait ++ ["--target-repo-visibility " ++ repo.Visibility] := by
  unfold Generator.buildMigrateRepoParts targetUrlTokens sourceIdentityBlock adoBlock bbsBlock
    githubBlock ghesTokens modeTokens
  simp only [ite_append_singleton]
  cases wait <;> by_cases h1 : g.options.ADOOrg = "" <;>
    by_cases h2 : g.options.BBSServerURL = "" <;>
    by_cases h3 : g.options.GHESAPIUrl = "" <;> simp [h1, h2, h3]

/-! ## Lists of lines and tokens -/

theorem filter_or_nil {α : Type} (p q : α → Bool) (l : List α)
    (h : l.filter (fun w => p w || q w) = []) : l.filter p = [] ∧ l.filter q = [] := by
  simp only [List.filter_eq_nil_iff, Bool.or_eq_true, not_or] at h ⊢
  exact ⟨fun a ha => (h a ha).1, fun a ha => (h a ha).2⟩

theorem targetRepo_mem_parts (g : Generator) (repo : Repository) (wait : Bool) :
    "--target-repo \"" ++ repo.Name ++ "\"" ∈ g.buildMigrateRepoParts repo wait := by
  rw [buildMigrateRepoParts_eq]
  simp

/-! ## The validation blocks: order and selection -/

theorem writeValidationBlocks_eq_checks (g : Generator) (sb : Builder) :
    (g.writeValidationBlocks sb).writes =
      sb.writes ++ (credentialChecks g).flatMap (fun b => [b, "\n"]) := by
  rw [credentialChecks_eq, writeValidationBlocks_writes]
  split_ifs <;> simp

/-- C4: the credential-check blocks written by `writeValidationBlocks`, each followed by a
newline, start with the GitHub PAT check and form a duplicate-free subsequence of the fixed
order GitHub-PAT, ADO-PAT, BBS-username, BBS-password, AWS-access-key, AWS-secret-key,
Azure-storage-connection-string. -/
theorem validation_blocks_ordered (g : Generator) :
    (∀ sb : Builder, (g.writeValidationBlocks sb).writes =
      sb.writes ++ (credentialChecks g).flatMap (fun b => [b, "\n"])) ∧
    (credentialChecks g).head? = some ValidateGHPAT ∧
    (credentialChecks g).Sublist
      [ValidateGHPAT, ValidateADOPAT, ValidateBBSUsername, ValidateBBSPassword,
        ValidateAWSAccessKeyID, ValidateAWSSecretAccessKey,
        ValidateAzureStorageConnectionString] ∧
    (credentialChecks g).Nodup := by
  have hsub : (credentialChecks g).Sublist checkOrder := by
    rw [credentialChecks_eq]
    have e : checkOrder = [ValidateGHPAT] ++ [ValidateADOPAT] ++
        [ValidateBBSUsername, ValidateBBSPassword] ++
        [ValidateAWSAccessKeyID, ValidateAWSSecretAccessKey,
          ValidateAzureStorageConnectionString] := rfl
    rw [e]
    refine List.Sublist.append (List.Sublist.append (List.Sublist.append
      (List.Sublist.refl _) ?_) ?_) ?_
    · split_ifs <;> simp
    · split_ifs <;> simp
    · split_ifs
      · simp
      · exact List.Sublist.cons _ (List.Sublist.cons _ (List.Sublist.refl _))
      · simp
  refine ⟨writeValidationBlocks_eq_checks g, ?_, hsub, hsub.nodup checkOrder_nodup⟩
  rw [credentialChecks_eq]
  simp

theorem storage_ne_source :
    ∀ b ∈ [ValidateGHPAT, ValidateADOPAT, ValidateBBSUsername, ValidateBBSPassword],
      (b == ValidateAWSAccessKeyID || b == ValidateAWSSecretAccessKey ||
        b == ValidateAzureStorageConnectionString) = false := by
  decide

/-- C5: the storage-credential checks are written exactly when `UseGithubStorage` is false
and `BlobCredentialsRequired` is true; they are then the AWS access-key check followed by the
AWS secret-key check when `AWSBucketName` or `AWSRegion` is non-empty and the single Azure
connection-string check otherwise, never both kinds, and they close the sequence. A
configuration (one source selected) with a Bitbucket server URL and an AWS bucket, blob
credentials required and GitHub storage disabled yields exactly GitHub-PAT, BBS-username,
BBS-password, AWS-key, AWS-secret. -/
theorem validation_storage_checks (g : Generator) :
    storageChecks (credentialChecks g) =
      (if g.options.UseGithubStorage = false ∧ g.options.BlobCredentialsRequired = true then
        (if g.options.AWSBucketName ≠ "" ∨ g.options.AWSRegion ≠ "" then
          [ValidateAWSAccessKeyID, ValidateAWSSecretAccessKey]
        else [ValidateAzureStorageConnectionString])
      else []) ∧
    (storageChecks (credentialChecks g) ≠ [] ↔
      g.options.UseGithubStorage = false ∧ g.options.BlobCredentialsRequired = true) ∧
    (∃ front : List String,
      credentialChecks g = front ++ storageChecks (credentialChecks g) ∧
      storageChecks front = []) ∧
    (exclusiveSource g.options = true → g.options.BBSServerURL ≠ "" →
      g.options.AWSBucketName ≠ "" →
      g.options.BlobCredentialsRequired = true → g.options.UseGithubStorage = false →
      credentialChecks g =
        [ValidateGHPAT, ValidateBBSUsername, ValidateBBSPassword, ValidateAWSAccessKeyID,
          ValidateAWSSecretAccessKey]) := by
  have hs := storage_ne_source
  simp only [List.mem_cons, List.mem_singleton, forall_eq_or_imp, forall_eq,
    List.not_mem_nil, false_implies, implies_true, and_true] at hs
  obtain ⟨s1, s2, s3, s4⟩ := hs
  have hfront : storageChecks ([ValidateGHPAT] ++
      (if g.options.ADOOrg ≠ "" then [ValidateADOPAT] else []) ++
      (if g.options.BBSServerURL ≠ "" then [ValidateBBSUsername, ValidateBBSPassword]
        else [])) = [] := by
    unfold storageChecks
    split_ifs <;> simp [List.filter_cons, s1, s2, s3, s4]
  have hback : storageChecks
      (if (!g.options.UseGithubStorage && g.options.BlobCredentialsRequired) = true then
          (if (g.options.AWSBucketName ≠ "" || g.options.AWSRegion ≠ "") = true then
            [ValidateAWSAccessKeyID, ValidateAWSSecretAccessKey]
          else [ValidateAzureStorageConnectionString])
        else []) =
      (if g.options.UseGithubStorage = false ∧ g.options.BlobCredentialsRequired = true then
        (if g.options.AWSBucketName ≠ "" ∨ g.options.AWSRegion ≠ "" then
          [ValidateAWSAccessKeyID, ValidateAWSSecretAccessKey]
        else [ValidateAzureStorageConnectionString])
      else []) := by
    unfold storageChecks
    cases g.options.UseGithubStorage <;> cases g.options.BlobCredentialsRequired <;>
      by_cases hb : g.options.AWSBucketName = "" <;>
      by_cases hr : g.options.AWSRegion = "" <;> simp [List.filter_cons, hb, hr]
  have hall : storageChecks (credentialChecks g) =
      (if g.options.UseGithubStorage = false ∧ g.options.BlobCredentialsRequired = true then
        (if g.options.AWSBucketName ≠ "" ∨ g.options.AWSRegion ≠ "" then
          [ValidateAWSAccessKeyID, ValidateAWSSecretAccessKey]
        else [ValidateAzureStorageConnectionString])
      else []) := by
    rw [credentialChecks_eq]
    have e : ∀ a b : List String, storageChecks (a ++ b) = storageChecks a ++ storageChecks b :=
      fun a b => List.filter_append _ _
    rw [e, hfront, hback, List.nil_append]
  refine ⟨hall, ?_, ⟨_, ?_, hfront⟩, ?_⟩
  · rw [hall]
    split_ifs <;> simp_all
  · rw [hall, ← hback]
    conv_lhs => rw [credentialChecks_eq]
    congr 1
    unfold storageChecks
    cases g.options.UseGithubStorage <;> cases g.options.BlobCredentialsRequired <;>
      by_cases hb : g.options.AWSBucketName = "" <;>
      by_cases hr : g.options.AWSRegion = "" <;> simp [List.filter_cons, hb, hr]
  · intro hex h1 h3 h4 h5
    have h2 : g.options.ADOOrg = "" := by
      simpa [exclusiveSource, h1] using hex
    rw [credentialChecks_eq]
    simp [h1, h2, h3, h4, h5]

/-- C5 witness: the Bitbucket Server and AWS sample selects one source and yields the five
claimed blocks. -/
theorem validation_storage_checks_witness :
    exclusiveSource sampleBbsAws.options = true ∧
    credentialChecks sampleBbsAws =
      [ValidateGHPAT, ValidateBBSUsername, ValidateBBSPassword, ValidateAWSAccessKeyID,
        ValidateAWSSecretAccessKey] :=
  ⟨by decide,
    (validation_storage_checks sampleBbsAws).2.2.2 (by decide) (by decide) (by decide)
      (by decide) (by decide)⟩

/-- C6: for every configuration (one source selected) in which `ADOOrg` is non-empty and no
storage check applies, `writeValidationBlocks` writes exactly the GitHub PAT check and the
ADO PAT check, each followed by a newline, and nothing else. -/
theorem validation_ado_only (g : Generator) (hex : exclusiveSource g.options = true)
    (hado : g.options.ADOOrg ≠ "")
    (hst : g.options.BlobCredentialsRequired = false ∨ g.options.UseGithubStorage = true) :
    credentialChecks g = [ValidateGHPAT, ValidateADOPAT] ∧
    (∀ sb : Builder, (g.writeValidationBlocks sb).writes =
      sb.writes ++ [ValidateGHPAT, "\n", ValidateADOPAT, "\n"]) := by
  have hbbs : g.options.BBSServerURL = "" := by
    simpa [exclusiveSource, hado] using hex
  have h : credentialChecks g = [ValidateGHPAT, ValidateADOPAT] := by
    rw [credentialChecks_eq]
    rcases hst with h | h <;> simp [hado, hbbs, h]
  refine ⟨h, fun sb => ?_⟩
  rw [writeValidationBlocks_eq_checks, h]
  simp

/-- C6 witness: the ADO sample without storage checks selects one source and yields the two
blocks. -/
theorem validation_ado_only_witness :
    exclusiveSource sampleAdo.options = true ∧
    credentialChecks sampleAdo = [ValidateGHPAT, ValidateADOPAT] :=
  ⟨by decide, (validation_ado_only sampleAdo (by decide) (by decide) (by decide)).1⟩

/-- A record of options that names both an ADO org and a Bitbucket server does not select one
source; `writeValidationBlocks` tests the two fields one after the other and writes the
checks of both, where `buildMigrateRepoCommand` takes the ADO block only. -/
theorem validation_both_sources :
    exclusiveSource sampleAdoBbsAws.options = false ∧
    credentialChecks sampleAdoBbsAws =
      [ValidateGHPAT, ValidateADOPAT, ValidateBBSUsername, ValidateBBSPassword,
        ValidateAWSAccessKeyID, ValidateAWSSecretAccessKey] ∧
    exclusiveSource sampleAdoBbs.options = false ∧
    credentialChecks sampleAdoBbs =
      [ValidateGHPAT, ValidateADOPAT, ValidateBBSUsername, ValidateBBSPassword] := by
  decide

/-! ## The migrate-repo command: source identity -/

theorem mem_ite_singleton {α : Type} (c : Prop) [Decidable c] (x t : α) :
    t ∈ (if c then [x] else []) ↔ c ∧ t = x := by
  split_ifs with h <;> simp [h]

theorem nonSource_tokens (g : Generator) (repo : Repository) (wait : Bool) :
    ∀ t ∈ [g.options.CLICommand ++ " migrate-repo"] ++ targetUrlTokens g ++
        ["--github-target-org \"" ++ g.options.TargetOrg ++ "\"",
          "--target-repo \"" ++ repo.Name ++ "\""] ++
        ghesTokens g ++ modeTokens g wait ++ ["--target-repo-visibility " ++ repo.Visibility],
      isSourceIdentityToken t = false := by
  intro t ht
  have hg : t ∈ ghesTokens g → isSourceIdentityToken t = false := by
    unfold ghesTokens
    by_cases hG : g.options.GHESAPIUrl = ""
    · simp [hG]
    · simp only [hG, ne_eq, not_false_eq_true, if_true, List.mem_append, List.mem_singleton,
        mem_ite_singleton]
      rintro (((((h | ⟨-, h⟩) | ⟨-, h⟩) | ⟨-, h⟩) | ⟨-, h⟩) | ⟨-, h⟩) <;> subst h <;>
        simp [isSourceIdentityToken, isAdoToken, isBbsToken, isGithubSourceToken, isValueToken,
          startsWith, List.isPrefixOf_cons₂]
  simp only [targetUrlTokens, modeTokens, List.mem_append, List.mem_cons, List.mem_singleton,
    List.not_mem_nil, or_false, mem_ite_singleton] at ht
  rcases ht with ((((h | (⟨-, h⟩ | ⟨-, h⟩)) | (h | h)) | h) |
    (((⟨-, h⟩ | ⟨-, h⟩) | ⟨-, h⟩) | ⟨-, h⟩)) | h
  all_goals first
    | exact hg h
    | (subst h
       simp [isSourceIdentityToken, isAdoToken, isBbsToken, isGithubSourceToken, isValueToken,
         startsWith, endsWith_eq, List.isPrefixOf_cons₂])

theorem parts_split (g : Generator) (repo : Repository) (wait : Bool) :
    g.buildMigrateRepoParts repo wait =
      ([g.options.CLICommand ++ " migrate-repo"] ++ targetUrlTokens g) ++
      sourceIdentityBlock g repo ++
      (["--github-target-org \"" ++ g.options.TargetOrg ++ "\"",
          "--target-repo \"" ++ repo.Name ++ "\""] ++
        ghesTokens g ++ modeTokens g wait ++
        ["--target-repo-visibility " ++ repo.Visibility]) ∧
    ([g.options.CLICommand ++ " migrate-repo"] ++ targetUrlTokens g).filter
      isSourceIdentityToken = [] ∧
    (["--github-target-org \"" ++ g.options.TargetOrg ++ "\"",
          "--target-repo \"" ++ repo.Name ++ "\""] ++
        ghesTokens g ++ modeTokens g wait ++
        ["--target-repo-visibility " ++ repo.Visibility]).filter isSourceIdentityToken = [] := by
  have hns := nonSource_tokens g repo wait
  refine ⟨?_, ?_, ?_⟩
  · rw [buildMigrateRepoParts_eq]
    simp only [List.append_assoc]
  · rw [List.filter_eq_nil_iff]
    intro t ht
    rw [hns t (by simp only [List.mem_append] at ht ⊢; tauto)]
    simp
  · rw [List.filter_eq_nil_iff]
    intro t ht
    rw [hns t (by simp only [List.mem_append] at ht ⊢; tauto)]
    simp

theorem filter_nil_of_imp {α : Type} (p q : α → Bool) (l : List α)
    (h : l.filter q = []) (hpq : ∀ a, p a = true → q a = true) : l.filter p = [] := by
  rw [List.filter_eq_nil_iff] at h ⊢
  exact fun a ha hp => h a ha (hpq a hp)

theorem block_filters (g : Generator) (repo : Repository) :
    ((adoBlock g repo).filter isAdoToken = adoBlock g repo ∧
      (adoBlock g repo).filter isBbsToken = [] ∧
      (adoBlock g repo).filter isGithubSourceToken = [] ∧
      (adoBlock g repo).filter isSourceIdentityToken = adoBlock g repo) ∧
    ((bbsBlock g repo).filter isAdoToken = [] ∧
      (bbsBlock g repo).filter isBbsToken = bbsBlock g repo ∧
      (bbsBlock g repo).filter isGithubSourceToken = [] ∧
      (bbsBlock g repo).filter isSourceIdentityToken = bbsBlock g repo) ∧
    ((githubBlock g repo).filter isAdoToken = [] ∧
      (githubBlock g repo).filter isBbsToken = [] ∧
      (githubBlock g repo).filter isGithubSourceToken = githubBlock g repo ∧
      (githubBlock g repo).filter isSourceIdentityToken = githubBlock g repo) := by
  refine ⟨⟨?_, ?_, ?_, ?_⟩, ⟨?_, ?_, ?_, ?_⟩, ⟨?_, ?_, ?_, ?_⟩⟩ <;>
    simp [adoBlock, bbsBlock, githubBlock, List.filter_cons, isSourceIdentityToken, isAdoToken,
      isBbsToken, isGithubSourceToken, isValueToken, startsWith, endsWith_eq,
      List.isPrefixOf_cons₂]

theorem block_flags (g : Generator) (repo : Repository) :
    (adoBlock g repo).map flagName = ["--ado-org", "--ado-team-project", "--ado-repo"] ∧
    (bbsBlock g repo).map flagName = ["--bbs-server-url", "--bbs-project", "--bbs-repo"] ∧
    (githubBlock g repo).map flagName = ["--github-source-org", "--source-repo"] := by
  refine ⟨?_, ?_, ?_⟩ <;>
    simp [adoBlock, bbsBlock, githubBlock, flagName, List.takeWhile_cons]

/-- C7: the tokens of a migrate-repo command that belong to a source-identity block are
exactly one block, placed contiguously and selected by the options alone: the ADO block when
`ADOOrg` is non-empty, otherwise the Bitbucket Server block when `BBSServerURL` is non-empty,
otherwise the GitHub block. No token of the two other blocks occurs, and the flags of the
block are the same for every repository. -/
theorem migrate_source_identity_block (g : Generator) (repo : Repository) (wait : Bool) :
    let ado :=
      ["--ado-org \"" ++ g.options.ADOOrg ++ "\"",
        "--ado-team-project \"" ++ g.options.ADOTeamProject ++ "\"",
        "--ado-repo \"" ++ repo.Name ++ "\""]
    let bbs :=
      ["--bbs-server-url \"" ++ g.options.BBSServerURL ++ "\"",
        "--bbs-project \"" ++ g.options.BBSProject ++ "\"",
        "--bbs-repo \"" ++ repo.Name ++ "\""]
    let github :=
      ["--github-source-org \"" ++ g.options.SourceOrg ++ "\"",
        "--source-repo \"" ++ repo.Name ++ "\""]
    let block :=
      if g.options.ADOOrg ≠ "" then ado else if g.options.BBSServerURL ≠ "" then bbs else github
    (g.buildMigrateRepoParts repo wait).filter isSourceIdentityToken = block ∧
    (∃ front back : List String,
      g.buildMigrateRepoParts repo wait = front ++ block ++ back ∧
      front.filter isSourceIdentityToken = [] ∧ back.filter isSourceIdentityToken = []) ∧
    (g.buildMigrateRepoParts repo wait).filter isAdoToken =
      (if g.options.ADOOrg ≠ "" then ado else []) ∧
    (g.buildMigrateRepoParts repo wait).filter isBbsToken =
      (if g.options.ADOOrg = "" ∧ g.options.BBSServerURL ≠ "" then bbs else []) ∧
    (g.buildMigrateRepoParts repo wait).filter isGithubSourceToken =
      (if g.options.ADOOrg = "" ∧ g.options.BBSServerURL = "" then github else []) ∧
    (∀ (repo₂ : Repository) (wait₂ : Bool),
      ((g.buildMigrateRepoParts repo₂ wait₂).filter isSourceIdentityToken).map flagName =
        ((g.buildMigrateRepoParts repo wait).filter isSourceIdentityToken).map flagName) ∧
    g.buildMigrateRepoCommand repo wait =
      stringsJoin (g.buildMigrateRepoParts repo wait) " " := by
  intro ado bbs github block
  obtain ⟨hsplit, hfront, hback⟩ := parts_split g repo wait
  obtain ⟨⟨a1, a2, a3, a4⟩, ⟨b1, b2, b3, b4⟩, ⟨c1, c2, c3, c4⟩⟩ := block_filters g repo
  have hblock : sourceIdentityBlock g repo = block := rfl
  have hsub : ∀ p : String → Bool, (∀ t, p t = true → isSourceIdentityToken t = true) →
      (g.buildMigrateRepoParts repo wait).filter p = block.filter p := by
    intro p hp
    rw [hsplit, List.filter_append, List.filter_append,
      filter_nil_of_imp p _ _ hfront hp, filter_nil_of_imp p _ _ hback hp, hblock]
    simp
  have hflags : ∀ (r : Repository) (w : Bool),
      ((g.buildMigrateRepoParts r w).filter isSourceIdentityToken).map flagName =
        (if g.options.ADOOrg ≠ "" then ["--ado-org", "--ado-team-project", "--ado-repo"]
         else if g.options.BBSServerURL ≠ "" then
          ["--bbs-server-url", "--bbs-project", "--bbs-repo"]
         else ["--github-source-org", "--source-repo"]) := by
    intro r w
    obtain ⟨hs, hf, hb⟩ := parts_split g r w
    obtain ⟨⟨-, -, -, x4⟩, ⟨-, -, -, y4⟩, ⟨-, -, -, z4⟩⟩ := block_filters g r
    obtain ⟨f1, f2, f3⟩ := block_flags g r
    rw [hs, List.filter_append, List.filter_append, hf, hb, List.nil_append, List.append_nil]
    unfold sourceIdentityBlock
    split_ifs
    · rw [x4, f1]
    · rw [y4, f2]
    · rw [z4, f3]
  have hb' : block = sourceIdentityBlock g repo := rfl
  have hado : ado = adoBlock g repo := rfl
  have hbbs : bbs = bbsBlock g repo := rfl
  have hgh : github = githubBlock g repo := rfl
  refine ⟨?_, ⟨_, _, hsplit, hfront, hback⟩, ?_, ?_, ?_, ?_, rfl⟩
  · rw [hsub _ (fun _ h => h), hb']
    unfold sourceIdentityBlock
    split_ifs
    · exact a4
    · exact b4
    · exact c4
  · rw [hsub _ (fun t h => by simp [isSourceIdentityToken, h]), hb', hado]
    unfold sourceIdentityBlock
    split_ifs
    · exact a1
    · exact b1
    · exact c1
  · rw [hsub _ (fun t h => by simp [isSourceIdentityToken, h]), hb', hbbs]
    unfold sourceIdentityBlock
    by_cases h1 : g.options.ADOOrg = "" <;> by_cases h2 : g.options.BBSServerURL = "" <;>
      simp only [h1, h2, ne_eq, not_true_eq_false, not_false_eq_true, if_true, if_false,
        and_true, and_false, true_and, false_and]
    · exact c2
    · exact b2
    · exact a2
    · exact a2
  · rw [hsub _ (fun t h => by simp [isSourceIdentityToken, h]), hb', hgh]
    unfold sourceIdentityBlock
    by_cases h1 : g.options.ADOOrg = "" <;> by_cases h2 : g.options.BBSServerURL = "" <;>
      simp only [h1, h2, ne_eq, not_true_eq_false, not_false_eq_true, if_true, if_false,
        and_true, and_false, true_and, false_and]
    · exact c3
    · exact b3
    · exact a3
    · exact a3
  · intro repo₂ wait₂
    rw [hflags, hflags]

/-! ## The migrate-repo command: overall shape -/

theorem startsWith_append_self (a l : String) : startsWith (a ++ l) a = true := by
  simp [startsWith]

theorem intercalate_singleton (s a : String) : s.intercalate [a] = a := by
  simp [intercalate_cons, String.join]

theorem intercalate_pair (s a b : String) : s.intercalate [a, b] = a ++ s ++ b := by
  simp [intercalate_cons, String.join, String.append_assoc]

/-- C8: a migrate-repo command is its tokens joined by single blanks. The first token is
`CLICommand` followed by ` migrate-repo`, the token `--github-target-org "<TargetOrg>"` comes
directly after the source-identity block and is directly followed by
`--target-repo "<repo.Name>"`, and the last token is
`--target-repo-visibility <repo.Visibility>`. -/
theorem migrate_command_shape (g : Generator) (repo : Repository) (wait : Bool) :
    g.buildMigrateRepoParts repo wait =
      [g.options.CLICommand ++ " migrate-repo"] ++ targetUrlTokens g ++
      sourceIdentityBlock g repo ++
      ["--github-target-org \"" ++ g.options.TargetOrg ++ "\"",
        "--target-repo \"" ++ repo.Name ++ "\""] ++
      ghesTokens g ++ modeTokens g wait ++
      ["--target-repo-visibility " ++ repo.Visibility] ∧
    (g.buildMigrateRepoParts repo wait).head? = some (g.options.CLICommand ++ " migrate-repo") ∧
    (g.buildMigrateRepoParts repo wait).getLast? =
      some ("--target-repo-visibility " ++ repo.Visibility) ∧
    g.buildMigrateRepoCommand repo wait =
      g.options.CLICommand ++ " migrate-repo" ++
        String.join ((g.buildMigrateRepoParts repo wait).tail.map (fun t => " " ++ t)) ∧
    startsWith (g.buildMigrateRepoCommand repo wait)
      (g.options.CLICommand ++ " migrate-repo ") = true ∧
    endsWith (g.buildMigrateRepoCommand repo wait)
      (" --target-repo-visibility " ++ repo.Visibility) = true ∧
    g.buildMigrateRepoCommand repo wait =
      " ".intercalate
        ([g.options.CLICommand ++ " migrate-repo"] ++ targetUrlTokens g ++
          sourceIdentityBlock g repo) ++
      " --github-target-org \"" ++ g.options.TargetOrg ++ "\" --target-repo \"" ++ repo.Name ++
      "\" " ++
      " ".intercalate
        (ghesTokens g ++ modeTokens g wait ++
          ["--target-repo-visibility " ++ repo.Visibility]) := by
  have hp := buildMigrateRepoParts_eq g repo wait
  have hcmd : g.buildMigrateRepoCommand repo wait =
      " ".intercalate (g.buildMigrateRepoParts repo wait) := rfl
  obtain ⟨rest, hrest⟩ : ∃ rest : List String, g.buildMigrateRepoParts repo wait =
      (g.options.CLICommand ++ " migrate-repo") ::
        (rest ++ ["--target-repo-visibility " ++ repo.Visibility]) :=
    ⟨targetUrlTokens g ++ sourceIdentityBlock g repo ++
      ["--github-target-org \"" ++ g.options.TargetOrg ++ "\"",
        "--target-repo \"" ++ repo.Name ++ "\""] ++ ghesTokens g ++ modeTokens g wait,
      by rw [hp]; simp⟩
  refine ⟨hp, ?_, ?_, ?_, ?_, ?_, ?_⟩
  · rw [hrest]; rfl
  · rw [hrest, ← List.cons_append, List.getLast?_append]; rfl
  · rw [hcmd, hrest, intercalate_cons, List.tail_cons]
  · rw [hcmd, hrest, intercalate_cons]
    cases rest with
    | nil => simp [startsWith, join_cons]
    | cons z zs => simp [startsWith, join_cons]
  · rw [hcmd, hrest, ← List.cons_append, intercalate_append _ _ _ (by simp) (by simp),
      intercalate_singleton, String.append_assoc]
    exact endsWith_append_self _ _
  · rw [hcmd, hp]
    have hA : [g.options.CLICommand ++ " migrate-repo"] ++ targetUrlTokens g ++
        sourceIdentityBlock g repo ≠ [] := by simp
    have hB : ghesTokens g ++ modeTokens g wait ++
        ["--target-repo-visibility " ++ repo.Visibility] ≠ [] := by simp
    have e : [g.options.CLICommand ++ " migrate-repo"] ++ targetUrlTokens g ++
        sourceIdentityBlock g repo ++
        ["--github-target-org \"" ++ g.options.TargetOrg ++ "\"",
          "--target-repo \"" ++ repo.Name ++ "\""] ++
        ghesTokens g ++ modeTokens g wait ++
        ["--target-repo-visibility " ++ repo.Visibility] =
        ([g.options.CLICommand ++ " migrate-repo"] ++ targetUrlTokens g ++
          sourceIdentityBlock g repo) ++
        (["--github-target-org \"" ++ g.options.TargetOrg ++ "\"",
          "--target-repo \"" ++ repo.Name ++ "\""] ++
        (ghesTokens g ++ modeTokens g wait ++
          ["--target-repo-visibility " ++ repo.Visibility])) := by
      simp only [List.append_assoc]
    rw [e, intercalate_append _ _ _ hA (by simp), intercalate_append _ _ _ (by simp) hB,
      intercalate_pair]
    simp only [String.ext_iff, String.data_append, List.append_assoc]
    simp

/-! ## The migrate-repo command: GHES tokens -/

theorem command_ne_flag (cli flag : String)
    (h : endsWith flag " migrate-repo" = false) : cli ++ " migrate-repo" ≠ flag := by
  intro e
  rw [← e, endsWith_append_self] at h
  exact Bool.noConfusion h

theorem nonGhes_tokens (g : Generator) (repo : Repository) (wait : Bool) :
    ∀ t ∈ [g.options.CLICommand ++ " migrate-repo"] ++ targetUrlTokens g ++
        sourceIdentityBlock g repo ++
        ["--github-target-org \"" ++ g.options.TargetOrg ++ "\"",
          "--target-repo \"" ++ repo.Name ++ "\""] ++
        modeTokens g wait ++ ["--target-repo-visibility " ++ repo.Visibility],
      isGhesToken t = false := by
  intro t ht
  have hc := command_ne_flag g.options.CLICommand
  have hsrc : t ∈ sourceIdentityBlock g repo → isGhesToken t = false := by
    unfold sourceIdentityBlock adoBlock bbsBlock githubBlock
    split_ifs
    · simp only [List.mem_cons, List.mem_singleton, List.not_mem_nil, or_false]
      rintro (h | h | h) <;> subst h <;>
        simp [isGhesToken, isValueToken, startsWith, List.isPrefixOf_cons₂, String.ext_iff]
    · simp only [List.mem_cons, List.mem_singleton, List.not_mem_nil, or_false]
      rintro (h | h | h) <;> subst h <;>
        simp [isGhesToken, isValueToken, startsWith, List.isPrefixOf_cons₂, String.ext_iff]
    · simp only [List.mem_cons, List.mem_singleton, List.not_mem_nil, or_false]
      rintro (h | h) <;> subst h <;>
        simp [isGhesToken, isValueToken, startsWith, List.isPrefixOf_cons₂, String.ext_iff]
  simp only [targetUrlTokens, modeTokens, List.mem_append, List.mem_cons, List.mem_singleton,
    List.not_mem_nil, or_false, mem_ite_singleton] at ht
  rcases ht with ((((h | (⟨-, h⟩ | ⟨-, h⟩)) | h) | (h | h)) |
    (((⟨-, h⟩ | ⟨-, h⟩) | ⟨-, h⟩) | ⟨-, h⟩)) | h
  · subst h
    simp [isGhesToken, isValueToken, endsWith_eq, List.isPrefixOf_cons₂, hc]
  all_goals first
    | exact hsrc h
    | (subst h
       simp [isGhesToken, isValueToken, startsWith, List.isPrefixOf_cons₂, String.ext_iff])

theorem ghes_tokens_are_ghes (g : Generator) : ∀ t ∈ ghesTokens g, isGhesToken t = true := by
  intro t
  unfold ghesTokens
  by_cases hG : g.options.GHESAPIUrl = ""
  · simp [hG]
  · simp only [hG, ne_eq, not_false_eq_true, if_true, List.mem_append, List.mem_singleton,
      mem_ite_singleton]
    rintro (((((h | ⟨-, h⟩) | ⟨-, h⟩) | ⟨-, h⟩) | ⟨-, h⟩) | ⟨-, h⟩) <;> subst h <;>
      simp [isGhesToken, isValueToken, startsWith, endsWith_eq]

theorem parts_split_ghes (g : Generator) (repo : Repository) (wait : Bool) :
    g.buildMigrateRepoParts repo wait =
      ([g.options.CLICommand ++ " migrate-repo"] ++ targetUrlTokens g ++
        sourceIdentityBlock g repo ++ ["--github-target-org \"" ++ g.options.TargetOrg ++ "\""]) ++
      ["--target-repo \"" ++ repo.Name ++ "\""] ++ ghesTokens g ++
      (modeTokens g wait ++ ["--target-repo-visibility " ++ repo.Visibility]) ∧
    (([g.options.CLICommand ++ " migrate-repo"] ++ targetUrlTokens g ++
        sourceIdentityBlock g repo ++ ["--github-target-org \"" ++ g.options.TargetOrg ++ "\""]) ++
      ["--target-repo \"" ++ repo.Name ++ "\""]).filter isGhesToken = [] ∧
    (modeTokens g wait ++ ["--target-repo-visibility " ++ repo.Visibility]).filter
      isGhesToken = [] ∧
    (ghesTokens g).filter isGhesToken = ghesTokens g ∧
    (g.buildMigrateRepoParts repo wait).filter isGhesToken = ghesTokens g := by
  have hns := nonGhes_tokens g repo wait
  have h1 : g.buildMigrateRepoParts repo wait =
      ([g.options.CLICommand ++ " migrate-repo"] ++ targetUrlTokens g ++
        sourceIdentityBlock g repo ++ ["--github-target-org \"" ++ g.options.TargetOrg ++ "\""]) ++
      ["--target-repo \"" ++ repo.Name ++ "\""] ++ ghesTokens g ++
      (modeTokens g wait ++ ["--target-repo-visibility " ++ repo.Visibility]) := by
    rw [buildMigrateRepoParts_eq]
    simp
  have h2 : (([g.options.CLICommand ++ " migrate-repo"] ++ targetUrlTokens g ++
        sourceIdentityBlock g repo ++ ["--github-target-org \"" ++ g.options.TargetOrg ++ "\""]) ++
      ["--target-repo \"" ++ repo.Name ++ "\""]).filter isGhesToken = [] := by
    rw [List.filter_eq_nil_iff]
    intro t ht
    rw [hns t (by simp only [List.mem_append, List.mem_cons, List.mem_singleton] at ht ⊢; tauto)]
    simp
  have h3 : (modeTokens g wait ++ ["--target-repo-visibility " ++ repo.Visibility]).filter
      isGhesToken = [] := by
    rw [List.filter_eq_nil_iff]
    intro t ht
    rw [hns t (by simp only [List.mem_append, List.mem_cons, List.mem_singleton] at ht ⊢; tauto)]
    simp
  have h4 : (ghesTokens g).filter isGhesToken = ghesTokens g :=
    List.filter_eq_self.2 (ghes_tokens_are_ghes g)
  refine ⟨h1, h2, h3, h4, ?_⟩
  rw [h1, List.filter_append, List.filter_append, h2, h3, h4]
  simp

theorem any_eq_any_filter {α : Type} (p q : α → Bool) (l : List α)
    (h : ∀ a, q a = true → p a = true) : l.any q = (l.filter p).any q := by
  induction l with
  | nil => rfl
  | cons a l ih =>
    by_cases hp : p a = true
    · simp [List.filter_cons, hp, ih]
    · have hq : q a = false := by
        cases hqa : q a
        · rfl
        · exact absurd (h a hqa) hp
      simp [List.filter_cons, hp, hq, ih]

/-- C9: the GHES tokens of a migrate-repo command are written only when `GHESAPIUrl` is
non-empty: `--ghes-api-url` exactly then, and each of `--aws-bucket-name`, `--aws-region`,
`--no-ssl-verify`, `--keep-archive`, `--use-github-storage` exactly when `GHESAPIUrl` is
non-empty and its own option is set. The ones written follow the `--target-repo` token
directly, in this order. -/
theorem migrate_ghes_tokens (g : Generator) (repo : Repository) (wait : Bool) :
    let ghes :=
      if g.options.GHESAPIUrl ≠ "" then
        ["--ghes-api-url \"" ++ g.options.GHESAPIUrl ++ "\""] ++
        (if g.options.AWSBucketName ≠ "" then
          ["--aws-bucket-name \"" ++ g.options.AWSBucketName ++ "\""] else []) ++
        (if g.options.AWSRegion ≠ "" then
          ["--aws-region \"" ++ g.options.AWSRegion ++ "\""] else []) ++
        (if g.options.NoSSLVerify = true then ["--no-ssl-verify"] else []) ++
        (if g.options.KeepArchive = true then ["--keep-archive"] else []) ++
        (if g.options.UseGithubStorage = true then ["--use-github-storage"] else [])
      else []
    (g.buildMigrateRepoParts repo wait).filter isGhesToken = ghes ∧
    (∃ front back : List String,
      g.buildMigrateRepoParts repo wait =
        front ++ ["--target-repo \"" ++ repo.Name ++ "\""] ++ ghes ++ back ∧
      (front ++ ["--target-repo \"" ++ repo.Name ++ "\""]).filter isGhesToken = [] ∧
      back.filter isGhesToken = []) ∧
    ((g.buildMigrateRepoParts repo wait).any (isValueToken "--ghes-api-url") = true ↔
      g.options.GHESAPIUrl ≠ "") ∧
    ((g.buildMigrateRepoParts repo wait).any (isValueToken "--aws-bucket-name") = true ↔
      g.options.GHESAPIUrl ≠ "" ∧ g.options.AWSBucketName ≠ "") ∧
    ((g.buildMigrateRepoParts repo wait).any (isValueToken "--aws-region") = true ↔
      g.options.GHESAPIUrl ≠ "" ∧ g.options.AWSRegion ≠ "") ∧
    ("--no-ssl-verify" ∈ g.buildMigrateRepoParts repo wait ↔
      g.options.GHESAPIUrl ≠ "" ∧ g.options.NoSSLVerify = true) ∧
    ("--keep-archive" ∈ g.buildMigrateRepoParts repo wait ↔
      g.options.GHESAPIUrl ≠ "" ∧ g.options.KeepArchive = true) ∧
    ("--use-github-storage" ∈ g.buildMigrateRepoParts repo wait ↔
      g.options.GHESAPIUrl ≠ "" ∧ g.options.UseGithubStorage = true) ∧
    g.buildMigrateRepoCommand repo wait =
      stringsJoin (g.buildMigrateRepoParts repo wait) " " := by
  intro ghes
  obtain ⟨h1, h2, h3, -, h5⟩ := parts_split_ghes g repo wait
  have hg : ghes = ghesTokens g := rfl
  have hany : ∀ flag : String, (∀ t, isValueToken flag t = true → isGhesToken t = true) →
      (g.buildMigrateRepoParts repo wait).any (isValueToken flag) =
        (ghesTokens g).any (isValueToken flag) := by
    intro flag hf
    rw [any_eq_any_filter isGhesToken _ _ hf, h5]
  have hmem : ∀ t : String, isGhesToken t = true →
      (t ∈ g.buildMigrateRepoParts repo wait ↔ t ∈ ghesTokens g) := by
    intro t ht
    rw [← h5, List.mem_filter]
    simp [ht]
  refine ⟨h5, ⟨_, _, h1, h2, h3⟩, ?_, ?_, ?_, ?_, ?_, ?_, rfl⟩
  · rw [hany _ (fun t h => by simp [isGhesToken, h])]
    unfold ghesTokens
    by_cases hG : g.options.GHESAPIUrl = ""
    · simp [hG]
    · simp [hG, isValueToken, startsWith, endsWith_eq]
  · rw [hany _ (fun t h => by simp [isGhesToken, h])]
    unfold ghesTokens
    by_cases hG : g.options.GHESAPIUrl = ""
    · simp [hG]
    · by_cases hb : g.options.AWSBucketName = "" <;>
        simp [hG, hb, List.any_append, isValueToken, startsWith, endsWith_eq,
          List.isPrefixOf_cons₂, apply_ite (List.any · _)]
  · rw [hany _ (fun t h => by simp [isGhesToken, h])]
    unfold ghesTokens
    by_cases hG : g.options.GHESAPIUrl = ""
    · simp [hG]
    · by_cases hb : g.options.AWSRegion = "" <;>
        simp [hG, hb, List.any_append, isValueToken, startsWith, endsWith_eq,
          List.isPrefixOf_cons₂, apply_ite (List.any · _)]
  · rw [hmem _ (by decide)]
    unfold ghesTokens
    by_cases hG : g.options.GHESAPIUrl = ""
    · simp [hG]
    · simp [hG, mem_ite_singleton, String.ext_iff]
  · rw [hmem _ (by decide)]
    unfold ghesTokens
    by_cases hG : g.options.GHESAPIUrl = ""
    · simp [hG]
    · simp [hG, mem_ite_singleton, String.ext_iff]
  · rw [hmem _ (by decide)]
    unfold ghesTokens
    by_cases hG : g.options.GHESAPIUrl = ""
    · simp [hG]
    · simp [hG, mem_ite_singleton, String.ext_iff]

/-! ## The migrate-repo command: the queue-only flag -/

theorem nonMode_tokens (g : Generator) (repo : Repository) :
    ∀ t ∈ ([g.options.CLICommand ++ " migrate-repo"] ++ targetUrlTokens g ++
        sourceIdentityBlock g repo ++
        ["--github-target-org \"" ++ g.options.TargetOrg ++ "\"",
          "--target-repo \"" ++ repo.Name ++ "\""] ++
        ghesTokens g) ++ ["--target-repo-visibility " ++ repo.Visibility],
      isModeFlag t = false := by
  intro t ht
  have hc := command_ne_flag g.options.CLICommand
  have hsrc : t ∈ sourceIdentityBlock g repo → isModeFlag t = false := by
    unfold sourceIdentityBlock adoBlock bbsBlock githubBlock
    split_ifs
    · simp only [List.mem_cons, List.mem_singleton, List.not_mem_nil, or_false]
      rintro (h | h | h) <;> subst h <;> simp [isModeFlag, String.ext_iff]
    · simp only [List.mem_cons, List.mem_singleton, List.not_mem_nil, or_false]
      rintro (h | h | h) <;> subst h <;> simp [isModeFlag, String.ext_iff]
    · simp only [List.mem_cons, List.mem_singleton, List.not_mem_nil, or_false]
      rintro (h | h) <;> subst h <;> simp [isModeFlag, String.ext_iff]
  have hg : t ∈ ghesTokens g → isModeFlag t = false := by
    unfold ghesTokens
    by_cases hG : g.options.GHESAPIUrl = ""
    · simp [hG]
    · simp only [hG, ne_eq, not_false_eq_true, if_true, List.mem_append, List.mem_singleton,
        mem_ite_singleton]
      rintro (((((h | ⟨-, h⟩) | ⟨-, h⟩) | ⟨-, h⟩) | ⟨-, h⟩) | ⟨-, h⟩) <;> subst h <;>
        simp [isModeFlag, String.ext_iff]
  simp only [targetUrlTokens, List.mem_append, List.mem_cons, List.mem_singleton,
    List.not_mem_nil, or_false, mem_ite_singleton] at ht
  rcases ht with ((((h | (⟨-, h⟩ | ⟨-, h⟩)) | h) | (h | h)) | h) | h
  · subst h
    simp only [isModeFlag, Bool.or_eq_false_iff, beq_eq_false_iff_ne, ne_eq]
    exact ⟨⟨⟨hc _ (by decide), hc _ (by decide)⟩, hc _ (by decide)⟩, hc _ (by decide)⟩
  all_goals first
    | exact hsrc h
    | exact hg h
    | (subst h
       simp [isModeFlag, String.ext_iff])

theorem parts_split_mode (g : Generator) (repo : Repository) (wait : Bool) :
    g.buildMigrateRepoParts repo wait =
      ([g.options.CLICommand ++ " migrate-repo"] ++ targetUrlTokens g ++
        sourceIdentityBlock g repo ++
        ["--github-target-org \"" ++ g.options.TargetOrg ++ "\"",
          "--target-repo \"" ++ repo.Name ++ "\""] ++
        ghesTokens g) ++ modeTokens g wait ++
      ["--target-repo-visibility " ++ repo.Visibility] ∧
    ([g.options.CLICommand ++ " migrate-repo"] ++ targetUrlTokens g ++
        sourceIdentityBlock g repo ++
        ["--github-target-org \"" ++ g.options.TargetOrg ++ "\"",
          "--target-repo \"" ++ repo.Name ++ "\""] ++
        ghesTokens g).filter isModeFlag = [] ∧
    ["--target-repo-visibility " ++ repo.Visibility].filter isModeFlag = [] ∧
    (modeTokens g wait).filter isModeFlag = modeTokens g wait := by
  have hns := nonMode_tokens g repo
  refine ⟨?_, ?_, ?_, ?_⟩
  · rw [buildMigrateRepoParts_eq]
  · rw [List.filter_eq_nil_iff]
    intro t ht
    rw [hns t (List.mem_append_left _ ht)]
    simp
  · rw [List.filter_eq_nil_iff]
    intro t ht
    rw [hns t (List.mem_append_right _ ht)]
    simp
  · rw [List.filter_eq_self]
    intro t
    simp only [modeTokens, List.mem_append, mem_ite_singleton]
    rintro (((⟨-, h⟩ | ⟨-, h⟩) | ⟨-, h⟩) | ⟨-, h⟩) <;> subst h <;> decide

theorem sequential_exec_lines (g : Generator) :
    g.generateSequentialBuilder.writes.filter isExecLine =
      g.repos.flatMap (fun r =>
        ("Exec \x7b " ++ g.buildMigrateRepoCommand r true ++ " \x7d\n") ::
          (if g.options.DownloadMigrationLog = true then
            ["Exec \x7b " ++ g.buildDownloadLogsCommand r.Name ++ " \x7d\n"] else [])) := by
  rw [generateSequentialBuilder_writes, List.filter_append, sequential_preamble_not_exec,
    List.nil_append, filter_flatMap]
  congr 1
  funext repo
  split_ifs <;> simp [List.filter_cons, execLine_isExecLine]

/-- C10: `buildMigrateRepoCommand` writes the token `--queue-only` exactly when `wait` is
false, once, after `--verbose` and before `--skip-releases` and `--lock-source-repo` where
these are written; every queuing line of a parallel script holds a command built with
`wait = false`, which carries `--queue-only`, and every migrate line of a sequential script
holds a command built with `wait = true`, which has no `--queue-only` token. -/
theorem migrate_queue_only (g : Generator) (repo : Repository) (wait : Bool) :
    ("--queue-only" ∈ g.buildMigrateRepoParts repo wait ↔ wait = false) ∧
    (g.buildMigrateRepoParts repo wait).filter (fun t => t == "--queue-only") =
      (if wait = false then ["--queue-only"] else []) ∧
    (∃ front : List String,
      g.buildMigrateRepoParts repo wait =
        front ++
        ((if g.options.Verbose = true then ["--verbose"] else []) ++
          (if wait = false then ["--queue-only"] else []) ++
          (if g.options.SkipReleases = true then ["--skip-releases"] else []) ++
          (if g.options.LockSourceRepo = true then ["--lock-source-repo"] else [])) ++
        ["--target-repo-visibility " ++ repo.Visibility] ∧
      front.filter isModeFlag = [] ∧
      isModeFlag ("--target-repo-visibility " ++ repo.Visibility) = false) ∧
    (∃ a b : String,
      g.buildMigrateRepoCommand repo false = a ++ " --queue-only " ++ b) ∧
    g.generateParallelBuilder.writes.filter isQueueLine =
      g.repos.map (fun r =>
        "$MigrationID = ExecAndGetMigrationID \x7b " ++ g.buildMigrateRepoCommand r false ++
          " \x7d\n") ∧
    g.generateSequentialBuilder.writes.filter isExecLine =
      g.repos.flatMap (fun r =>
        ("Exec \x7b " ++ g.buildMigrateRepoCommand r true ++ " \x7d\n") ::
          (if g.options.DownloadMigrationLog = true then
            ["Exec \x7b " ++ g.buildDownloadLogsCommand r.Name ++ " \x7d\n"] else [])) ∧
    (∀ r : Repository, "--queue-only" ∈ g.buildMigrateRepoParts r false ∧
      "--queue-only" ∉ g.buildMigrateRepoParts r true) := by
  have hmem : ∀ (r : Repository) (w : Bool),
      ("--queue-only" ∈ g.buildMigrateRepoParts r w ↔ w = false) := by
    intro r w
    obtain ⟨h1, h2, h3, -⟩ := parts_split_mode g r w
    have hq : isModeFlag "--queue-only" = true := by decide
    have hf := List.filter_eq_nil_iff.1 h2 "--queue-only"
    have hv := List.filter_eq_nil_iff.1 h3 "--queue-only"
    rw [h1, List.mem_append, List.mem_append]
    constructor
    · rintro ((h | h) | h)
      · exact absurd hq (hf h)
      · simp only [modeTokens, List.mem_append, mem_ite_singleton] at h
        rcases h with ((⟨-, h⟩ | ⟨h, -⟩) | ⟨-, h⟩) | ⟨-, h⟩
        · exact absurd h (by decide)
        · exact h
        · exact absurd h (by decide)
        · exact absurd h (by decide)
      · exact absurd hq (hv h)
    · intro hw
      refine Or.inl (Or.inr ?_)
      simp [modeTokens, mem_ite_singleton, hw]
  have himp : ∀ t : String, (t == "--queue-only") = true → isModeFlag t = true := by
    intro t ht
    simp [isModeFlag, ht]
  obtain ⟨h1, h2, h3, -⟩ := parts_split_mode g repo wait
  refine ⟨hmem repo wait, ?_, ⟨_, h1, h2, ?_⟩, ?_, ?_, ?_, fun r => ⟨(hmem r false).2 rfl, ?_⟩⟩
  · rw [h1, List.filter_append, List.filter_append,
      filter_nil_of_imp _ _ _ h2 himp, filter_nil_of_imp _ _ _ h3 himp]
    unfold modeTokens
    cases wait <;> cases g.options.Verbose <;> cases g.options.SkipReleases <;>
      cases g.options.LockSourceRepo <;> decide
  · have := List.filter_eq_nil_iff.1 h3 ("--target-repo-visibility " ++ repo.Visibility)
      (List.mem_singleton.2 rfl)
    simpa using this
  · obtain ⟨e, -, -, -⟩ := parts_split_mode g repo false
    refine ⟨" ".intercalate ([g.options.CLICommand ++ " migrate-repo"] ++ targetUrlTokens g ++
        sourceIdentityBlock g repo ++
        ["--github-target-org \"" ++ g.options.TargetOrg ++ "\"",
          "--target-repo \"" ++ repo.Name ++ "\""] ++
        ghesTokens g ++ (if g.options.Verbose = true then ["--verbose"] else [])),
      " ".intercalate ((if g.options.SkipReleases = true then ["--skip-releases"] else []) ++
        (if g.options.LockSourceRepo = true then ["--lock-source-repo"] else []) ++
        ["--target-repo-visibility " ++ repo.Visibility]), ?_⟩
    have e2 : g.buildMigrateRepoParts repo false =
        ([g.options.CLICommand ++ " migrate-repo"] ++ targetUrlTokens g ++
        sourceIdentityBlock g repo ++
        ["--github-target-org \"" ++ g.options.TargetOrg ++ "\"",
          "--target-repo \"" ++ repo.Name ++ "\""] ++
        ghesTokens g ++ (if g.options.Verbose = true then ["--verbose"] else [])) ++
        (["--queue-only"] ++
          ((if g.options.SkipReleases = true then ["--skip-releases"] else []) ++
            (if g.options.LockSourceRepo = true then ["--lock-source-repo"] else []) ++
            ["--target-repo-visibility " ++ repo.Visibility])) := by
      rw [e]
      simp [modeTokens]
    show " ".intercalate (g.buildMigrateRepoParts repo false) = _
    rw [e2, intercalate_append _ _ _ (by simp) (by simp),
      intercalate_append _ ["--queue-only"] _ (by simp) (by simp)]
    simp [intercalate_cons, String.join, String.ext_iff]
  · obtain ⟨pre, mid, sum, hs, hfq, -, hbq, -, -⟩ := parallel_structure g
    rw [hs, List.filter_append, hfq, hbq, List.append_nil]
  · exact sequential_exec_lines g
  · intro h
    exact Bool.noConfusion ((hmem r true).1 h)

/-! ## The preamble of both scripts -/

theorem helper_blocks_differ (a b : String) :
    ExecFunctionBlock ++ a ≠ ExecAndGetMigrationIDFunctionBlock ++ b := by
  simp [ExecFunctionBlock, ExecAndGetMigrationIDFunctionBlock, String.ext_iff]

theorem exists_rest_of_append {α : Type} (w a b c d e : List α)
    (h : w = (a ++ b ++ c ++ d) ++ e) : ∃ rest : List α, w = a ++ b ++ rest :=
  ⟨c ++ d ++ e, by rw [h]; simp only [List.append_assoc]⟩

/-- C11: in both modes the script starts with the line `#!/usr/bin/env pwsh`, a blank line,
the version comment, one helper-function block and the validation blocks. `Generate` gives
the sequential script exactly when `Sequential` is true; up to the validation blocks the two
scripts differ only in the helper (`function Exec` against `function
ExecAndGetMigrationID`), and the validation blocks do not depend on the mode. -/
theorem generate_preamble (g : Generator) :
    g.Generate =
      (if g.options.Sequential = true then g.generateSequentialScript
        else g.generateParallelScript) ∧
    (g.Generate = g.generateSequentialScript ↔ g.options.Sequential = true) ∧
    (∃ rest : List String,
      g.generateSequentialBuilder.writes =
        [PwshShebang ++ "\n", "\n", g.versionComment ++ "\n", ExecFunctionBlock ++ "\n"] ++
          (g.writeValidationBlocks Builder.empty).writes ++ rest) ∧
    (∃ rest : List String,
      g.generateParallelBuilder.writes =
        [PwshShebang ++ "\n", "\n", g.versionComment ++ "\n",
          ExecAndGetMigrationIDFunctionBlock ++ "\n"] ++
          (g.writeValidationBlocks Builder.empty).writes ++ rest) ∧
    (∃ rest : String,
      g.Generate =
        "#!/usr/bin/env pwsh\n" ++ "\n" ++
        ("# =========== Created with CLI version " ++ g.options.CLIVersion ++
          " ===========" ++ "\n") ++
        ((if g.options.Sequential = true then ExecFunctionBlock
          else ExecAndGetMigrationIDFunctionBlock) ++ "\n") ++
        String.join (g.writeValidationBlocks Builder.empty).writes ++ rest) ∧
    (∀ b : Bool,
      ({ g with options := { g.options with Sequential := b } } :
        Generator).writeValidationBlocks Builder.empty =
      g.writeValidationBlocks Builder.empty) ∧
    startsWith ExecFunctionBlock "\nfunction Exec \x7b" = true ∧
    startsWith ExecAndGetMigrationIDFunctionBlock "\nfunction ExecAndGetMigrationID \x7b" =
      true := by
  have hs : ∃ rest : List String,
      g.generateSequentialBuilder.writes =
        [PwshShebang ++ "\n", "\n", g.versionComment ++ "\n", ExecFunctionBlock ++ "\n"] ++
          (g.writeValidationBlocks Builder.empty).writes ++ rest :=
    ⟨_, by rw [generateSequentialBuilder_writes, List.append_assoc]⟩
  have hp : ∃ rest : List String,
      g.generateParallelBuilder.writes =
        [PwshShebang ++ "\n", "\n", g.versionComment ++ "\n",
          ExecAndGetMigrationIDFunctionBlock ++ "\n"] ++
          (g.writeValidationBlocks Builder.empty).writes ++ rest :=
    exists_rest_of_append _ _ _ _ _ _ (generateParallelBuilder_writes g)
  have htext : ∀ (helper : String) (writes rest : List String),
      writes = [PwshShebang ++ "\n", "\n", g.versionComment ++ "\n", helper ++ "\n"] ++
          (g.writeValidationBlocks Builder.empty).writes ++ rest →
      String.join writes =
        "#!/usr/bin/env pwsh\n" ++ "\n" ++
        ("# =========== Created with CLI version " ++ g.options.CLIVersion ++
          " ===========" ++ "\n") ++ (helper ++ "\n") ++
        String.join (g.writeValidationBlocks Builder.empty).writes ++ String.join rest := by
    intro helper writes rest h
    rw [h, join_append, join_append]
    simp [join_cons, String.join, Generator.versionComment, PwshShebang, String.ext_iff]
  obtain ⟨rs, hrs⟩ := hs
  obtain ⟨rp, hrp⟩ := hp
  have hst := htext _ _ _ hrs
  have hpt := htext _ _ _ hrp
  have hne : g.generateSequentialScript ≠ g.generateParallelScript := by
    show String.join _ ≠ String.join _
    rw [hst, hpt]
    intro h
    have h' := congrArg String.data h
    simp only [String.data_append, List.append_assoc, List.append_cancel_left_eq] at h'
    exact helper_blocks_differ _ _ (String.ext (by simpa [String.data_append] using h'))
  refine ⟨rfl, ?_, ⟨_, hrs⟩, ⟨_, hrp⟩, ?_, fun b => rfl, by decide, by decide⟩
  · unfold Generator.Generate
    cases hb : g.options.Sequential
    · simp [Ne.symm hne]
    · simp
  · unfold Generator.Generate
    cases hb : g.options.Sequential
    · exact ⟨_, by simpa using hpt⟩
    · exact ⟨_, by simpa using hst⟩

/-! ## Verbatim embedding of names -/

theorem join_contains_of_mem (l : List String) (x : String) (h : x ∈ l) :
    ∃ pre post : String, String.join l = pre ++ x ++ post := by
  obtain ⟨a, b, rfl⟩ := List.append_of_mem h
  exact ⟨String.join a, String.join b, by rw [join_append, join_cons, String.append_assoc]⟩

theorem stringsJoin_contains_of_mem (l : List String) (sep x : String) (h : x ∈ l) :
    ∃ pre post : String, stringsJoin l sep = pre ++ x ++ post := by
  induction l with
  | nil => simp at h
  | cons a l ih =>
    rcases List.mem_cons.1 h with rfl | hmem
    · exact ⟨"", String.join (l.map (fun b => sep ++ b)), by
        unfold stringsJoin
        rw [intercalate_cons]
        simp⟩
    · obtain ⟨pre, post, hpp⟩ := ih hmem
      cases l with
      | nil => simp at hmem
      | cons b l =>
        refine ⟨a ++ sep ++ pre, post, ?_⟩
        unfold stringsJoin at hpp ⊢
        rw [show a :: b :: l = [a] ++ (b :: l) from rfl,
          intercalate_append sep [a] (b :: l) (by simp) (by simp), hpp, intercalate_singleton]
        simp [String.append_assoc]

/-- C29: names are embedded verbatim. For every generator and every repository (whatever
its name holds), the migrate command contains the text `--target-repo "` ++ name ++ `"` (it
is one of its tokens); for every string `s` the download-logs command ends with
`--target-repo "` ++ s ++ `"` and the wait command with `$RepoMigrations["` ++ s ++ `"]`;
and for every repository of the generator the parallel script contains its registry
assignment, which starts with the key `$RepoMigrations["` ++ name ++ `"]`. -/
theorem names_embedded_verbatim (g : Generator) :
    (∀ (repo : Repository) (wait : Bool),
      "--target-repo \"" ++ repo.Name ++ "\"" ∈ g.buildMigrateRepoParts repo wait ∧
      ∃ pre post : String,
        g.buildMigrateRepoCommand repo wait =
          pre ++ ("--target-repo \"" ++ repo.Name ++ "\"") ++ post) ∧
    (∀ s : String,
      ∃ pre : String,
        g.buildDownloadLogsCommand s = pre ++ ("--target-repo \"" ++ s ++ "\"")) ∧
    (∀ s : String,
      ∃ pre : String,
        g.buildWaitForMigrationCommand s = pre ++ ("$RepoMigrations[\"" ++ s ++ "\"]")) ∧
    (∀ repo ∈ g.repos,
      "$RepoMigrations[\"" ++ repo.Name ++ "\"] = $MigrationID\n" ∈
        g.generateParallelBuilder.writes ∧
      ∃ pre post : String,
        g.generateParallelScript =
          pre ++ ("$RepoMigrations[\"" ++ repo.Name ++ "\"]") ++ post) := by
  refine ⟨?_, ?_, ?_, ?_⟩
  · intro repo wait
    exact ⟨targetRepo_mem_parts g repo wait,
      stringsJoin_contains_of_mem _ _ _ (targetRepo_mem_parts g repo wait)⟩
  · intro s
    rw [buildDownloadLogsCommand_eq]
    exact ⟨g.options.CLICommand ++ " download-logs" ++
      (if g.options.TargetAPIURL ≠ "" then
        " --target-api-url \"" ++ g.options.TargetAPIURL ++ "\"" else "") ++
      " --github-target-org \"" ++ g.options.TargetOrg ++ "\"" ++ " ",
      by simp [String.ext_iff, List.append_assoc]⟩
  · intro s
    rw [buildWaitForMigrationCommand_eq]
    exact ⟨g.options.CLICommand ++ " wait-for-migration" ++
      (if g.options.TargetAPIURL ≠ "" then
        " --target-api-url \"" ++ g.options.TargetAPIURL ++ "\"" else "") ++
      " --migration-id ",
      by simp [String.ext_iff, List.append_assoc]⟩
  · intro repo hrepo
    have hmem : "$RepoMigrations[\"" ++ repo.Name ++ "\"] = $MigrationID\n" ∈
        g.generateParallelBuilder.writes := by
      obtain ⟨preamble, middle, summary, hw, -⟩ := parallel_structure g
      rw [hw]
      apply List.mem_append_left
      apply List.mem_append_right
      rw [List.mem_flatMap]
      exact ⟨repo, hrepo, by simp⟩
    refine ⟨hmem, ?_⟩
    obtain ⟨pre, post, h⟩ := join_contains_of_mem _ _ hmem
    refine ⟨pre, " = $MigrationID\n" ++ post, ?_⟩
    unfold Generator.generateParallelScript Builder.String
    rw [h]
    simp [String.append_assoc, String.ext_iff]

/-- C29 witness: for the sample repository named `a"$b` ++ newline ++ `c` the commands and
the registry assignment hold the name unchanged. -/
theorem names_embedded_verbatim_witness :
    sampleHostile.buildMigrateRepoCommand ⟨"a\"$b\nc", "private"⟩ false =
      "gh gei migrate-repo --github-source-org \"src\" --source-repo \"a\"$b\nc\" --github-target-org \"tgt\" --target-repo \"a\"$b\nc\" --queue-only --target-repo-visibility private" ∧
    sampleHostile.buildWaitForMigrationCommand "a\"$b\nc" =
      "gh gei wait-for-migration --migration-id $RepoMigrations[\"a\"$b\nc\"]" ∧
    "$RepoMigrations[\"a\"$b\nc\"] = $MigrationID\n" ∈
      sampleHostile.generateParallelBuilder.writes :=
  ⟨by decide, by decide,
    ((names_embedded_verbatim sampleHostile).2.2.2 ⟨"a\"$b\nc", "private"⟩ (by decide)).1⟩

/-! ## The lines of the script text -/

theorem splitLines_ne_nil (l : List Char) : splitLines l ≠ [] := by
  cases l with
  | nil => simp [splitLines]
  | cons c l =>
    unfold splitLines
    split
    · simp
    · split <;> simp

theorem splitLines_append_newline (l r : List Char) :
    splitLines (l ++ '\n' :: r) = splitLines l ++ splitLines r := by
  induction l with
  | nil => simp [splitLines]
  | cons c l ih =>
    rw [List.cons_append]
    by_cases hc : c = '\n'
    · subst hc
      simp [splitLines, ih]
    · rw [splitLines, if_neg hc, ih, splitLines, if_neg hc]
      cases hl : splitLines l with
      | nil => exact absurd hl (splitLines_ne_nil l)
      | cons p ps => simp

theorem splitLines_of_not_mem (l : List Char) (h : '\n' ∉ l) : splitLines l = [l] := by
  induction l with
  | nil => rfl
  | cons c l ih =>
    have hc : c ≠ '\n' := fun e => h (by simp [e])
    have hl : '\n' ∉ l := fun e => h (List.mem_cons_of_mem _ e)
    rw [splitLines, if_neg hc, ih hl]

theorem hasNewline_append (a b : String) :
    hasNewline (a ++ b) = (hasNewline a || hasNewline b) := by
  simp [hasNewline, List.contains_eq_any_beq, List.any_append]

theorem textLines_of_no_newline (s : String) (h : hasNewline s = false) : textLines s = [s] := by
  unfold textLines
  rw [splitLines_of_not_mem]
  · rfl
  · intro hm
    have : hasNewline s = true := by
      unfold hasNewline
      exact List.contains_iff_exists_mem_beq.2 ⟨_, hm, by simp⟩
    rw [h] at this
    exact Bool.noConfusion this

theorem textLines_append_newline (a b : String) :
    textLines (a ++ "\n" ++ b) = textLines a ++ textLines b := by
  unfold textLines
  have : (a ++ "\n" ++ b).data = a.data ++ '\n' :: b.data := by
    simp [String.data_append]
  rw [this, splitLines_append_newline, List.map_append]

/-- No piece between newline characters holds a newline character. -/
theorem splitLines_no_newline (l : List Char) : ∀ p ∈ splitLines l, '\n' ∉ p := by
  induction l with
  | nil => simp [splitLines]
  | cons c l ih =>
    by_cases hc : c = '\n'
    · subst hc
      intro p hp
      simp only [splitLines, if_true, List.mem_cons] at hp
      rcases hp with rfl | hp
      · simp
      · exact ih p hp
    · rw [splitLines, if_neg hc]
      cases hl : splitLines l with
      | nil => exact absurd hl (splitLines_ne_nil l)
      | cons q qs =>
        rw [hl] at ih
        intro p hp
        simp only [List.mem_cons] at hp
        rcases hp with rfl | hp
        · intro hm
          rcases List.mem_cons.1 hm with e | e
          · exact hc e.symm
          · exact ih q (List.mem_cons_self _ _) e
        · exact ih p (List.mem_cons_of_mem _ hp)

/-- Joining the lines of a text with newlines, as `strings.Join(lines, "\n")` does, gives
the text back. -/
theorem textLines_join (s : String) : stringsJoin (textLines s) "\n" = s := by
  have key : ∀ l : List Char,
      stringsJoin ((splitLines l).map String.mk) "\n" = String.mk l := by
    intro l
    induction l with
    | nil => rfl
    | cons c l ih =>
      by_cases hc : c = '\n'
      · subst hc
        cases hl : splitLines l with
        | nil => exact absurd hl (splitLines_ne_nil l)
        | cons q qs =>
          rw [hl] at ih
          simp only [splitLines, if_true, hl, List.map_cons]
          unfold stringsJoin at ih ⊢
          simp only [List.map_cons] at ih
          rw [intercalate_cons] at ih ⊢
          rw [List.map_cons, join_cons, String.append_assoc, ih]
          simp [String.ext_iff]
      · rw [splitLines, if_neg hc]
        cases hl : splitLines l with
        | nil => exact absurd hl (splitLines_ne_nil l)
        | cons q qs =>
          rw [hl] at ih
          simp only [List.map_cons]
          unfold stringsJoin at ih ⊢
          simp only [List.map_cons] at ih
          rw [intercalate_cons] at ih ⊢
          have e : String.mk (c :: q) = String.mk [c] ++ String.mk q := by
            simp [String.ext_iff]
          rw [e, String.append_assoc, ih]
          simp [String.ext_iff]
  exact key s.data

/-- No line of a text holds a newline character. -/
theorem textLines_no_newline (s : String) : ∀ l ∈ textLines s, hasNewline l = false := by
  intro l hl
  obtain ⟨p, hp, rfl⟩ := List.mem_map.1 hl
  have h := splitLines_no_newline _ p hp
  simpa [hasNewline] using h

/-- The lines of a text made of pieces that each end with a newline. -/
theorem textLines_segments (segs : List String) :
    textLines (String.join (segs.map (fun s => s ++ "\n"))) =
      segs.flatMap textLines ++ [""] := by
  induction segs with
  | nil => rfl
  | cons s segs ih =>
    rw [List.map_cons, join_cons, textLines_append_newline, ih, List.flatMap_cons,
      List.append_assoc]

theorem join_pairs (l : List String) :
    String.join (l.flatMap (fun b => [b, "\n"])) = String.join (l.map (fun b => b ++ "\n")) := by
  induction l with
  | nil => rfl
  | cons a l ih =>
    rw [List.flatMap_cons, join_append, ih, List.map_cons, join_cons, join_cons, join_cons]
    simp [String.join, String.ext_iff]

theorem execEntry_eq (cmd : String) :
    "Exec \x7b " ++ cmd ++ " \x7d\n" = execText cmd ++ "\n" := by
  simp [execText, String.ext_iff]

theorem generateSequentialScript_segments (g : Generator) :
    g.generateSequentialScript =
      String.join ((sequentialSegments g).map (fun s => s ++ "\n")) := by
  unfold Generator.generateSequentialScript Builder.String sequentialSegments
  rw [generateSequentialBuilder_writes, writeValidationBlocks_eq_checks]
  simp only [Builder.empty, List.nil_append, join_append, List.map_append, join_pairs,
    List.map_flatMap]
  have hrepos : g.repos.flatMap (fun repo =>
      ("Exec \x7b " ++ g.buildMigrateRepoCommand repo true ++ " \x7d\n") ::
        (if g.options.DownloadMigrationLog = true then
          ["Exec \x7b " ++ g.buildDownloadLogsCommand repo.Name ++ " \x7d\n"] else [])) =
      g.repos.flatMap (fun repo =>
        (execText (g.buildMigrateRepoCommand repo true) ::
          (if g.options.DownloadMigrationLog = true then
            [execText (g.buildDownloadLogsCommand repo.Name)] else [])).map
          (fun s => s ++ "\n")) := by
    congr 1
    funext repo
    split_ifs <;> simp [execEntry_eq]
  rw [hrepos]
  simp [join_cons, organizationComment, String.join, String.ext_iff]

theorem newlineFree_mem (g : Generator) (h : newlineFree g = true) (s : String)
    (hs : s ∈ embeddedStrings g) : hasNewline s = false := by
  unfold newlineFree at h
  rw [List.all_eq_true] at h
  simpa using h s hs

theorem hasNewline_false_iff (s : String) : hasNewline s = false ↔ '\n' ∉ s.data := by
  simp [hasNewline]

theorem newlineFree_options (g : Generator) (h : newlineFree g = true) :
    '\n' ∉ g.options.SourceOrg.data ∧ '\n' ∉ g.options.TargetOrg.data ∧
    '\n' ∉ g.options.TargetAPIURL.data ∧ '\n' ∉ g.options.TargetUploadsURL.data ∧
    '\n' ∉ g.options.GHESAPIUrl.data ∧ '\n' ∉ g.options.AWSBucketName.data ∧
    '\n' ∉ g.options.AWSRegion.data ∧ '\n' ∉ g.options.CLIVersion.data ∧
    '\n' ∉ g.options.CLICommand.data ∧ '\n' ∉ g.options.ADOOrg.data ∧
    '\n' ∉ g.options.ADOTeamProject.data ∧ '\n' ∉ g.options.BBSServerURL.data ∧
    '\n' ∉ g.options.BBSProject.data := by
  refine ⟨?_, ?_, ?_, ?_, ?_, ?_, ?_, ?_, ?_, ?_, ?_, ?_, ?_⟩ <;>
    exact (hasNewline_false_iff _).1 (newlineFree_mem g h _ (by simp [embeddedStrings]))

theorem newlineFree_repo (g : Generator) (h : newlineFree g = true) (repo : Repository)
    (hr : repo ∈ g.repos) : '\n' ∉ repo.Name.data ∧ '\n' ∉ repo.Visibility.data := by
  constructor <;>
    exact (hasNewline_false_iff _).1 (newlineFree_mem g h _ (by
      unfold embeddedStrings
      apply List.mem_append_right
      rw [List.mem_flatMap]
      exact ⟨repo, hr, by simp⟩))

theorem hasNewline_join (l : List String) (h : ∀ s ∈ l, hasNewline s = false) :
    hasNewline (String.join l) = false := by
  induction l with
  | nil => rfl
  | cons a l ih =>
    rw [join_cons, hasNewline_append, h a (List.mem_cons_self _ _),
      ih (fun s hs => h s (List.mem_cons_of_mem _ hs))]
    rfl

theorem hasNewline_stringsJoin (parts : List String) (sep : String)
    (h : ∀ p ∈ parts, hasNewline p = false) (hsep : hasNewline sep = false) :
    hasNewline (stringsJoin parts sep) = false := by
  unfold stringsJoin
  cases parts with
  | nil => rfl
  | cons a l =>
    rw [intercalate_cons, hasNewline_append, h a (List.mem_cons_self _ _), Bool.false_or]
    apply hasNewline_join
    intro s hs
    obtain ⟨b, hb, rfl⟩ := List.mem_map.1 hs
    rw [hasNewline_append, hsep, h b (List.mem_cons_of_mem _ hb)]
    rfl

theorem all_append_iff (p : String → Bool) (a b : List String) :
    (∀ s ∈ a ++ b, p s = false) ↔ (∀ s ∈ a, p s = false) ∧ ∀ s ∈ b, p s = false := by
  simp only [List.mem_append]
  constructor
  · intro h
    exact ⟨fun s hs => h s (Or.inl hs), fun s hs => h s (Or.inr hs)⟩
  · rintro ⟨h1, h2⟩ s (hs | hs)
    · exact h1 s hs
    · exact h2 s hs

theorem migrateParts_noNewline (g : Generator) (h : newlineFree g = true) (repo : Repository)
    (hr : repo ∈ g.repos) (wait : Bool) :
    ∀ p ∈ g.buildMigrateRepoParts repo wait, hasNewline p = false := by
  obtain ⟨h1, h2, h3, h4, h5, h6, h7, -, h9, h10, h11, h12, h13⟩ := newlineFree_options g h
  obtain ⟨hn, hv⟩ := newlineFree_repo g h repo hr
  rw [buildMigrateRepoParts_eq]
  have ht : ∀ p ∈ targetUrlTokens g, hasNewline p = false := by
    unfold targetUrlTokens
    rw [all_append_iff]
    constructor <;> (split_ifs <;> simp [hasNewline_append, h3, h4, hasNewline])
  have hsrc : ∀ p ∈ sourceIdentityBlock g repo, hasNewline p = false := by
    unfold sourceIdentityBlock adoBlock bbsBlock githubBlock
    split_ifs <;> simp [hasNewline_append, h1, h10, h11, h12, h13, hn, hasNewline]
  have hghes : ∀ p ∈ ghesTokens g, hasNewline p = false := by
    unfold ghesTokens
    split_ifs <;> simp [hasNewline_append, h5, h6, h7, hasNewline]
  have hmode : ∀ p ∈ modeTokens g wait, hasNewline p = false := by
    unfold modeTokens
    split_ifs <;> simp [hasNewline]
  intro p hp
  simp only [List.mem_append, List.mem_cons, List.mem_singleton, List.not_mem_nil, or_false,
    or_assoc] at hp
  rcases hp with rfl | hp | hp | rfl | rfl | hp | hp | rfl
  · simp [hasNewline_append, h9, hasNewline]
  · exact ht p hp
  · exact hsrc p hp
  · simp [hasNewline_append, h2, hasNewline]
  · simp [hasNewline_append, hn, hasNewline]
  · exact hghes p hp
  · exact hmode p hp
  · simp [hasNewline_append, hv, hasNewline]

theorem migrateCommand_noNewline (g : Generator) (h : newlineFree g = true) (repo : Repository)
    (hr : repo ∈ g.repos) (wait : Bool) :
    hasNewline (g.buildMigrateRepoCommand repo wait) = false :=
  hasNewline_stringsJoin _ _ (migrateParts_noNewline g h repo hr wait) (by decide)

theorem downloadCommand_noNewline (g : Generator) (h : newlineFree g = true) (repo : Repository)
    (hr : repo ∈ g.repos) : hasNewline (g.buildDownloadLogsCommand repo.Name) = false := by
  obtain ⟨-, h2, h3, -, -, -, -, -, h9, -⟩ := newlineFree_options g h
  obtain ⟨hn, -⟩ := newlineFree_repo g h repo hr
  rw [buildDownloadLogsCommand_eq]
  split_ifs <;> simp [hasNewline_append, h2, h3, h9, hn, hasNewline]

theorem waitCommand_noNewline (g : Generator) (h : newlineFree g = true) (repo : Repository)
    (hr : repo ∈ g.repos) : hasNewline (g.buildWaitForMigrationCommand repo.Name) = false := by
  obtain ⟨-, -, h3, -, -, -, -, -, h9, -⟩ := newlineFree_options g h
  obtain ⟨hn, -⟩ := newlineFree_repo g h repo hr
  rw [buildWaitForMigrationCommand_eq]
  split_ifs <;> simp [hasNewline_append, h3, h9, hn, hasNewline]

theorem flatMap_textLines_id (l : List String) (h : ∀ s ∈ l, hasNewline s = false) :
    l.flatMap textLines = l := by
  induction l with
  | nil => rfl
  | cons a l ih =>
    rw [List.flatMap_cons, textLines_of_no_newline a (h a (List.mem_cons_self _ _)),
      ih (fun s hs => h s (List.mem_cons_of_mem _ hs))]
    rfl

theorem credentialChecks_mem (g : Generator) : ∀ b ∈ credentialChecks g, b ∈ checkOrder := by
  rw [credentialChecks_eq]
  unfold checkOrder
  intro b hb
  simp only [List.mem_append, List.mem_singleton] at hb
  rcases hb with ((hb | hb) | hb) | hb
  · simp [hb]
  · split_ifs at hb <;> simp_all
  · split_ifs at hb
    · rcases List.mem_pair.1 hb with e | e <;> simp [e]
    · simp at hb
  · split_ifs at hb
    · rcases List.mem_pair.1 hb with e | e <;> simp [e]
    · simp_all
    · simp at hb

theorem flatMap_filter_nil (p : String → Bool) (l : List String)
    (h : ∀ b ∈ l, (textLines b).filter p = []) : (l.flatMap textLines).filter p = [] := by
  induction l with
  | nil => rfl
  | cons a l ih =>
    rw [List.flatMap_cons, List.filter_append, h a (List.mem_cons_self _ _),
      ih (fun b hb => h b (List.mem_cons_of_mem _ hb))]
    rfl

theorem checks_textLines_filter (p : String → Bool)
    (hp : ∀ w ∈ checkOrder, (textLines w).filter p = []) (g : Generator) :
    ((credentialChecks g).flatMap textLines).filter p = [] :=
  flatMap_filter_nil p _ (fun b hb => hp b (credentialChecks_mem g b hb))

theorem versionComment_noNewline (g : Generator) (h : newlineFree g = true) :
    hasNewline g.versionComment = false := by
  obtain ⟨-, -, -, -, -, -, -, h8, -⟩ := newlineFree_options g h
  simp [Generator.versionComment, hasNewline_append, h8, hasNewline]

theorem organizationComment_noNewline (g : Generator) (h : newlineFree g = true) :
    hasNewline (organizationComment g) = false := by
  obtain ⟨h1, -⟩ := newlineFree_options g h
  simp [organizationComment, hasNewline_append, h1, hasNewline]

theorem execText_noNewline (cmd : String) (h : hasNewline cmd = false) :
    hasNewline (execText cmd) = false := by
  rw [hasNewline_false_iff] at h
  simp [execText, hasNewline_append, h, hasNewline]

theorem execText_isExecText (cmd : String) : isExecText (execText cmd) = true := by
  simp [isExecText, execText, startsWith, endsWith_eq]

theorem flatMap_noNewline {α : Type} (xs : List α) (k : α → List String)
    (h : ∀ x ∈ xs, ∀ s ∈ k x, hasNewline s = false) :
    ∀ s ∈ xs.flatMap k, hasNewline s = false := by
  intro s hs
  obtain ⟨x, hx, hsx⟩ := List.mem_flatMap.1 hs
  exact h x hx s hsx

theorem sequential_invocations_noNewline (g : Generator) (h : newlineFree g = true) :
    ∀ s ∈ g.repos.flatMap (fun repo =>
        execText (g.buildMigrateRepoCommand repo true) ::
          (if g.options.DownloadMigrationLog = true then
            [execText (g.buildDownloadLogsCommand repo.Name)] else [])),
      hasNewline s = false := by
  apply flatMap_noNewline
  intro repo hr s hs
  have hm := execText_noNewline _ (migrateCommand_noNewline g h repo hr true)
  have hd := execText_noNewline _ (downloadCommand_noNewline g h repo hr)
  split_ifs at hs
  · simp only [List.mem_cons, List.mem_singleton, List.not_mem_nil, or_false] at hs
    rcases hs with rfl | rfl
    · exact hm
    · exact hd
  · simp only [List.mem_cons, List.not_mem_nil, or_false] at hs
    rw [hs]
    exact hm

theorem sequential_textLines (g : Generator) (h : newlineFree g = true) :
    textLines g.generateSequentialScript =
      [PwshShebang, "", g.versionComment] ++ textLines ExecFunctionBlock ++
        (credentialChecks g).flatMap textLines ++ [organizationComment g] ++
        g.repos.flatMap (fun repo =>
          execText (g.buildMigrateRepoCommand repo true) ::
            (if g.options.DownloadMigrationLog = true then
              [execText (g.buildDownloadLogsCommand repo.Name)] else [])) ++ [""] := by
  rw [generateSequentialScript_segments, textLines_segments]
  unfold sequentialSegments
  simp only [List.flatMap_append]
  rw [flatMap_textLines_id _ (sequential_invocations_noNewline g h)]
  have h1 : textLines PwshShebang = [PwshShebang] := textLines_of_no_newline _ (by decide)
  have h2 : textLines "" = [""] := by decide
  have h3 := textLines_of_no_newline _ (versionComment_noNewline g h)
  have h4 := textLines_of_no_newline _ (organizationComment_noNewline g h)
  simp only [List.flatMap_cons, List.flatMap_nil, h1, h2, h3, h4, List.append_nil,
    List.cons_append, List.nil_append, List.append_assoc]

theorem sequential_header_not_exec (g : Generator) :
    ([PwshShebang, "", g.versionComment] ++ textLines ExecFunctionBlock ++
        (credentialChecks g).flatMap textLines ++ [organizationComment g]).filter
      isExecText = [] := by
  have e : isExecText PwshShebang = false ∧ isExecText "" = false ∧
      (textLines ExecFunctionBlock).filter isExecText = [] := by decide
  obtain ⟨h1, h2, h3⟩ := e
  have hc : ∀ w ∈ checkOrder, (textLines w).filter isExecText = [] := by
    unfold checkOrder
    decide
  have h4 : isExecText g.versionComment = false := by
    simp [isExecText, startsWith, Generator.versionComment, List.isPrefixOf_cons₂]
  have h5 : isExecText (organizationComment g) = false := by
    simp [isExecText, startsWith, organizationComment, List.isPrefixOf_cons₂]
  simp only [List.filter_append, checks_textLines_filter isExecText hc g, h3]
  simp [List.filter_cons, h1, h2, h4, h5]

/-- C1, for configurations whose embedded strings hold no newline: in Sequential mode the
lines of the text returned by `Generate` are the header lines (shebang, blank line, version
comment, the `Exec` helper, the credential checks, the organization banner), none of which
has the form `Exec { ... }`, followed by the invocation lines and the empty line after the
last newline: one migrate-repo line per repository, in input order, each immediately followed
by that repository's download-logs line when `DownloadMigrationLog` is set. The lines of the
form `Exec { ... }` are exactly these, N without log download and 2N with it, and the text
ends with the last of them and its newline, so no summary follows. -/
theorem generate_sequential_invocation_lines (g : Generator)
    (hseq : g.options.Sequential = true) (hnl : newlineFree g = true) :
    let header :=
      [PwshShebang, "", g.versionComment] ++ textLines ExecFunctionBlock ++
        (credentialChecks g).flatMap textLines ++ [organizationComment g]
    let invocations := g.repos.flatMap (fun repo =>
      execText (g.buildMigrateRepoCommand repo true) ::
        (if g.options.DownloadMigrationLog = true then
          [execText (g.buildDownloadLogsCommand repo.Name)] else []))
    textLines g.Generate = header ++ invocations ++ [""] ∧
    header.filter isExecText = [] ∧
    (textLines g.Generate).filter isExecText = invocations ∧
    ((textLines g.Generate).filter isExecText).length =
      (if g.options.DownloadMigrationLog = true then 2 * g.repos.length else g.repos.length) ∧
    (∀ last, invocations.getLast? = some last → endsWith g.Generate (last ++ "\n") = true) := by
  intro header invocations
  have hgen : g.Generate = g.generateSequentialScript := by
    simp [Generator.Generate, hseq]
  have hl : textLines g.Generate = header ++ invocations ++ [""] := by
    rw [hgen]
    exact sequential_textLines g hnl
  have hpre : header.filter isExecText = [] := sequential_header_not_exec g
  have hinv : invocations.filter isExecText = invocations := by
    simp only [invocations, filter_flatMap]
    congr 1
    funext repo
    split_ifs <;> simp [List.filter_cons, execText_isExecText]
  have hfil : (textLines g.Generate).filter isExecText = invocations := by
    rw [hl, List.filter_append, List.filter_append, hpre, hinv]
    have : isExecText "" = false := by decide
    simp [List.filter_cons, this]
  refine ⟨hl, hpre, hfil, ?_, ?_⟩
  · rw [hfil]
    by_cases hd : g.options.DownloadMigrationLog = true
    · simp only [invocations, hd, if_true]
      exact length_flatMap_const _ 2 _ (fun _ => rfl)
    · simp only [invocations, hd, if_false]
      simpa using length_flatMap_const
        (fun repo : Repository => [execText (g.buildMigrateRepoCommand repo true)]) 1 g.repos
        (fun _ => rfl)
  · intro last hlast
    obtain ⟨front, hfront⟩ : ∃ front, invocations = front ++ [last] := by
      rcases List.eq_nil_or_concat invocations with h | ⟨front, l, h⟩
      · rw [h] at hlast; simp at hlast
      · rw [h] at hlast
        simp at hlast
        exact ⟨front, by rw [h, hlast]; simp⟩
    have hseg : sequentialSegments g =
        ([PwshShebang, "", g.versionComment, ExecFunctionBlock] ++ credentialChecks g ++
          [organizationComment g] ++ front) ++ [last] := by
      unfold sequentialSegments
      rw [List.append_assoc _ front, ← hfront]
    rw [hgen, generateSequentialScript_segments, hseg, List.map_append, join_append]
    have : String.join (List.map (fun s => s ++ "\n") [last]) = last ++ "\n" := by
      simp [String.join]
    rw [this]
    exact endsWith_append_self _ _

/-- C1 witness: the sequential sample with two repositories and log download has no newline in
its strings, and the lines of its text of the form `Exec { ... }` are four, a migrate-repo
line and a download-logs line per repository, in order. -/
theorem generate_sequential_invocation_lines_witness :
    sampleSequential.options.Sequential = true ∧ newlineFree sampleSequential = true ∧
    (textLines sampleSequential.Generate).filter isExecText =
      ["Exec \x7b gh gei migrate-repo --github-source-org \"src\" --source-repo \"r1\" --github-target-org \"tgt\" --target-repo \"r1\" --target-repo-visibility private \x7d",
        "Exec \x7b gh gei download-logs --github-target-org \"tgt\" --target-repo \"r1\" \x7d",
        "Exec \x7b gh gei migrate-repo --github-source-org \"src\" --source-repo \"r2\" --github-target-org \"tgt\" --target-repo \"r2\" --target-repo-visibility public \x7d",
        "Exec \x7b gh gei download-logs --github-target-org \"tgt\" --target-repo \"r2\" \x7d"] :=
  ⟨by decide, by decide,
    (generate_sequential_invocation_lines sampleSequential (by decide) (by decide)).2.2.1.trans
      (by decide)⟩

/-- C1 counterexample: a sequential configuration without log download and with one
repository whose name holds a newline. The text returned by `Generate` has three lines of
the form `Exec { ... }`, not one. -/
theorem sequential_injected_name_counterexample :
    sampleInjectedExec.options.Sequential = true ∧
    sampleInjectedExec.options.DownloadMigrationLog = false ∧
    sampleInjectedExec.repos.length = 1 ∧
    (textLines sampleInjectedExec.Generate).filter isExecText =
      ["Exec \x7b gh gei migrate-repo --github-source-org \"src\" --source-repo \"a\" \x7d",
        "Exec \x7b gh gei delete-repo --repo \"b\" --github-target-org \"tgt\" --target-repo \"a\" \x7d",
        "Exec \x7b gh gei delete-repo --repo \"b\" --target-repo-visibility private \x7d"] ∧
    ((textLines sampleInjectedExec.Generate).filter isExecText).length ≠
      sampleInjectedExec.repos.length := by
  decide

/-! ## The lines of the parallel script -/

theorem join_flatMap_congr {α : Type} (xs : List α) (k k2 : α → List String)
    (h : ∀ x, String.join (k x) = String.join (k2 x)) :
    String.join (xs.flatMap k) = String.join (xs.flatMap k2) := by
  induction xs with
  | nil => rfl
  | cons x xs ih => rw [List.flatMap_cons, List.flatMap_cons, join_append, join_append, h, ih]

theorem join_map_flatMap {α : Type} (xs : List α) (k : α → List String) (f : String → String) :
    (xs.flatMap k).map f = xs.flatMap (fun x => (k x).map f) := by
  induction xs with
  | nil => rfl
  | cons x xs ih => simp [List.flatMap_cons, ih]

theorem generateParallelScript_segments (g : Generator) :
    g.generateParallelScript =
      String.join ((parallelSegments g).map (fun s => s ++ "\n")) := by
  unfold Generator.generateParallelScript Builder.String parallelSegments
  rw [generateParallelBuilder_writes, writeValidationBlocks_eq_checks]
  simp only [Builder.empty, List.nil_append, join_append, List.map_append, join_pairs,
    join_map_flatMap]
  have hq : String.join (g.repos.flatMap (fun repo =>
      ["$MigrationID = ExecAndGetMigrationID \x7b " ++ g.buildMigrateRepoCommand repo false ++
          " \x7d\n",
        "$RepoMigrations[\"" ++ repo.Name ++ "\"] = $MigrationID\n", "\n"])) =
      String.join (g.repos.flatMap (fun repo =>
        [queueText g repo, registryText repo, ""].map (fun s => s ++ "\n"))) := by
    apply join_flatMap_congr
    intro repo
    simp [queueText, registryText, String.join, String.ext_iff]
  have hw : String.join (g.repos.flatMap (fun repo =>
      ["if ($RepoMigrations[\"" ++ repo.Name ++ "\"]) \x7b " ++
          g.buildWaitForMigrationCommand repo.Name ++ " \x7d\n",
        "if ($RepoMigrations[\"" ++ repo.Name ++
          "\"] -and $lastexitcode -eq 0) \x7b $Succeeded++ \x7d else \x7b $Failed++ \x7d\n"] ++
      (if g.options.DownloadMigrationLog = true then
        [g.buildDownloadLogsCommand repo.Name ++ "\n"] else []) ++ ["\n"])) =
      String.join (g.repos.flatMap (fun repo =>
        ([waitText g repo, tallyText repo] ++
          (if g.options.DownloadMigrationLog = true then
            [g.buildDownloadLogsCommand repo.Name] else []) ++ [""]).map
          (fun s => s ++ "\n"))) := by
    apply join_flatMap_congr
    intro repo
    split_ifs <;> simp [waitText, tallyText, String.join, String.ext_iff]
  rw [hq, hw]
  simp [join_cons, organizationComment, waitingComment, String.join, String.ext_iff]

theorem waitingComment_noNewline (g : Generator) (h : newlineFree g = true) :
    hasNewline (waitingComment g) = false := by
  obtain ⟨h1, -⟩ := newlineFree_options g h
  simp [waitingComment, hasNewline_append, h1, hasNewline]

theorem queueing_noNewline (g : Generator) (h : newlineFree g = true) :
    ∀ s ∈ g.repos.flatMap (fun repo => [queueText g repo, registryText repo, ""]),
      hasNewline s = false := by
  apply flatMap_noNewline
  intro repo hr s hs
  obtain ⟨hn, -⟩ := newlineFree_repo g h repo hr
  have hm := (hasNewline_false_iff _).1 (migrateCommand_noNewline g h repo hr false)
  simp only [List.mem_cons, List.mem_singleton, List.not_mem_nil, or_false] at hs
  rcases hs with rfl | rfl | rfl
  · simp [queueText, hasNewline_append, hm, hasNewline]
  · simp [registryText, hasNewline_append, hn, hasNewline]
  · decide

theorem waiting_noNewline (g : Generator) (h : newlineFree g = true) :
    ∀ s ∈ g.repos.flatMap (fun repo =>
        [waitText g repo, tallyText repo] ++
          (if g.options.DownloadMigrationLog = true then
            [g.buildDownloadLogsCommand repo.Name] else []) ++ [""]),
      hasNewline s = false := by
  apply flatMap_noNewline
  intro repo hr s hs
  obtain ⟨hn, -⟩ := newlineFree_repo g h repo hr
  have hw := (hasNewline_false_iff _).1 (waitCommand_noNewline g h repo hr)
  have hd := downloadCommand_noNewline g h repo hr
  simp only [List.mem_append, List.mem_cons, List.mem_singleton, List.not_mem_nil,
    or_false, or_assoc] at hs
  rcases hs with rfl | rfl | hs | rfl
  · simp [waitText, hasNewline_append, hw, hn, hasNewline]
  · simp [tallyText, hasNewline_append, hn, hasNewline]
  · split_ifs at hs
    · rw [List.mem_singleton.1 hs]
      exact hd
    · simp at hs
  · decide

theorem parallel_textLines (g : Generator) (h : newlineFree g = true) :
    textLines g.generateParallelScript =
      [PwshShebang, "", g.versionComment] ++ textLines ExecAndGetMigrationIDFunctionBlock ++
        (credentialChecks g).flatMap textLines ++
        ["", "$Succeeded = 0", "$Failed = 0", "$RepoMigrations = [ordered]@\x7b\x7d", "",
          organizationComment g, "", "# === Queuing repo migrations ==="] ++
        g.repos.flatMap (fun repo => [queueText g repo, registryText repo, ""]) ++
        ["", waitingComment g, ""] ++
        g.repos.flatMap (fun repo =>
          [waitText g repo, tallyText repo] ++
            (if g.options.DownloadMigrationLog = true then
              [g.buildDownloadLogsCommand repo.Name] else []) ++ [""]) ++
        ["", "Write-Host =============== Summary ===============",
          "Write-Host Total number of successful migrations: $Succeeded",
          "Write-Host Total number of failed migrations: $Failed", "",
          "if ($Failed -ne 0) \x7b", "    exit 1", "\x7d", "", "", ""] := by
  rw [generateParallelScript_segments, textLines_segments]
  unfold parallelSegments
  simp only [List.flatMap_append]
  rw [flatMap_textLines_id _ (queueing_noNewline g h),
    flatMap_textLines_id _ (waiting_noNewline g h)]
  have h1 : textLines PwshShebang = [PwshShebang] := textLines_of_no_newline _ (by decide)
  have h2 : textLines "" = [""] := by decide
  have h3 := textLines_of_no_newline _ (versionComment_noNewline g h)
  have h4 := textLines_of_no_newline _ (organizationComment_noNewline g h)
  have h5 := textLines_of_no_newline _ (waitingComment_noNewline g h)
  have h6 : ["", "$Succeeded = 0", "$Failed = 0", "$RepoMigrations = [ordered]@\x7b\x7d", "",
      organizationComment g, "", "# === Queuing repo migrations ==="].flatMap textLines =
      ["", "$Succeeded = 0", "$Failed = 0", "$RepoMigrations = [ordered]@\x7b\x7d", "",
        organizationComment g, "", "# === Queuing repo migrations ==="] := by
    apply flatMap_textLines_id
    intro s hs
    simp only [List.mem_cons, List.mem_singleton, List.not_mem_nil, or_false] at hs
    rcases hs with rfl | rfl | rfl | rfl | rfl | rfl | rfl | rfl <;>
      first | exact organizationComment_noNewline g h | decide
  have h7 : ["", "Write-Host =============== Summary ===============",
      "Write-Host Total number of successful migrations: $Succeeded",
      "Write-Host Total number of failed migrations: $Failed", "",
      "if ($Failed -ne 0) \x7b", "    exit 1", "\x7d", "", ""].flatMap textLines =
      ["", "Write-Host =============== Summary ===============",
        "Write-Host Total number of successful migrations: $Succeeded",
        "Write-Host Total number of failed migrations: $Failed", "",
        "if ($Failed -ne 0) \x7b", "    exit 1", "\x7d", "", ""] := by
    decide
  rw [h6, h7]
  simp only [List.flatMap_cons, List.flatMap_nil, h1, h2, h3, h5, List.append_nil,
    List.cons_append, List.nil_append, List.append_assoc]

theorem queueText_lines (g : Generator) (repo : Repository) :
    isQueueText (queueText g repo) = true ∧ isWaitText (queueText g repo) = false ∧
    isTallyText (queueText g repo) = false := by
  simp [isQueueText, isWaitText, isTallyText, queueText, startsWith, endsWith_eq,
    List.isPrefixOf_cons₂]

theorem registryText_lines (repo : Repository) :
    isQueueText (registryText repo) = false ∧ isWaitText (registryText repo) = false ∧
    isTallyText (registryText repo) = false := by
  simp [isQueueText, isWaitText, isTallyText, registryText, startsWith, List.isPrefixOf_cons₂]

theorem waitText_lines (g : Generator) (repo : Repository) :
    isQueueText (waitText g repo) = false ∧ isWaitText (waitText g repo) = true ∧
    isTallyText (waitText g repo) = false := by
  simp [isQueueText, isWaitText, isTallyText, waitText, startsWith, endsWith_eq,
    buildWaitForMigrationCommand_eq, List.isPrefixOf_cons₂]

theorem tallyText_lines (repo : Repository) :
    isQueueText (tallyText repo) = false ∧ isWaitText (tallyText repo) = false ∧
    isTallyText (tallyText repo) = true := by
  simp [isQueueText, isWaitText, isTallyText, tallyText, startsWith, endsWith_eq,
    List.isPrefixOf_cons₂]

theorem downloadText_lines (g : Generator) (name : String) :
    isQueueText (g.buildDownloadLogsCommand name) = false ∧
    isWaitText (g.buildDownloadLogsCommand name) = false ∧
    isTallyText (g.buildDownloadLogsCommand name) = false := by
  simp [isQueueText, isWaitText, isTallyText, endsWith_eq, buildDownloadLogsCommand_eq,
    List.isPrefixOf_cons₂]

theorem comment_lines (g : Generator) :
    (isQueueText g.versionComment = false ∧ isWaitText g.versionComment = false ∧
      isTallyText g.versionComment = false) ∧
    (isQueueText (organizationComment g) = false ∧ isWaitText (organizationComment g) = false ∧
      isTallyText (organizationComment g) = false) ∧
    (isQueueText (waitingComment g) = false ∧ isWaitText (waitingComment g) = false ∧
      isTallyText (waitingComment g) = false) := by
  simp [isQueueText, isWaitText, isTallyText, Generator.versionComment, organizationComment,
    waitingComment, startsWith, List.isPrefixOf_cons₂]

theorem fixed_text_lines :
    (∀ w ∈ checkOrder, (textLines w).filter
      (fun l => isQueueText l || isWaitText l || isTallyText l) = []) ∧
    ((textLines ExecAndGetMigrationIDFunctionBlock).filter
      (fun l => isQueueText l || isWaitText l || isTallyText l) = []) ∧
    (∀ w ∈ [PwshShebang, "", "$Succeeded = 0", "$Failed = 0",
        "$RepoMigrations = [ordered]@\x7b\x7d", "# === Queuing repo migrations ===",
        "Write-Host =============== Summary ===============",
        "Write-Host Total number of successful migrations: $Succeeded",
        "Write-Host Total number of failed migrations: $Failed",
        "if ($Failed -ne 0) \x7b", "    exit 1", "\x7d"],
      (isQueueText w || isWaitText w || isTallyText w) = false) := by
  unfold checkOrder
  decide

theorem filter_nil_of_forall (p : String → Bool) (l : List String)
    (h : ∀ w ∈ l, p w = false) : l.filter p = [] := by
  rw [List.filter_eq_nil_iff]
  intro w hw
  rw [h w hw]
  exact Bool.false_ne_true

theorem parallel_lines_filter (p : String → Bool) (g : Generator)
    (hp : ∀ l, (isQueueText l || isWaitText l || isTallyText l) = false → p l = false) :
    ([PwshShebang, "", g.versionComment] ++ textLines ExecAndGetMigrationIDFunctionBlock ++
        (credentialChecks g).flatMap textLines ++
        ["", "$Succeeded = 0", "$Failed = 0", "$RepoMigrations = [ordered]@\x7b\x7d", "",
          organizationComment g, "", "# === Queuing repo migrations ==="] ++
        g.repos.flatMap (fun repo => [queueText g repo, registryText repo, ""])).filter p =
      g.repos.flatMap (fun repo => [queueText g repo].filter p) ∧
    (["", waitingComment g, ""] ++
        g.repos.flatMap (fun repo =>
          [waitText g repo, tallyText repo] ++
            (if g.options.DownloadMigrationLog = true then
              [g.buildDownloadLogsCommand repo.Name] else []) ++ [""]) ++
        ["", "Write-Host =============== Summary ===============",
          "Write-Host Total number of successful migrations: $Succeeded",
          "Write-Host Total number of failed migrations: $Failed", "",
          "if ($Failed -ne 0) \x7b", "    exit 1", "\x7d", "", "", ""]).filter p =
      g.repos.flatMap (fun repo => [waitText g repo, tallyText repo].filter p) := by
  obtain ⟨hchk, hblk, hfix⟩ := fixed_text_lines
  obtain ⟨⟨v1, v2, v3⟩, ⟨o1, o2, o3⟩, ⟨w1, w2, w3⟩⟩ := comment_lines g
  have hsub : ∀ l : List String,
      l.filter (fun l => isQueueText l || isWaitText l || isTallyText l) = [] →
      l.filter p = [] := by
    intro l hl
    rw [List.filter_eq_nil_iff] at hl
    apply filter_nil_of_forall
    intro w hw
    apply hp
    have := hl w hw
    simpa using this
  simp only [List.mem_cons, List.mem_singleton, forall_eq_or_imp, forall_eq,
    List.not_mem_nil, false_implies, implies_true, and_true] at hfix
  obtain ⟨f1, f2, f3, f4, f5, f6, f7, f8, f9, f10, f11, f12⟩ := hfix
  have hv : p g.versionComment = false := hp _ (by simp [v1, v2, v3])
  have ho : p (organizationComment g) = false := hp _ (by simp [o1, o2, o3])
  have hw : p (waitingComment g) = false := hp _ (by simp [w1, w2, w3])
  have hr : ∀ repo : Repository, p (registryText repo) = false := by
    intro repo
    obtain ⟨r1, r2, r3⟩ := registryText_lines repo
    exact hp _ (by simp [r1, r2, r3])
  have hd : ∀ name : String, p (g.buildDownloadLogsCommand name) = false := by
    intro name
    obtain ⟨r1, r2, r3⟩ := downloadText_lines g name
    exact hp _ (by simp [r1, r2, r3])
  have hb : (textLines ExecAndGetMigrationIDFunctionBlock).filter p = [] := hsub _ hblk
  have hc : ((credentialChecks g).flatMap textLines).filter p = [] :=
    hsub _ (checks_textLines_filter _ hchk g)
  have g1 := hp _ f1
  have g2 := hp _ f2
  have g3 := hp _ f3
  have g4 := hp _ f4
  have g5 := hp _ f5
  have g6 := hp _ f6
  have g7 := hp _ f7
  have g8 := hp _ f8
  have g9 := hp _ f9
  have g10 := hp _ f10
  have g11 := hp _ f11
  have g12 := hp _ f12
  constructor
  · simp only [List.filter_append, filter_flatMap, hb, hc]
    simp [List.filter_cons, g1, g2, g3, g4, g5, g6, hv, ho, hr]
  · simp only [List.filter_append, filter_flatMap]
    by_cases hdl : g.options.DownloadMigrationLog = true <;>
      simp [List.filter_cons, g2, g7, g8, g9, g10, g11, g12, hw, hd, hdl]

theorem parallel_lines_queue (g : Generator) :
    ([PwshShebang, "", g.versionComment] ++ textLines ExecAndGetMigrationIDFunctionBlock ++
        (credentialChecks g).flatMap textLines ++
        ["", "$Succeeded = 0", "$Failed = 0", "$RepoMigrations = [ordered]@\x7b\x7d", "",
          organizationComment g, "", "# === Queuing repo migrations ==="] ++
        g.repos.flatMap (fun repo => [queueText g repo, registryText repo, ""])).filter
      isQueueText = g.repos.map (queueText g) ∧
    (["", waitingComment g, ""] ++
        g.repos.flatMap (fun repo =>
          [waitText g repo, tallyText repo] ++
            (if g.options.DownloadMigrationLog = true then
              [g.buildDownloadLogsCommand repo.Name] else []) ++ [""]) ++
        ["", "Write-Host =============== Summary ===============",
          "Write-Host Total number of successful migrations: $Succeeded",
          "Write-Host Total number of failed migrations: $Failed", "",
          "if ($Failed -ne 0) \x7b", "    exit 1", "\x7d", "", "", ""]).filter
      isQueueText = [] := by
  obtain ⟨h1, h2⟩ := parallel_lines_filter isQueueText g (by
    intro l hl
    simp only [Bool.or_eq_false_iff] at hl
    exact hl.1.1)
  rw [h1, h2]
  constructor
  · rw [← flatMap_singleton_eq_map]
    congr 1
    funext repo
    simp [List.filter_cons, (queueText_lines g repo).1]
  · rw [← flatMap_nil_fun g.repos]
    congr 1
    funext repo
    simp [List.filter_cons, (waitText_lines g repo).1, (tallyText_lines repo).1]

theorem parallel_lines_wait (g : Generator) :
    ([PwshShebang, "", g.versionComment] ++ textLines ExecAndGetMigrationIDFunctionBlock ++
        (credentialChecks g).flatMap textLines ++
        ["", "$Succeeded = 0", "$Failed = 0", "$RepoMigrations = [ordered]@\x7b\x7d", "",
          organizationComment g, "", "# === Queuing repo migrations ==="] ++
        g.repos.flatMap (fun repo => [queueText g repo, registryText repo, ""])).filter
      isWaitText = [] ∧
    (["", waitingComment g, ""] ++
        g.repos.flatMap (fun repo =>
          [waitText g repo, tallyText repo] ++
            (if g.options.DownloadMigrationLog = true then
              [g.buildDownloadLogsCommand repo.Name] else []) ++ [""]) ++
        ["", "Write-Host =============== Summary ===============",
          "Write-Host Total number of successful migrations: $Succeeded",
          "Write-Host Total number of failed migrations: $Failed", "",
          "if ($Failed -ne 0) \x7b", "    exit 1", "\x7d", "", "", ""]).filter
      isWaitText = g.repos.map (waitText g) := by
  obtain ⟨h1, h2⟩ := parallel_lines_filter isWaitText g (by
    intro l hl
    simp only [Bool.or_eq_false_iff] at hl
    exact hl.1.2)
  rw [h1, h2]
  constructor
  · rw [← flatMap_nil_fun g.repos]
    congr 1
    funext repo
    simp [List.filter_cons, (queueText_lines g repo).2.1]
  · rw [← flatMap_singleton_eq_map]
    congr 1
    funext repo
    simp [List.filter_cons, (waitText_lines g repo).2.1, (tallyText_lines repo).2.1]

theorem parallel_lines_tally (g : Generator) :
    ([PwshShebang, "", g.versionComment] ++ textLines ExecAndGetMigrationIDFunctionBlock ++
        (credentialChecks g).flatMap textLines ++
        ["", "$Succeeded = 0", "$Failed = 0", "$RepoMigrations = [ordered]@\x7b\x7d", "",
          organizationComment g, "", "# === Queuing repo migrations ==="] ++
        g.repos.flatMap (fun repo => [queueText g repo, registryText repo, ""])).filter
      isTallyText = [] ∧
    (["", waitingComment g, ""] ++
        g.repos.flatMap (fun repo =>
          [waitText g repo, tallyText repo] ++
            (if g.options.DownloadMigrationLog = true then
              [g.buildDownloadLogsCommand repo.Name] else []) ++ [""]) ++
        ["", "Write-Host =============== Summary ===============",
          "Write-Host Total number of successful migrations: $Succeeded",
          "Write-Host Total number of failed migrations: $Failed", "",
          "if ($Failed -ne 0) \x7b", "    exit 1", "\x7d", "", "", ""]).filter
      isTallyText = g.repos.map tallyText := by
  obtain ⟨h1, h2⟩ := parallel_lines_filter isTallyText g (by
    intro l hl
    simp only [Bool.or_eq_false_iff] at hl
    exact hl.2)
  rw [h1, h2]
  constructor
  · rw [← flatMap_nil_fun g.repos]
    congr 1
    funext repo
    simp [List.filter_cons, (queueText_lines g repo).2.2]
  · rw [← flatMap_singleton_eq_map]
    congr 1
    funext repo
    simp [List.filter_cons, (waitText_lines g repo).2.2, (tallyText_lines repo).2.2]

/-- C2, for configurations whose embedded strings hold no newline: in Parallel mode the lines
of the text returned by `Generate` are a front part, the queuing phase, a middle part, the
waiting phase and a back part. The queuing phase holds for each repository, in input order,
its queuing line `$MigrationID = ExecAndGetMigrationID { ... }` directly followed by its
registry assignment `$RepoMigrations["<name>"] = $MigrationID`; the waiting phase holds for
each repository, in input order, its waiting line
`if ($RepoMigrations["<name>"]) { ... wait-for-migration ... }`. No line up to the end of the
queuing phase has the form of a waiting line and no later line has the form of a queuing
line, so the text has exactly N queuing lines, all before its exactly N waiting lines, and
the i-th line of each phase is built from the i-th repository, which it names. -/
theorem generate_parallel_queue_then_wait (g : Generator)
    (hpar : g.options.Sequential = false) (hnl : newlineFree g = true) :
    let queuing := g.repos.flatMap (fun repo => [queueText g repo, registryText repo, ""])
    let waiting := g.repos.flatMap (fun repo =>
      [waitText g repo, tallyText repo] ++
        (if g.options.DownloadMigrationLog = true then
          [g.buildDownloadLogsCommand repo.Name] else []) ++ [""])
    (∃ front middle back : List String,
      textLines g.Generate = (front ++ queuing) ++ (middle ++ waiting ++ back) ∧
      (front ++ queuing).filter isWaitText = [] ∧
      (middle ++ waiting ++ back).filter isQueueText = []) ∧
    (textLines g.Generate).filter isQueueText = g.repos.map (queueText g) ∧
    (textLines g.Generate).filter isWaitText = g.repos.map (waitText g) ∧
    ((textLines g.Generate).filter isQueueText).length = g.repos.length ∧
    ((textLines g.Generate).filter isWaitText).length = g.repos.length ∧
    (∀ i : Nat,
      ((textLines g.Generate).filter isQueueText)[i]? = (g.repos[i]?).map (queueText g) ∧
      ((textLines g.Generate).filter isWaitText)[i]? = (g.repos[i]?).map (waitText g)) ∧
    (∀ repo : Repository,
      queueText g repo =
        "$MigrationID = ExecAndGetMigrationID \x7b " ++
          stringsJoin (g.buildMigrateRepoParts repo false) " " ++ " \x7d" ∧
      "--target-repo \"" ++ repo.Name ++ "\"" ∈ g.buildMigrateRepoParts repo false ∧
      registryText repo = "$RepoMigrations[\"" ++ repo.Name ++ "\"] = $MigrationID" ∧
      waitText g repo =
        "if ($RepoMigrations[\"" ++ repo.Name ++ "\"]) \x7b " ++
          (g.options.CLICommand ++ " wait-for-migration" ++
            (if g.options.TargetAPIURL ≠ "" then
              " --target-api-url \"" ++ g.options.TargetAPIURL ++ "\"" else "") ++
            " --migration-id $RepoMigrations[\"" ++ repo.Name ++ "\"]") ++ " \x7d") := by
  intro queuing waiting
  have hgen : g.Generate = g.generateParallelScript := by
    simp [Generator.Generate, hpar]
  have hl := parallel_textLines g hnl
  rw [← hgen] at hl
  obtain ⟨hq1, hq2⟩ := parallel_lines_queue g
  obtain ⟨hw1, hw2⟩ := parallel_lines_wait g
  have hsplit : textLines g.Generate =
      ([PwshShebang, "", g.versionComment] ++ textLines ExecAndGetMigrationIDFunctionBlock ++
        (credentialChecks g).flatMap textLines ++
        ["", "$Succeeded = 0", "$Failed = 0", "$RepoMigrations = [ordered]@\x7b\x7d", "",
          organizationComment g, "", "# === Queuing repo migrations ==="] ++ queuing) ++
      (["", waitingComment g, ""] ++ waiting ++
        ["", "Write-Host =============== Summary ===============",
          "Write-Host Total number of successful migrations: $Succeeded",
          "Write-Host Total number of failed migrations: $Failed", "",
          "if ($Failed -ne 0) \x7b", "    exit 1", "\x7d", "", "", ""]) := by
    rw [hl]
    simp only [queuing, waiting, List.append_assoc]
  have hq : (textLines g.Generate).filter isQueueText = g.repos.map (queueText g) := by
    rw [hsplit, List.filter_append, hq1, hq2, List.append_nil]
  have hw : (textLines g.Generate).filter isWaitText = g.repos.map (waitText g) := by
    rw [hsplit, List.filter_append, hw1, hw2, List.nil_append]
  refine ⟨⟨_, _, _, hsplit, hw1, hq2⟩, hq, hw, ?_, ?_, ?_, ?_⟩
  · rw [hq, List.length_map]
  · rw [hw, List.length_map]
  · intro i
    rw [hq, hw, List.getElem?_map, List.getElem?_map]
    exact ⟨rfl, rfl⟩
  · intro repo
    refine ⟨rfl, targetRepo_mem_parts g repo false, rfl, ?_⟩
    simp only [waitText, buildWaitForMigrationCommand_eq]

/-- C2 witness: the parallel sample with two repositories has no newline in its strings; the
lines of its text of the queuing form are two and those of the waiting form are two, each
pair in the order of the repositories. -/
theorem generate_parallel_queue_then_wait_witness :
    sampleParallel.options.Sequential = false ∧ newlineFree sampleParallel = true ∧
    (textLines sampleParallel.Generate).filter isQueueText =
      ["$MigrationID = ExecAndGetMigrationID \x7b gh gei migrate-repo --github-source-org \"src\" --source-repo \"r1\" --github-target-org \"tgt\" --target-repo \"r1\" --queue-only --target-repo-visibility private \x7d",
        "$MigrationID = ExecAndGetMigrationID \x7b gh gei migrate-repo --github-source-org \"src\" --source-repo \"r2\" --github-target-org \"tgt\" --target-repo \"r2\" --queue-only --target-repo-visibility public \x7d"] ∧
    (textLines sampleParallel.Generate).filter isWaitText =
      ["if ($RepoMigrations[\"r1\"]) \x7b gh gei wait-for-migration --migration-id $RepoMigrations[\"r1\"] \x7d",
        "if ($RepoMigrations[\"r2\"]) \x7b gh gei wait-for-migration --migration-id $RepoMigrations[\"r2\"] \x7d"] :=
  ⟨by decide, by decide,
    (generate_parallel_queue_then_wait sampleParallel (by decide) (by decide)).2.1.trans
      (by decide),
    (generate_parallel_queue_then_wait sampleParallel (by decide) (by decide)).2.2.1.trans
      (by decide)⟩

/-- C2 counterexample: a parallel configuration with one repository whose name holds a
newline. The text returned by `Generate` has six lines of the queuing form and no line of
the waiting form, not one of each. -/
theorem parallel_injected_name_counterexample :
    sampleInjectedQueue.options.Sequential = false ∧
    sampleInjectedQueue.repos.length = 1 ∧
    (textLines sampleInjectedQueue.Generate).filter isQueueText =
      ["$MigrationID = ExecAndGetMigrationID \x7b gh gei migrate-repo --github-source-org \"src\" --source-repo \"a\" \x7d",
        "$MigrationID = ExecAndGetMigrationID \x7b gh gei delete-repo --repo \"b\" --github-target-org \"tgt\" --target-repo \"a\" \x7d",
        "$MigrationID = ExecAndGetMigrationID \x7b gh gei delete-repo --repo \"b\" --queue-only --target-repo-visibility private \x7d",
        "$MigrationID = ExecAndGetMigrationID \x7b gh gei delete-repo --repo \"b\"]) \x7b gh gei wait-for-migration --migration-id $RepoMigrations[\"a\" \x7d",
        "$MigrationID = ExecAndGetMigrationID \x7b gh gei delete-repo --repo \"b\"] \x7d",
        "$MigrationID = ExecAndGetMigrationID \x7b gh gei delete-repo --repo \"b\"] -and $lastexitcode -eq 0) \x7b $Succeeded++ \x7d else \x7b $Failed++ \x7d"] ∧
    ((textLines sampleInjectedQueue.Generate).filter isQueueText).length ≠
      sampleInjectedQueue.repos.length ∧
    (textLines sampleInjectedQueue.Generate).filter isWaitText = [] := by
  decide

/-- C3, for configurations whose embedded strings hold no newline: in Parallel mode the lines
of the text returned by `Generate` are, in this order, the header; the lines `$Succeeded = 0`
and `$Failed = 0` among the initialisation lines; the queuing phase; the waiting banner; for
each repository, in input order, its waiting line directly followed by its tally line
`if ($RepoMigrations["<name>"] -and $lastexitcode -eq 0) { $Succeeded++ } else { $Failed++ }`,
with the branches `{ $Succeeded++ }` and `{ $Failed++ }`; and after all of them the summary
lines followed by `if ($Failed -ne 0) { exit 1 }`. No line before the waiting phase has the
form of a tally line, and the lines of that form are exactly the N tally lines of the
repositories. -/
theorem generate_parallel_tally_and_summary (g : Generator)
    (hpar : g.options.Sequential = false) (hnl : newlineFree g = true) :
    let header :=
      [PwshShebang, "", g.versionComment] ++ textLines ExecAndGetMigrationIDFunctionBlock ++
        (credentialChecks g).flatMap textLines
    let queuing := g.repos.flatMap (fun repo => [queueText g repo, registryText repo, ""])
    let waiting := g.repos.flatMap (fun repo =>
      [waitText g repo, tallyText repo] ++
        (if g.options.DownloadMigrationLog = true then
          [g.buildDownloadLogsCommand repo.Name] else []) ++ [""])
    textLines g.Generate =
      header ++
      ["", "$Succeeded = 0", "$Failed = 0", "$RepoMigrations = [ordered]@\x7b\x7d", "",
        organizationComment g, "", "# === Queuing repo migrations ==="] ++
      queuing ++
      ["", waitingComment g, ""] ++
      waiting ++
      ["", "Write-Host =============== Summary ===============",
        "Write-Host Total number of successful migrations: $Succeeded",
        "Write-Host Total number of failed migrations: $Failed", "",
        "if ($Failed -ne 0) \x7b", "    exit 1", "\x7d", "", "", ""] ∧
    (header ++
      ["", "$Succeeded = 0", "$Failed = 0", "$RepoMigrations = [ordered]@\x7b\x7d", "",
        organizationComment g, "", "# === Queuing repo migrations ==="] ++
      queuing ++ ["", waitingComment g, ""]).filter isTallyText = [] ∧
    (textLines g.Generate).filter isTallyText = g.repos.map tallyText ∧
    ((textLines g.Generate).filter isTallyText).length = g.repos.length ∧
    (∀ i : Nat,
      ((textLines g.Generate).filter isTallyText)[i]? = (g.repos[i]?).map tallyText) ∧
    (∀ repo : Repository,
      tallyText repo =
        "if ($RepoMigrations[\"" ++ repo.Name ++
          "\"] -and $lastexitcode -eq 0) \x7b $Succeeded++ \x7d else \x7b $Failed++ \x7d" ∧
      waitText g repo =
        "if ($RepoMigrations[\"" ++ repo.Name ++ "\"]) \x7b " ++
          g.buildWaitForMigrationCommand repo.Name ++ " \x7d") := by
  intro header queuing waiting
  have hgen : g.Generate = g.generateParallelScript := by
    simp [Generator.Generate, hpar]
  have hl := parallel_textLines g hnl
  rw [← hgen] at hl
  obtain ⟨ht1, ht2⟩ := parallel_lines_tally g
  have hmid : ["", waitingComment g, ""].filter isTallyText = [] := by
    have e : isTallyText "" = false := by decide
    simp [List.filter_cons, e, (comment_lines g).2.2.2.2]
  have ht : (textLines g.Generate).filter isTallyText = g.repos.map tallyText := by
    have hsplit : textLines g.Generate =
        (header ++
          ["", "$Succeeded = 0", "$Failed = 0", "$RepoMigrations = [ordered]@\x7b\x7d", "",
            organizationComment g, "", "# === Queuing repo migrations ==="] ++ queuing) ++
        (["", waitingComment g, ""] ++ waiting ++
          ["", "Write-Host =============== Summary ===============",
            "Write-Host Total number of successful migrations: $Succeeded",
            "Write-Host Total number of failed migrations: $Failed", "",
            "if ($Failed -ne 0) \x7b", "    exit 1", "\x7d", "", "", ""]) := by
      rw [hl]
      simp only [header, queuing, waiting, List.append_assoc]
    rw [hsplit, List.filter_append, ht1, ht2, List.nil_append]
  refine ⟨?_, ?_, ht, ?_, ?_, ?_⟩
  · rw [hl]
  · rw [List.filter_append, ht1, hmid]
    rfl
  · rw [ht, List.length_map]
  · intro i
    rw [ht, List.getElem?_map]
  · intro repo
    exact ⟨rfl, rfl⟩

/-- C3 witness: the parallel sample with two repositories has no newline in its strings, and
the lines of its text of the tally form are two, in the order of the repositories. -/
theorem generate_parallel_tally_and_summary_witness :
    sampleParallel.options.Sequential = false ∧ newlineFree sampleParallel = true ∧
    (textLines sampleParallel.Generate).filter isTallyText =
      ["if ($RepoMigrations[\"r1\"] -and $lastexitcode -eq 0) \x7b $Succeeded++ \x7d else \x7b $Failed++ \x7d",
        "if ($RepoMigrations[\"r2\"] -and $lastexitcode -eq 0) \x7b $Succeeded++ \x7d else \x7b $Failed++ \x7d"] :=
  ⟨by decide, by decide,
    (generate_parallel_tally_and_summary sampleParallel (by decide) (by decide)).2.2.1.trans
      (by decide)⟩

/-- C3 counterexample: a parallel configuration with one repository whose name holds a
newline. The text returned by `Generate` has five lines of the tally form for its single
repository, two of them written by the tally statement itself. -/
theorem parallel_injected_tally_counterexample :
    sampleInjectedTally.options.Sequential = false ∧
    sampleInjectedTally.repos.length = 1 ∧
    (textLines sampleInjectedTally.Generate).filter isTallyText =
      ["if ($RepoMigrations[\"b\" --github-target-org \"tgt\" --target-repo \"a\"] -and $lastexitcode -eq 0) \x7b $Succeeded++ \x7d else \x7b $Failed++ \x7d",
        "if ($RepoMigrations[\"a\"] -and $lastexitcode -eq 0) \x7b $Succeeded++ \x7d else \x7b $Failed++ \x7d",
        "if ($RepoMigrations[\"b\"]) \x7b gh gei wait-for-migration --migration-id $RepoMigrations[\"a\"] -and $lastexitcode -eq 0) \x7b $Succeeded++ \x7d else \x7b $Failed++ \x7d",
        "if ($RepoMigrations[\"a\"] -and $lastexitcode -eq 0) \x7b $Succeeded++ \x7d else \x7b $Failed++ \x7d",
        "if ($RepoMigrations[\"b\"] -and $lastexitcode -eq 0) \x7b $Succeeded++ \x7d else \x7b $Failed++ \x7d"] ∧
    ((textLines sampleInjectedTally.Generate).filter isTallyText).length ≠
      sampleInjectedTally.repos.length := by
  decide

end Scriptgen

/-! ## pkg/http and pkg/retry: failed attempts -/

namespace Http

/-- The first element of a range, split off a concatenation over it. -/
theorem range_succ_flatMap {α : Type} (f : Nat → List α) (n : Nat) :
    (List.range (n + 1)).flatMap f = f 0 ++ (List.range n).flatMap (fun i => f (i + 1)) := by
  rw [List.range_succ_eq_map, List.flatMap_cons, List.flatMap_map]

/-- The first element of a range, split off a map over it. -/
theorem range_succ_map {α : Type} (f : Nat → α) (n : Nat) :
    (List.range (n + 1)).map f = f 0 :: (List.range n).map (fun i => f (i + 1)) := by
  rw [List.range_succ_eq_map, List.map_cons, List.map_map]
  rfl

/-- A function that fails on every call is called `attempts` times by `retry.Do`. -/
theorem do_all_fail (c : Client) (url : String) (headers : List (String × String))
    (err : String) (n : Nat)
    (hfail : ∀ s : GetState, c.getAttempt url headers s =
      (some err, { s with attempts := s.attempts ++ [{ url := url, headers := headers }] })) :
    ∀ (m k fuel : Nat) (errorLog : List String) (s : GetState),
      k + (m + 1) = n → m < fuel →
      Retry.Do (c.getAttempt url headers) n fuel k errorLog s =
        some (some (errorLog ++ List.replicate (m + 1) err),
          { s with attempts := s.attempts ++
            List.replicate (m + 1) { url := url, headers := headers } }) := by
  intro m
  induction m with
  | zero =>
    intro k fuel errorLog s hk hfuel
    obtain ⟨fuel, rfl⟩ : ∃ f, fuel = f + 1 := ⟨fuel - 1, by omega⟩
    unfold Retry.Do
    simp only [hfail]
    have hn : n ≠ 0 ∧ k + 1 = n := ⟨by omega, by omega⟩
    simp [hn]
  | succ m ih =>
    intro k fuel errorLog s hk hfuel
    obtain ⟨fuel, rfl⟩ : ∃ f, fuel = f + 1 := ⟨fuel - 1, by omega⟩
    unfold Retry.Do
    simp only [hfail]
    have hn : ¬ (n ≠ 0 ∧ k + 1 = n) := by omega
    simp only [hn, if_false]
    rw [ih (k + 1) fuel _ _ (by omega) (by omega)]
    simp [List.replicate_succ, List.append_assoc]

/-- C20: `Client.Get` retries every failed attempt, whatever the status. Against a server
that answers every attempt with the same status outside 200..299 and a retry policy of
`n ≥ 1` attempts, `Get` makes `n` attempts and returns the `n` errors `HTTP <status>: <body>`;
the list of retryable statuses is not consulted, and 404, which is not in it, is attempted `n`
times as well. -/
theorem get_retries_every_status (c : Client) (fuel : Nat) (attempts : List Request)
    (url : String) (headers : List (String × String)) (status : Int) (body : String)
    (hserver : ∀ log req, c.httpClient log req = .response status body)
    (hstatus : status < 200 ∨ status ≥ 300)
    (hattempts : 1 ≤ c.retryPolicy.maxAttempts)
    (hfuel : c.retryPolicy.maxAttempts ≤ fuel) :
    c.Get fuel attempts url headers =
      some (.error (List.replicate c.retryPolicy.maxAttempts
          ("HTTP " ++ toString status ++ ": " ++ body)),
        attempts ++ List.replicate c.retryPolicy.maxAttempts
          { url := url, headers := headers }) ∧
    Retry.IsRetryableHTTPStatus 404 = false ∧
    (Retry.IsRetryableHTTPStatus status = true ↔
      status ∈ [408, 429, 500, 502, 503, 504]) := by
  refine ⟨?_, by decide, ?_⟩
  · obtain ⟨m, hm⟩ : ∃ m, c.retryPolicy.maxAttempts = m + 1 :=
      ⟨c.retryPolicy.maxAttempts - 1, by omega⟩
    have hfail : ∀ s : GetState, c.getAttempt url headers s =
        (some ("HTTP " ++ toString status ++ ": " ++ body),
          { s with attempts := s.attempts ++ [{ url := url, headers := headers }] }) := by
      intro s
      unfold Client.getAttempt
      simp only [hserver, hstatus, if_true]
    unfold Client.Get Retry.Policy.Execute
    simp only []
    rw [do_all_fail c url headers _ c.retryPolicy.maxAttempts hfail m 0 fuel [] _
      (by omega) (by omega), hm]
    simp
  · simp [Retry.IsRetryableHTTPStatus, Retry.HTTPRetryableStatusCodes]

/-- C20 witness: the client of `NewClient` with the default configuration (3 attempts), against
a server that always answers 404, makes 3 attempts and returns 3 errors. -/
theorem get_retries_every_status_witness :
    (NewClient DefaultConfig sampleNotFound).retryPolicy.maxAttempts = 3 ∧
    (NewClient DefaultConfig sampleNotFound).Get 3 [] sampleRequest.url sampleRequest.headers =
      some (.error ["HTTP 404: Not Found", "HTTP 404: Not Found", "HTTP 404: Not Found"],
        [sampleRequest, sampleRequest, sampleRequest]) :=
  ⟨rfl,
    (get_retries_every_status (NewClient DefaultConfig sampleNotFound) 3 []
      sampleRequest.url sampleRequest.headers 404 "Not Found" (fun _ _ => rfl)
      (by decide) (by decide) (by decide)).1.trans rfl⟩

end Http

/-! ## pkg/github: paging -/

namespace Github

theorem foldl_collect (records : List JSONObject) (repos : List Repo) :
    records.foldl collectRepo repos = repos ++ normalize records := by
  induction records generalizing repos with
  | nil => simp [normalize]
  | cons r rs ih =>
    rw [List.foldl_cons, ih]
    unfold normalize collectRepo stringField
    rw [List.filterMap_cons]
    cases hl : List.lookup "name" r with
    | none => simp
    | some v =>
      cases v with
      | string s => by_cases hs : s = "" <;> simp [hs]
      | _ => simp

/-- The loop of `GetRepos` over `j` full pages followed by a short one. -/
theorem getReposLoop_pages (lib : Lib) (c : Client) (apiURL : String)
    (pages : Nat → List JSONObject) (j : Nat) :
    ∀ (page fuel : Nat) (repos : List Repo) (log : List Http.Request),
      (∀ i, i ≤ j → ∃ body,
        c.http (log ++ (List.range i).map (fun t => requestAt c apiURL (page + t)))
            (requestAt c apiURL (page + i)) = .ok body ∧
        lib.Unmarshal body = .ok (pages (page + i))) →
      (∀ i, i < j → 100 ≤ (pages (page + i)).length) →
      (pages (page + j)).length < 100 →
      j < fuel →
      c.getReposLoop lib apiURL fuel page repos log =
        some (.ok (repos ++ normalize ((List.range (j + 1)).flatMap (fun i => pages (page + i)))),
          log ++ (List.range (j + 1)).map (fun i => requestAt c apiURL (page + i))) := by
  induction j with
  | zero =>
    intro page fuel repos log hserve _ hshort hfuel
    obtain ⟨fuel, rfl⟩ : ∃ f, fuel = f + 1 := ⟨fuel - 1, by omega⟩
    obtain ⟨body, hb, hu⟩ := hserve 0 (Nat.le_refl 0)
    simp only [List.range_zero, List.map_nil, List.append_nil, Nat.add_zero, requestAt]
      at hb hu hshort
    unfold Client.getReposLoop
    simp only [hb, hu]
    by_cases h0 : (pages page).length = 0
    · have : pages page = [] := List.length_eq_zero.1 h0
      simp [this, normalize, List.range_succ, requestAt]
    · simp [h0, hshort, foldl_collect, List.range_succ, requestAt]
  | succ j ih =>
    intro page fuel repos log hserve hfull hshort hfuel
    obtain ⟨fuel, rfl⟩ : ∃ f, fuel = f + 1 := ⟨fuel - 1, by omega⟩
    obtain ⟨body, hb, hu⟩ := hserve 0 (Nat.zero_le _)
    have hlen := hfull 0 (Nat.succ_pos j)
    simp only [List.range_zero, List.map_nil, List.append_nil, Nat.add_zero, requestAt]
      at hb hu hlen
    unfold Client.getReposLoop
    simp only [hb, hu]
    have h0 : ¬ (pages page).length = 0 := by omega
    have h100 : ¬ (pages page).length < 100 := by omega
    simp only [h0, h100, if_false, foldl_collect]
    rw [ih (page + 1) fuel _ _ ?_ ?_ ?_ (by omega)]
    · rw [Http.range_succ_flatMap (fun i => pages (page + i)) (j + 1),
        Http.range_succ_map (fun i => requestAt c apiURL (page + i)) (j + 1)]
      simp [normalize, List.filterMap_append, List.append_assoc, Nat.add_assoc, Nat.add_comm 1,
        requestAt]
    · intro i hi
      obtain ⟨b, h1, h2⟩ := hserve (i + 1) (by omega)
      refine ⟨b, ?_, ?_⟩
      · rw [Http.range_succ_map] at h1
        simpa [List.append_assoc, Nat.add_assoc, Nat.add_comm 1, requestAt] using h1
      · simpa [Nat.add_assoc, Nat.add_comm 1] using h2
    · intro i hi
      have := hfull (i + 1) (by omega)
      simpa [Nat.add_assoc, Nat.add_comm 1] using this
    · simpa [Nat.add_assoc, Nat.add_comm 1] using hshort

theorem normalize_append (a b : List JSONObject) :
    normalize (a ++ b) = normalize a ++ normalize b := by
  simp [normalize, List.filterMap_append]

theorem normalize_eq_map (records : List JSONObject)
    (hnames : ∀ r ∈ records, stringField r "name" ≠ "") :
    normalize records = records.map toRepo := by
  induction records with
  | nil => rfl
  | cons r rs ih =>
    have hr := hnames r (List.mem_cons_self _ _)
    have ih := ih (fun x hx => hnames x (List.mem_cons_of_mem _ hx))
    unfold normalize at ih ⊢
    rw [List.filterMap_cons, List.map_cons, ← ih]
    unfold stringField at hr
    unfold toRepo stringField
    cases hl : List.lookup "name" r with
    | none => simp [hl] at hr
    | some v =>
      cases v with
      | string s =>
        have hs : s ≠ "" := by simpa [hl] using hr
        simp [hs]
      | _ => simp [hl] at hr

/-- The run of `GetRepos` against a server that answers the requests for pages 1, 2, ... with
`pages 0`, `pages 1`, ..., of which `pages j` is the first with fewer than 100 records. -/
theorem getRepos_pages (lib : Lib) (c : Client) (org : String)
    (pages : Nat → List JSONObject) (j fuel : Nat) (log : List Http.Request)
    (hserve : ∀ i, i ≤ j → ∃ body,
      c.http (log ++ (List.range i).map (fun t => pageRequest lib c org (t + 1)))
          (pageRequest lib c org (i + 1)) = .ok body ∧
      lib.Unmarshal body = .ok (pages i))
    (hfull : ∀ i, i < j → 100 ≤ (pages i).length)
    (hshort : (pages j).length < 100)
    (hfuel : j < fuel) :
    c.GetRepos lib fuel log org =
      some (.ok (normalize ((List.range (j + 1)).flatMap pages)),
        log ++ (List.range (j + 1)).map (fun i => pageRequest lib c org (i + 1))) := by
  unfold Client.GetRepos
  have h := getReposLoop_pages lib c
    (c.apiURL ++ "/orgs/" ++ lib.PathEscape org ++ "/repos?per_page=100")
    (fun p => pages (p - 1)) j 1 fuel [] log
    (by
      intro i hi
      obtain ⟨b, h1, h2⟩ := hserve i hi
      refine ⟨b, ?_, ?_⟩
      · simpa [pageRequest, Nat.add_comm 1] using h1
      · simpa using h2)
    (by intro i hi; simpa using hfull i hi)
    (by simpa using hshort) hfuel
  simpa [pageRequest, Nat.add_comm 1] using h

theorem flatMap_pageOf (records : List JSONObject) (n : Nat) :
    (List.range n).flatMap (pageOf records) = records.take (n * 100) := by
  induction n with
  | zero => simp
  | succ n ih =>
    rw [List.range_succ, List.flatMap_append, ih, Nat.succ_mul, List.take_add]
    simp [pageOf]

theorem length_pageOf (records : List JSONObject) (i : Nat) :
    (pageOf records i).length = min 100 (records.length - i * 100) := by
  simp [pageOf]

/-- The run of `GetRepos` against a source that holds `records` and serves them in
consecutive pages of 100. -/
theorem getRepos_paged (lib : Lib) (c : Client) (org : String)
    (records : List JSONObject) (fuel : Nat) (log : List Http.Request)
    (hserve : ∀ i, i ≤ records.length / 100 → ∃ body,
      c.http (log ++ (List.range i).map (fun t => pageRequest lib c org (t + 1)))
          (pageRequest lib c org (i + 1)) = .ok body ∧
      lib.Unmarshal body = .ok (pageOf records i))
    (hfuel : records.length / 100 < fuel) :
    c.GetRepos lib fuel log org =
      some (.ok (normalize records),
        log ++ (List.range (records.length / 100 + 1)).map
          (fun i => pageRequest lib c org (i + 1))) := by
  rw [getRepos_pages lib c org (pageOf records) (records.length / 100) fuel log hserve
    (by intro i hi; rw [length_pageOf]; omega)
    (by rw [length_pageOf]; omega) hfuel, flatMap_pageOf, List.take_of_length_le (by omega)]

/-- The sample server answers its requests with the pages of the source. -/
theorem sample_serves (records : List JSONObject) (reqs : Nat → Http.Request)
    (req : Http.Request) (i : Nat) :
    ∃ body, sampleClient.http ([] ++ (List.range i).map reqs) req = .ok body ∧
      (sampleLib records).Unmarshal body = .ok (pageOf records i) :=
  ⟨_, rfl, by simp [sampleLib]⟩

/-- Every run of the loop of `GetRepos` that returns has made the request for the page it
was entered with. -/
theorem getReposLoop_requests (lib : Lib) (c : Client) (apiURL : String) :
    ∀ (fuel page : Nat) (repos : List Repo) (log : List Http.Request)
      (res : Except String (List Repo)) (log2 : List Http.Request),
      c.getReposLoop lib apiURL fuel page repos log = some (res, log2) →
      ∃ rest, log2 = log ++ [requestAt c apiURL page] ++ rest := by
  intro fuel
  induction fuel with
  | zero => intro page repos log res log2 h; simp [Client.getReposLoop] at h
  | succ fuel ih =>
    intro page repos log res log2 h
    unfold Client.getReposLoop at h
    simp only [] at h
    have hdone : ∀ r : Except String (List Repo),
        some (r, log ++ [(⟨apiURL ++ "&page=" ++ toString page, c.buildHeaders⟩ :
          Http.Request)]) = some (res, log2) →
        ∃ rest, log2 = log ++ [requestAt c apiURL page] ++ rest := by
      intro r hr
      simp only [Option.some.injEq, Prod.mk.injEq] at hr
      exact ⟨[], by simp [requestAt, ← hr.2]⟩
    split at h
    · exact hdone _ h
    · split at h
      · exact hdone _ h
      · split at h
        · exact hdone _ h
        · split at h
          · exact hdone _ h
          · obtain ⟨rest, hrest⟩ := ih _ _ _ _ _ h
            exact ⟨requestAt c apiURL (page + 1) :: rest, by simp [hrest, requestAt]⟩

/-- C12, amended: for a source that holds `records`, all with non-empty names, and serves
them in consecutive pages of 100, `GetRepos` returns the repositories of all records after
exactly `records.length / 100 + 1` requests, those for pages 1, 2, ... in order. This is
`⌈records.length / 100⌉` when the number of records is not a multiple of 100, and one more
(the last answer being an empty page) when it is. -/
theorem getRepos_request_count (lib : Lib) (c : Client) (org : String)
    (records : List JSONObject) (fuel : Nat) (log : List Http.Request)
    (hnames : ∀ r ∈ records, stringField r "name" ≠ "")
    (hserve : ∀ i, i ≤ records.length / 100 → ∃ body,
      c.http (log ++ (List.range i).map (fun t => pageRequest lib c org (t + 1)))
          (pageRequest lib c org (i + 1)) = .ok body ∧
      lib.Unmarshal body = .ok (pageOf records i))
    (hfuel : records.length / 100 < fuel) :
    ∃ requests : List Http.Request,
      c.GetRepos lib fuel log org = some (.ok (records.map toRepo), log ++ requests) ∧
      requests =
        (List.range (records.length / 100 + 1)).map (fun i => pageRequest lib c org (i + 1)) ∧
      requests.length = records.length / 100 + 1 ∧
      (records.length % 100 ≠ 0 → requests.length = records.length ⌈/⌉ 100) ∧
      (records.length % 100 = 0 → requests.length = records.length ⌈/⌉ 100 + 1) := by
  refine ⟨_, ?_, rfl, by simp, ?_, ?_⟩
  · rw [getRepos_paged lib c org records fuel log hserve hfuel, normalize_eq_map _ hnames]
  · intro h
    rw [Nat.ceilDiv_eq_add_pred_div]
    simp only [List.length_map, List.length_range]
    omega
  · intro h
    rw [Nat.ceilDiv_eq_add_pred_div]
    simp only [List.length_map, List.length_range]
    omega

/-- C12 witness: a source of 101 repositories is fetched with exactly 2 requests. -/
theorem getRepos_request_count_witness :
    (∀ r ∈ sampleRecords 101, stringField r "name" ≠ "") ∧
    ∃ requests : List Http.Request,
      sampleClient.GetRepos (sampleLib (sampleRecords 101)) 2 [] "octo" =
        some (.ok ((sampleRecords 101).map toRepo), requests) ∧
      requests.length = 2 ∧ 101 ⌈/⌉ 100 = 2 := by
  have hn : ∀ r ∈ sampleRecords 101, stringField r "name" ≠ "" := by
    intro r hr
    obtain ⟨n, -, rfl⟩ := List.mem_map.1 hr
    simp [sampleRecord, stringField, List.lookup, String.ext_iff, List.replicate_succ]
  obtain ⟨requests, h1, -, h3, -, -⟩ :=
    getRepos_request_count (sampleLib (sampleRecords 101)) sampleClient "octo"
      (sampleRecords 101) 2 [] hn (fun i _ => sample_serves _ _ _ i)
      (by simp [sampleRecords])
  refine ⟨hn, requests, by simpa using h1, ?_, ?_⟩
  · simpa [sampleRecords] using h3
  · rw [Nat.ceilDiv_eq_add_pred_div]

/-- C12 counterexample: a source of 100 repositories, all with non-empty names, is fetched
with 2 requests (the second is answered with an empty page), while `⌈100 / 100⌉ = 1`. -/
theorem getRepos_hundred_counterexample :
    (∀ r ∈ sampleRecords 100, stringField r "name" ≠ "") ∧
    (sampleRecords 100).length = 100 ∧
    pageOf (sampleRecords 100) 0 = sampleRecords 100 ∧
    pageOf (sampleRecords 100) 1 = [] ∧
    sampleClient.GetRepos (sampleLib (sampleRecords 100)) 2 [] "octo" =
      some (.ok ((sampleRecords 100).map toRepo),
        [pageRequest (sampleLib (sampleRecords 100)) sampleClient "octo" 1,
          pageRequest (sampleLib (sampleRecords 100)) sampleClient "octo" 2]) ∧
    100 ⌈/⌉ 100 = 1 := by
  have hn : ∀ r ∈ sampleRecords 100, stringField r "name" ≠ "" := by
    intro r hr
    obtain ⟨n, -, rfl⟩ := List.mem_map.1 hr
    simp [sampleRecord, stringField, List.lookup, String.ext_iff, List.replicate_succ]
  have hlen : (sampleRecords 100).length = 100 := by simp [sampleRecords]
  refine ⟨hn, hlen, ?_, ?_, ?_, ?_⟩
  · simp [pageOf, List.take_of_length_le, hlen]
  · simp [pageOf, List.drop_of_length_le, hlen]
  · rw [getRepos_paged (sampleLib (sampleRecords 100)) sampleClient "octo"
      (sampleRecords 100) 2 [] (fun i _ => sample_serves _ _ _ i) (by simp [sampleRecords]),
      normalize_eq_map _ hn, hlen]
    simp [List.range_succ]
  · rw [Nat.ceilDiv_eq_add_pred_div]

/-- C13: when the requests for pages 1, 2, ..., `j + 1` succeed and parse to `pages 0`, ...,
`pages j`, of which the last is the first with fewer than 100 records, `GetRepos` returns,
for the records of these pages in the order of the answers, exactly those that hold a
non-empty string under `name`, each with its visibility; it has made the `j + 1` requests in
order; and when every record has a non-empty name, no record is skipped. -/
theorem getRepos_keeps_named_records (lib : Lib) (c : Client) (org : String)
    (pages : Nat → List JSONObject) (j fuel : Nat) (log : List Http.Request)
    (hserve : ∀ i, i ≤ j → ∃ body,
      c.http (log ++ (List.range i).map (fun t => pageRequest lib c org (t + 1)))
          (pageRequest lib c org (i + 1)) = .ok body ∧
      lib.Unmarshal body = .ok (pages i))
    (hfull : ∀ i, i < j → 100 ≤ (pages i).length)
    (hshort : (pages j).length < 100)
    (hfuel : j < fuel) :
    c.GetRepos lib fuel log org =
      some (.ok (normalize ((List.range (j + 1)).flatMap pages)),
        log ++ (List.range (j + 1)).map (fun i => pageRequest lib c org (i + 1))) ∧
    normalize ((List.range (j + 1)).flatMap pages) =
      (List.range (j + 1)).flatMap (fun i => normalize (pages i)) ∧
    (∀ records : List JSONObject,
      normalize records =
        (records.filter (fun r => decide (stringField r "name" ≠ ""))).map toRepo) ∧
    ((∀ i, i ≤ j → ∀ r ∈ pages i, stringField r "name" ≠ "") →
      normalize ((List.range (j + 1)).flatMap pages) =
        ((List.range (j + 1)).flatMap pages).map toRepo) := by
  refine ⟨getRepos_pages lib c org pages j fuel log hserve hfull hshort hfuel, ?_, ?_, ?_⟩
  · generalize List.range (j + 1) = l
    induction l with
    | nil => rfl
    | cons a l ih => rw [List.flatMap_cons, List.flatMap_cons, normalize_append, ih]
  · intro records
    induction records with
    | nil => rfl
    | cons r rs ih =>
      unfold normalize at ih ⊢
      rw [List.filterMap_cons, List.filter_cons, ih]
      unfold toRepo stringField
      cases hl : List.lookup "name" r with
      | none => simp
      | some v =>
        cases v with
        | string s => by_cases hs : s = "" <;> simp [hs, hl]
        | _ => simp [hl]
  · intro h
    apply normalize_eq_map
    intro r hr
    obtain ⟨i, hi, hmem⟩ := List.mem_flatMap.1 hr
    exact h i (by have := List.mem_range.1 hi; omega) r hmem

/-- C13 witness: a single page of five records, of which the second has no name, the third
a number as name and the fourth an empty name, yields the first and the last record. -/
theorem getRepos_keeps_named_records_witness :
    sampleMixedRecords.length < 100 ∧
    sampleClient.GetRepos (sampleLib sampleMixedRecords) 1 [] "octo" =
      some (.ok [{ Name := "alpha", Visibility := "public" },
          { Name := "omega", Visibility := "" }],
        [pageRequest (sampleLib sampleMixedRecords) sampleClient "octo" 1]) :=
  ⟨by decide,
    (getRepos_keeps_named_records (sampleLib sampleMixedRecords) sampleClient "octo"
      (pageOf sampleMixedRecords) 0 1 []
      (fun i _ => sample_serves _ _ _ i) (fun i hi => absurd hi (Nat.not_lt_zero i))
      (by decide) (by decide)).1.trans rfl⟩

/-- C16: `GetRepos` does not validate `org`. Every run with an empty `org` that returns has
made the request for page 1 of `<apiURL>/orgs//repos?per_page=100` (the escaped org being
empty as well), whatever it returns. -/
theorem getRepos_empty_org_requests (lib : Lib) (c : Client) (fuel : Nat)
    (log log2 : List Http.Request) (res : Except String (List Repo))
    (hescape : lib.PathEscape "" = "")
    (h : c.GetRepos lib fuel log "" = some (res, log2)) :
    ∃ rest, log2 = log ++
      [⟨c.apiURL ++ "/orgs//repos?per_page=100&page=1", c.buildHeaders⟩] ++ rest := by
  unfold Client.GetRepos at h
  obtain ⟨rest, hrest⟩ := getReposLoop_requests lib c _ _ _ _ _ _ _ h
  refine ⟨rest, ?_⟩
  rw [hrest]
  simp [requestAt, hescape, String.ext_iff]
  rfl

/-- C16 witness: against the sample server with an empty source, `GetRepos` with an empty
org returns an empty list and no error, after one request. -/
theorem getRepos_empty_org_requests_witness :
    sampleClient.GetRepos (sampleLib []) 1 [] "" =
      some (.ok [], [⟨"https://api.github.com/orgs//repos?per_page=100&page=1",
        [("Accept", "application/vnd.github+json"),
          ("X-GitHub-Api-Version", "2022-11-28")]⟩]) ∧
    ∃ rest, [(⟨"https://api.github.com/orgs//repos?per_page=100&page=1",
        [("Accept", "application/vnd.github+json"),
          ("X-GitHub-Api-Version", "2022-11-28")]⟩ : Http.Request)] =
      [] ++ [⟨sampleClient.apiURL ++ "/orgs//repos?per_page=100&page=1",
        sampleClient.buildHeaders⟩] ++ rest :=
  ⟨rfl, getRepos_empty_org_requests (sampleLib []) sampleClient 1 [] _ (.ok []) rfl rfl⟩

/-- Every run of the loop of `GetRepos` that returns has made requests that follow the stop
rule. -/
theorem getReposLoop_trace (lib : Lib) (c : Client) (apiURL : String) :
    ∀ (fuel page : Nat) (repos : List Repo) (log : List Http.Request)
      (res : Except String (List Repo)) (log2 : List Http.Request),
      c.getReposLoop lib apiURL fuel page repos log = some (res, log2) →
      ∃ requests, log2 = log ++ requests ∧ pagingTrace lib c apiURL page log requests = true := by
  intro fuel
  induction fuel with
  | zero => intro page repos log res log2 h; simp [Client.getReposLoop] at h
  | succ fuel ih =>
    intro page repos log res log2 h
    unfold Client.getReposLoop at h
    simp only [] at h
    have hreq : (⟨apiURL ++ "&page=" ++ toString page, c.buildHeaders⟩ : Http.Request) =
        requestAt c apiURL page := rfl
    rw [hreq] at h
    split at h
    · rename_i err herr
      simp only [Option.some.injEq, Prod.mk.injEq] at h
      exact ⟨[requestAt c apiURL page], h.2.symm, by simp [pagingTrace, herr]⟩
    · rename_i body hbody
      split at h
      · rename_i err herr
        simp only [Option.some.injEq, Prod.mk.injEq] at h
        exact ⟨[requestAt c apiURL page], h.2.symm, by simp [pagingTrace, hbody, herr]⟩
      · rename_i pageRepos hparse
        split at h
        · rename_i h0
          simp only [Option.some.injEq, Prod.mk.injEq] at h
          exact ⟨[requestAt c apiURL page], h.2.symm,
            by simp [pagingTrace, hbody, hparse, h0]⟩
        · split at h
          · rename_i h0 h100
            simp only [Option.some.injEq, Prod.mk.injEq] at h
            exact ⟨[requestAt c apiURL page], h.2.symm,
              by simp [pagingTrace, hbody, hparse, h100]⟩
          · rename_i h0 h100
            obtain ⟨requests, hlog, htrace⟩ := ih _ _ _ _ _ h
            exact ⟨requestAt c apiURL page :: requests, by simp [hlog],
              by simp [pagingTrace, hbody, hparse, h100, htrace]⟩

/-- C24, amended: `GetRepos` stops paging at the first page that contains fewer than 100
records (zero included), whatever the records hold. The requests of every run that returns
follow this rule: the first is for page 1; after a failed request, an answer that does not
parse or a page with fewer than 100 records no further page is requested; after a page with
100 or more records the next page number is requested, also when no record of the page has
a name. A run over pages of which the last is the first short one returns after exactly
these requests. -/
theorem getRepos_stop_rule (lib : Lib) (c : Client) (org : String) (fuel : Nat)
    (log : List Http.Request) :
    (∀ res log2, c.GetRepos lib fuel log org = some (res, log2) →
      ∃ requests, log2 = log ++ requests ∧
        pagingTrace lib c (c.apiURL ++ "/orgs/" ++ lib.PathEscape org ++ "/repos?per_page=100")
          1 log requests = true) ∧
    (∀ (pages : Nat → List JSONObject) (j : Nat),
      (∀ i, i ≤ j → ∃ body,
        c.http (log ++ (List.range i).map (fun t => pageRequest lib c org (t + 1)))
            (pageRequest lib c org (i + 1)) = .ok body ∧
        lib.Unmarshal body = .ok (pages i)) →
      (∀ i, i < j → 100 ≤ (pages i).length) →
      (pages j).length < 100 →
      j < fuel →
      ∃ repos, c.GetRepos lib fuel log org =
        some (.ok repos,
          log ++ (List.range (j + 1)).map (fun i => pageRequest lib c org (i + 1)))) := by
  constructor
  · intro res log2 h
    unfold Client.GetRepos at h
    exact getReposLoop_trace lib c _ _ _ _ _ _ _ h
  · intro pages j hserve hfull hshort hfuel
    exact ⟨_, getRepos_pages lib c org pages j fuel log hserve hfull hshort hfuel⟩

/-- C24 witness: the sample server answers page 1 with 100 records without a name and
page 2 with one named record; `GetRepos` returns after the requests for pages 1 and 2,
which follow the stop rule. -/
theorem getRepos_stop_rule_witness :
    sampleClient.GetRepos sampleLibNameless 2 [] "octo" =
      some (.ok [toRepo (sampleRecord 0)],
        [pageRequest sampleLibNameless sampleClient "octo" 1,
          pageRequest sampleLibNameless sampleClient "octo" 2]) ∧
    ∃ requests,
      [pageRequest sampleLibNameless sampleClient "octo" 1,
          pageRequest sampleLibNameless sampleClient "octo" 2] = [] ++ requests ∧
        pagingTrace sampleLibNameless sampleClient
          (sampleClient.apiURL ++ "/orgs/" ++ sampleLibNameless.PathEscape "octo" ++
            "/repos?per_page=100") 1 [] requests = true :=
  ⟨rfl, (getRepos_stop_rule sampleLibNameless sampleClient "octo" 2 []).1 _ _ rfl⟩

/-- C24 counterexample: page 1 of the sample source holds 100 records of which none has a
parseable name field, and `GetRepos` still requests page 2 and returns the repository it
holds. -/
theorem getRepos_nameless_page_counterexample :
    sampleLibNameless.Unmarshal "" = .ok (List.replicate 100 sampleNameless) ∧
    (∀ r ∈ List.replicate 100 sampleNameless, r.lookup "name" = none) ∧
    normalize (List.replicate 100 sampleNameless) = [] ∧
    sampleClient.GetRepos sampleLibNameless 2 [] "octo" =
      some (.ok [toRepo (sampleRecord 0)],
        [pageRequest sampleLibNameless sampleClient "octo" 1,
          pageRequest sampleLibNameless sampleClient "octo" 2]) := by
  refine ⟨rfl, ?_, rfl, rfl⟩
  intro r hr
  rw [List.eq_of_mem_replicate hr]
  rfl

end Github

/-! ## pkg/bbs: paging -/

namespace Bbs

theorem startOf_shift (start : Int) (next : Nat → Int) (i : Nat) :
    startOf (next 0) (fun t => next (t + 1)) i = startOf start next (i + 1) := by
  cases i <;> rfl

/-- The loop of `GetProjects` over `j` answers that are not the last page followed by one
that is. -/
theorem getProjectsLoop_last_page (lib : Lib) (c : Client) (limit : Int) (j : Nat) :
    ∀ (pages : Nat → projectsResponse) (start : Int) (fuel : Nat) (all : List Project)
      (log : List Http.Request),
      (∀ i, i ≤ j → ∃ body,
        c.httpClient
            (log ++ (List.range i).map (fun t =>
              projectsRequest c (startOf start (fun n => (pages n).NextPageStart) t) limit))
            (projectsRequest c (startOf start (fun n => (pages n).NextPageStart) i) limit) =
          .ok body ∧
        lib.UnmarshalProjects body = .ok (pages i)) →
      (∀ i, i < j → (pages i).IsLastPage = false) →
      (pages j).IsLastPage = true →
      j < fuel →
      c.getProjectsLoop lib limit fuel start all log =
        some (.ok (all ++ (List.range (j + 1)).flatMap (fun i => (pages i).Values)),
          log ++ (List.range (j + 1)).map (fun i =>
            projectsRequest c (startOf start (fun n => (pages n).NextPageStart) i) limit)) := by
  induction j with
  | zero =>
    intro pages start fuel all log hserve _ hlast hfuel
    obtain ⟨fuel, rfl⟩ : ∃ f, fuel = f + 1 := ⟨fuel - 1, by omega⟩
    obtain ⟨body, hb, hu⟩ := hserve 0 (Nat.le_refl 0)
    simp only [List.range_zero, List.map_nil, List.append_nil, startOf, projectsRequest]
      at hb hu
    unfold Client.getProjectsLoop
    simp only [hb, hu, hlast]
    simp [List.range_succ, projectsRequest, startOf]
  | succ j ih =>
    intro pages start fuel all log hserve hnot hlast hfuel
    obtain ⟨fuel, rfl⟩ : ∃ f, fuel = f + 1 := ⟨fuel - 1, by omega⟩
    obtain ⟨body, hb, hu⟩ := hserve 0 (Nat.zero_le _)
    have hn := hnot 0 (Nat.succ_pos j)
    simp only [List.range_zero, List.map_nil, List.append_nil, startOf, projectsRequest]
      at hb hu
    unfold Client.getProjectsLoop
    simp only [hb, hu, hn]
    simp only [Bool.false_eq_true, if_false]
    rw [ih (fun i => pages (i + 1)) (pages 0).NextPageStart fuel _ _ ?_ ?_ hlast (by omega)]
    · rw [Http.range_succ_flatMap (fun i => (pages i).Values) (j + 1),
        Http.range_succ_map (fun i =>
          projectsRequest c (startOf start (fun n => (pages n).NextPageStart) i) limit) (j + 1)]
      simp only [startOf_shift start (fun n => (pages n).NextPageStart)]
      simp [List.append_assoc, projectsRequest, startOf]
    · intro i hi
      obtain ⟨b, h1, h2⟩ := hserve (i + 1) (by omega)
      refine ⟨b, ?_, h2⟩
      rw [Http.range_succ_map] at h1
      simp only [startOf_shift start (fun n => (pages n).NextPageStart)]
      simpa [List.append_assoc, projectsRequest, startOf] using h1
    · intro i hi
      exact hnot (i + 1) (by omega)

/-- The loop of `GetRepos` over `j` answers that are not the last page followed by one that
is. -/
theorem getReposLoop_last_page (lib : Lib) (c : Client) (projectKey : String) (limit : Int)
    (j : Nat) :
    ∀ (pages : Nat → repositoriesResponse) (start : Int) (fuel : Nat) (all : List Repository)
      (log : List Http.Request),
      (∀ i, i ≤ j → ∃ body,
        c.httpClient
            (log ++ (List.range i).map (fun t =>
              reposRequest lib c projectKey
                (startOf start (fun n => (pages n).NextPageStart) t) limit))
            (reposRequest lib c projectKey
              (startOf start (fun n => (pages n).NextPageStart) i) limit) =
          .ok body ∧
        lib.UnmarshalRepositories body = .ok (pages i)) →
      (∀ i, i < j → (pages i).IsLastPage = false) →
      (pages j).IsLastPage = true →
      j < fuel →
      c.getReposLoop lib projectKey limit fuel start all log =
        some (.ok (all ++ (List.range (j + 1)).flatMap (fun i => (pages i).Values)),
          log ++ (List.range (j + 1)).map (fun i =>
            reposRequest lib c projectKey
              (startOf start (fun n => (pages n).NextPageStart) i) limit)) := by
  induction j with
  | zero =>
    intro pages start fuel all log hserve _ hlast hfuel
    obtain ⟨fuel, rfl⟩ : ∃ f, fuel = f + 1 := ⟨fuel - 1, by omega⟩
    obtain ⟨body, hb, hu⟩ := hserve 0 (Nat.le_refl 0)
    simp only [List.range_zero, List.map_nil, List.append_nil, startOf, reposRequest]
      at hb hu
    unfold Client.getReposLoop
    simp only [hb, hu, hlast]
    simp [List.range_succ, reposRequest, startOf]
  | succ j ih =>
    intro pages start fuel all log hserve hnot hlast hfuel
    obtain ⟨fuel, rfl⟩ : ∃ f, fuel = f + 1 := ⟨fuel - 1, by omega⟩
    obtain ⟨body, hb, hu⟩ := hserve 0 (Nat.zero_le _)
    have hn := hnot 0 (Nat.succ_pos j)
    simp only [List.range_zero, List.map_nil, List.append_nil, startOf, reposRequest]
      at hb hu
    unfold Client.getReposLoop
    simp only [hb, hu, hn]
    simp only [Bool.false_eq_true, if_false]
    rw [ih (fun i => pages (i + 1)) (pages 0).NextPageStart fuel _ _ ?_ ?_ hlast (by omega)]
    · rw [Http.range_succ_flatMap (fun i => (pages i).Values) (j + 1),
        Http.range_succ_map (fun i =>
          reposRequest lib c projectKey
            (startOf start (fun n => (pages n).NextPageStart) i) limit) (j + 1)]
      simp only [startOf_shift start (fun n => (pages n).NextPageStart)]
      simp [List.append_assoc, reposRequest, startOf]
    · intro i hi
      obtain ⟨b, h1, h2⟩ := hserve (i + 1) (by omega)
      refine ⟨b, ?_, h2⟩
      rw [Http.range_succ_map] at h1
      simp only [startOf_shift start (fun n => (pages n).NextPageStart)]
      simpa [List.append_assoc, reposRequest, startOf] using h1
    · intro i hi
      exact hnot (i + 1) (by omega)

theorem length_flatMap_range {α : Type} (f : Nat → List α) (n : Nat) :
    ((List.range n).flatMap f).length = ((List.range n).map (fun i => (f i).length)).sum := by
  induction n with
  | zero => rfl
  | succ n ih => simp [List.range_succ, List.flatMap_append, ih]

/-- C14: against a server that answers the listing with pages `pages 0`, `pages 1`, ..., of
which `pages j` is the first with `isLastPage = true`, every request succeeding, `GetProjects`
makes exactly `j + 1` requests (the first with `start = 0`, each later one with the
`nextPageStart` of the answer before, all with `limit = 25`) and returns the values of the
`j + 1` pages, concatenated in order; the length of the result is the sum of the item counts
of the pages. The same holds for `GetRepos` with a non-empty project key. -/
theorem bbs_paging_concatenates (lib : Lib) (c : Client) (j fuel : Nat)
    (log : List Http.Request) (hfuel : j < fuel) :
    (∀ pages : Nat → projectsResponse,
      (∀ i, i ≤ j → ∃ body,
        c.httpClient
            (log ++ (List.range i).map (fun t =>
              projectsRequest c (startOf 0 (fun n => (pages n).NextPageStart) t) 25))
            (projectsRequest c (startOf 0 (fun n => (pages n).NextPageStart) i) 25) =
          .ok body ∧
        lib.UnmarshalProjects body = .ok (pages i)) →
      (∀ i, i < j → (pages i).IsLastPage = false) →
      (pages j).IsLastPage = true →
      ∃ (result : List Project) (requests : List Http.Request),
        c.GetProjects lib fuel log = some (.ok result, log ++ requests) ∧
        result = (List.range (j + 1)).flatMap (fun i => (pages i).Values) ∧
        requests = (List.range (j + 1)).map (fun i =>
          projectsRequest c (startOf 0 (fun n => (pages n).NextPageStart) i) 25) ∧
        requests.length = j + 1 ∧
        result.length = ((List.range (j + 1)).map (fun i => (pages i).Values.length)).sum) ∧
    (∀ (projectKey : String) (pages : Nat → repositoriesResponse),
      projectKey ≠ "" →
      (∀ i, i ≤ j → ∃ body,
        c.httpClient
            (log ++ (List.range i).map (fun t =>
              reposRequest lib c projectKey
                (startOf 0 (fun n => (pages n).NextPageStart) t) 25))
            (reposRequest lib c projectKey
              (startOf 0 (fun n => (pages n).NextPageStart) i) 25) =
          .ok body ∧
        lib.UnmarshalRepositories body = .ok (pages i)) →
      (∀ i, i < j → (pages i).IsLastPage = false) →
      (pages j).IsLastPage = true →
      ∃ (result : List Repository) (requests : List Http.Request),
        c.GetRepos lib fuel log projectKey = some (.ok result, log ++ requests) ∧
        result = (List.range (j + 1)).flatMap (fun i => (pages i).Values) ∧
        requests = (List.range (j + 1)).map (fun i =>
          reposRequest lib c projectKey
            (startOf 0 (fun n => (pages n).NextPageStart) i) 25) ∧
        requests.length = j + 1 ∧
        result.length = ((List.range (j + 1)).map (fun i => (pages i).Values.length)).sum) := by
  constructor
  · intro pages hserve hnot hlast
    refine ⟨_, _, ?_, rfl, rfl, by simp, length_flatMap_range _ _⟩
    unfold Client.GetProjects
    simp only []
    rw [getProjectsLoop_last_page lib c 25 j pages 0 fuel [] log hserve hnot hlast hfuel]
    simp
  · intro projectKey pages hkey hserve hnot hlast
    refine ⟨_, _, ?_, rfl, rfl, by simp, length_flatMap_range _ _⟩
    unfold Client.GetRepos
    simp only [hkey, if_false]
    rw [getReposLoop_last_page lib c projectKey 25 j pages 0 fuel [] log hserve hnot hlast hfuel]
    simp

/-- C14 witness: the sample server answers both listings with two pages; `GetProjects`
returns the three projects and `GetRepos` the two repositories, each after two requests,
the second with the `nextPageStart` of the first answer. -/
theorem bbs_paging_concatenates_witness :
    (sampleProjectPages 0).IsLastPage = false ∧ (sampleProjectPages 1).IsLastPage = true ∧
    (sampleRepoPages 0).IsLastPage = false ∧ (sampleRepoPages 1).IsLastPage = true ∧
    sampleClient.GetProjects sampleLib 2 [] =
      some (.ok [{ ID := 1, Key := "PROJ1", Name := "Project 1" },
          { ID := 2, Key := "PROJ2", Name := "Project 2" },
          { ID := 3, Key := "PROJ3", Name := "Project 3" }],
        [projectsRequest sampleClient 0 25, projectsRequest sampleClient 2 25]) ∧
    sampleClient.GetRepos sampleLib 2 [] "PROJ1" =
      some (.ok [{ ID := 1, Slug := "repo1", Name := "Repository 1" },
          { ID := 2, Slug := "repo2", Name := "Repository 2" }],
        [reposRequest sampleLib sampleClient "PROJ1" 0 25,
          reposRequest sampleLib sampleClient "PROJ1" 1 25]) := by
  have h := bbs_paging_concatenates sampleLib sampleClient 1 2 [] (by decide)
  obtain ⟨r1, q1, h1, hr1, hq1, -, -⟩ := h.1 sampleProjectPages
    (fun i _ => ⟨_, rfl, by simp [sampleLib]⟩)
    (fun i hi => by obtain rfl : i = 0 := by omega
                    rfl) rfl
  obtain ⟨r2, q2, h2, hr2, hq2, -, -⟩ := h.2 "PROJ1" sampleRepoPages (by decide)
    (fun i _ => ⟨_, rfl, by simp [sampleLib]⟩)
    (fun i hi => by obtain rfl : i = 0 := by omega
                    rfl) rfl
  refine ⟨rfl, rfl, rfl, rfl, ?_, ?_⟩
  · rw [h1, hr1, hq1]; rfl
  · rw [h2, hr2, hq2]; rfl

/-- Every run of the loop of `GetProjects` that returns has made requests that follow the
paging rule. -/
theorem getProjectsLoop_trace (lib : Lib) (c : Client) (limit : Int) :
    ∀ (fuel : Nat) (start : Int) (all : List Project) (log : List Http.Request)
      (res : Except String (List Project)) (log2 : List Http.Request),
      c.getProjectsLoop lib limit fuel start all log = some (res, log2) →
      ∃ requests, log2 = log ++ requests ∧
        projectsTrace lib c limit start log requests = true := by
  intro fuel
  induction fuel with
  | zero => intro start all log res log2 h; simp [Client.getProjectsLoop] at h
  | succ fuel ih =>
    intro start all log res log2 h
    unfold Client.getProjectsLoop at h
    simp only [] at h
    have hreq : (⟨c.baseURL ++ "/rest/api/1.0/projects?start=" ++ toString start ++
        "&limit=" ++ toString limit, c.makeAuthHeaders⟩ : Http.Request) =
        projectsRequest c start limit := rfl
    rw [hreq] at h
    split at h
    · rename_i err herr
      simp only [Option.some.injEq, Prod.mk.injEq] at h
      exact ⟨[projectsRequest c start limit], h.2.symm, by simp [projectsTrace, herr]⟩
    · rename_i body hbody
      split at h
      · rename_i err herr
        simp only [Option.some.injEq, Prod.mk.injEq] at h
        exact ⟨[projectsRequest c start limit], h.2.symm,
          by simp [projectsTrace, hbody, herr]⟩
      · rename_i response hparse
        split at h
        · rename_i hlast
          simp only [Option.some.injEq, Prod.mk.injEq] at h
          exact ⟨[projectsRequest c start limit], h.2.symm,
            by simp [projectsTrace, hbody, hparse, hlast]⟩
        · rename_i hlast
          obtain ⟨requests, hlog, htrace⟩ := ih _ _ _ _ _ h
          exact ⟨projectsRequest c start limit :: requests, by simp [hlog],
            by simp [projectsTrace, hbody, hparse, hlast, htrace]⟩

/-- Every run of the loop of `GetRepos` that returns has made requests that follow the
paging rule. -/
theorem getReposLoop_trace_bbs (lib : Lib) (c : Client) (projectKey : String) (limit : Int) :
    ∀ (fuel : Nat) (start : Int) (all : List Repository) (log : List Http.Request)
      (res : Except String (List Repository)) (log2 : List Http.Request),
      c.getReposLoop lib projectKey limit fuel start all log = some (res, log2) →
      ∃ requests, log2 = log ++ requests ∧
        reposTrace lib c projectKey limit start log requests = true := by
  intro fuel
  induction fuel with
  | zero => intro start all log res log2 h; simp [Client.getReposLoop] at h
  | succ fuel ih =>
    intro start all log res log2 h
    unfold Client.getReposLoop at h
    simp only [] at h
    have hreq : (⟨c.baseURL ++ "/rest/api/1.0/projects/" ++ lib.PathEscape projectKey ++
        "/repos?start=" ++ toString start ++ "&limit=" ++ toString limit,
        c.makeAuthHeaders⟩ : Http.Request) = reposRequest lib c projectKey start limit := rfl
    rw [hreq] at h
    split at h
    · rename_i err herr
      simp only [Option.some.injEq, Prod.mk.injEq] at h
      exact ⟨[reposRequest lib c projectKey start limit], h.2.symm,
        by simp [reposTrace, herr]⟩
    · rename_i body hbody
      split at h
      · rename_i err herr
        simp only [Option.some.injEq, Prod.mk.injEq] at h
        exact ⟨[reposRequest lib c projectKey start limit], h.2.symm,
          by simp [reposTrace, hbody, herr]⟩
      · rename_i response hparse
        split at h
        · rename_i hlast
          simp only [Option.some.injEq, Prod.mk.injEq] at h
          exact ⟨[reposRequest lib c projectKey start limit], h.2.symm,
            by simp [reposTrace, hbody, hparse, hlast]⟩
        · rename_i hlast
          obtain ⟨requests, hlog, htrace⟩ := ih _ _ _ _ _ h
          exact ⟨reposRequest lib c projectKey start limit :: requests, by simp [hlog],
            by simp [reposTrace, hbody, hparse, hlast, htrace]⟩

/-- C25: the requests of every run of `GetProjects` that returns, and of every run of
`GetRepos` with a non-empty project key that returns, follow the paging rule: the first
carries `start=0` and `limit=25`; after an answer with `isLastPage = false` exactly one
more request follows, with `limit=25` and the `nextPageStart` of that answer as `start`
(0 when the parsed field is 0, as for an omitted field); after an answer with
`isLastPage = true` (or a failure) none follows. And both functions do return: with answers
`pages 0`, ..., `pages j` of which the last is the first with `isLastPage = true`, and fuel
for them, `GetProjects` returns after exactly the requests with these starts, and so does
`GetRepos` for a non-empty project key. -/
theorem bbs_paging_rule (lib : Lib) (c : Client) (fuel : Nat) (log : List Http.Request) :
    (∀ res log2, c.GetProjects lib fuel log = some (res, log2) →
      ∃ requests, log2 = log ++ requests ∧ projectsTrace lib c 25 0 log requests = true) ∧
    (∀ projectKey res log2, projectKey ≠ "" →
      c.GetRepos lib fuel log projectKey = some (res, log2) →
      ∃ requests, log2 = log ++ requests ∧
        reposTrace lib c projectKey 25 0 log requests = true) ∧
    (∀ (pages : Nat → projectsResponse) (j : Nat),
      (∀ i, i ≤ j → ∃ body,
        c.httpClient
            (log ++ (List.range i).map (fun t =>
              projectsRequest c (startOf 0 (fun n => (pages n).NextPageStart) t) 25))
            (projectsRequest c (startOf 0 (fun n => (pages n).NextPageStart) i) 25) =
          .ok body ∧
        lib.UnmarshalProjects body = .ok (pages i)) →
      (∀ i, i < j → (pages i).IsLastPage = false) →
      (pages j).IsLastPage = true →
      j < fuel →
      ∃ result, c.GetProjects lib fuel log =
        some (.ok result, log ++ (List.range (j + 1)).map (fun i =>
          projectsRequest c (startOf 0 (fun n => (pages n).NextPageStart) i) 25))) ∧
    (∀ (projectKey : String) (pages : Nat → repositoriesResponse) (j : Nat),
      projectKey ≠ "" →
      (∀ i, i ≤ j → ∃ body,
        c.httpClient
            (log ++ (List.range i).map (fun t =>
              reposRequest lib c projectKey
                (startOf 0 (fun n => (pages n).NextPageStart) t) 25))
            (reposRequest lib c projectKey
              (startOf 0 (fun n => (pages n).NextPageStart) i) 25) =
          .ok body ∧
        lib.UnmarshalRepositories body = .ok (pages i)) →
      (∀ i, i < j → (pages i).IsLastPage = false) →
      (pages j).IsLastPage = true →
      j < fuel →
      ∃ result, c.GetRepos lib fuel log projectKey =
        some (.ok result, log ++ (List.range (j + 1)).map (fun i =>
          reposRequest lib c projectKey
            (startOf 0 (fun n => (pages n).NextPageStart) i) 25))) := by
  refine ⟨?_, ?_, ?_, ?_⟩
  · intro res log2 h
    unfold Client.GetProjects at h
    exact getProjectsLoop_trace lib c 25 _ _ _ _ _ _ h
  · intro projectKey res log2 hkey h
    unfold Client.GetRepos at h
    rw [if_neg hkey] at h
    exact getReposLoop_trace_bbs lib c projectKey 25 _ _ _ _ _ _ h
  · intro pages j hserve hnot hlast hfuel
    refine ⟨[] ++ (List.range (j + 1)).flatMap (fun i => (pages i).Values), ?_⟩
    unfold Client.GetProjects
    simp only []
    rw [getProjectsLoop_last_page lib c 25 j pages 0 fuel [] log hserve hnot hlast hfuel]
  · intro projectKey pages j hkey hserve hnot hlast hfuel
    refine ⟨[] ++ (List.range (j + 1)).flatMap (fun i => (pages i).Values), ?_⟩
    unfold Client.GetRepos
    simp only [hkey, if_false]
    rw [getReposLoop_last_page lib c projectKey 25 j pages 0 fuel [] log hserve hnot hlast
      hfuel]

/-- C25 witness: the sample server answers the first request with a page that is not the
last and has `nextPageStart` 0, as when the field is omitted; `GetProjects` makes a second
request with `start=0` and `limit=25`, which is answered with the last page, and the two
requests follow the paging rule. `GetRepos` of the paging sample returns the two
repositories after two requests, the second with `start=1`; the two requests follow the
paging rule, and they are the requests of the two answers of the sample, of which the second
is the last page. -/
theorem bbs_paging_rule_witness :
    sampleClient.GetProjects sampleLibOmitted 2 [] =
      some (.ok [{ ID := 1, Key := "PROJ1", Name := "Project 1" },
          { ID := 2, Key := "PROJ2", Name := "Project 2" }],
        [projectsRequest sampleClient 0 25, projectsRequest sampleClient 0 25]) ∧
    (∃ requests,
      [projectsRequest sampleClient 0 25, projectsRequest sampleClient 0 25] =
        [] ++ requests ∧
      projectsTrace sampleLibOmitted sampleClient 25 0 [] requests = true) ∧
    sampleClient.GetRepos sampleLib 2 [] "PROJ1" =
      some (.ok [{ ID := 1, Slug := "repo1", Name := "Repository 1" },
          { ID := 2, Slug := "repo2", Name := "Repository 2" }],
        [reposRequest sampleLib sampleClient "PROJ1" 0 25,
          reposRequest sampleLib sampleClient "PROJ1" 1 25]) ∧
    (∃ requests,
      [reposRequest sampleLib sampleClient "PROJ1" 0 25,
        reposRequest sampleLib sampleClient "PROJ1" 1 25] = [] ++ requests ∧
      reposTrace sampleLib sampleClient "PROJ1" 25 0 [] requests = true) ∧
    (∃ result, sampleClient.GetRepos sampleLib 2 [] "PROJ1" =
      some (.ok result, [] ++ (List.range (1 + 1)).map (fun i =>
        reposRequest sampleLib sampleClient "PROJ1"
          (startOf 0 (fun n => (sampleRepoPages n).NextPageStart) i) 25))) ∧
    (projectsRequest sampleClient 0 25).url =
      "https://bbs.example.com/rest/api/1.0/projects?start=0&limit=25" :=
  ⟨rfl, (bbs_paging_rule sampleLibOmitted sampleClient 2 []).1 _ _ rfl, rfl,
    (bbs_paging_rule sampleLib sampleClient 2 []).2.1 "PROJ1" _ _ (by decide) rfl,
    (bbs_paging_rule sampleLib sampleClient 2 []).2.2.2 "PROJ1" sampleRepoPages 1 (by decide)
      (fun i _ => ⟨_, rfl, by simp [sampleLib]⟩)
      (fun i hi => by obtain rfl : i = 0 := by omega
                      rfl) rfl (by decide),
    rfl⟩

end Bbs

/-! ## pkg/ado and the validation of identifiers -/

namespace Ado

theorem foldl_enabled (repos acc : List Repository) :
    repos.foldl (fun enabled repo => if !repo.IsDisabled then enabled ++ [repo] else enabled)
        acc =
      acc ++ repos.filter (fun repo => repo.IsDisabled = false) := by
  induction repos generalizing acc with
  | nil => simp
  | cons r rs ih =>
    rw [List.foldl_cons, ih, List.filter_cons]
    cases h : r.IsDisabled <;> simp

theorem scanEndpoints_eq_find (lib : Lib) (githubOrg teamProject : String)
    (endpoints : List serviceEndpoint) :
    scanEndpoints lib githubOrg teamProject endpoints =
      ((endpoints.find? (matchesEndpoint lib githubOrg teamProject)).map
        (fun endpoint => endpoint.ID)).getD "" := by
  induction endpoints with
  | nil => rfl
  | cons e es ih =>
    unfold scanEndpoints
    rw [List.find?_cons, ih]
    unfold matchesEndpoint
    cases h1 : (lib.EqualFold e.Kind "GitHub" && lib.EqualFold e.Name githubOrg) <;>
      cases h2 : (lib.EqualFold e.Kind "GitHubProximaPipelines" &&
        lib.EqualFold e.Name teamProject) <;> simp [h1, h2]

/-- Probing a team project makes one request; it yields the id that `probe` finds, and an
error or `""` when `probe` finds none. -/
theorem getTeamProjectGithubAppId_probe (lib : Lib) (c : Client) (log : List Http.Request)
    (org githubOrg teamProject : String) :
    (c.getTeamProjectGithubAppId lib log org githubOrg teamProject).2 =
      log ++ [endpointsRequest lib c org teamProject] ∧
    (∀ id, probe lib c log org githubOrg teamProject = some id →
      (c.getTeamProjectGithubAppId lib log org githubOrg teamProject).1 = .ok id) ∧
    (probe lib c log org githubOrg teamProject = none →
      (c.getTeamProjectGithubAppId lib log org githubOrg teamProject).1 = .ok "" ∨
      ∃ err, (c.getTeamProjectGithubAppId lib log org githubOrg teamProject).1 = .error err) := by
  unfold Client.getTeamProjectGithubAppId probe endpointsRequest
  simp only []
  split
  · simp
  · split
    · simp
    · rename_i response hu
      rw [scanEndpoints_eq_find]
      cases hf : List.find? (matchesEndpoint lib githubOrg teamProject) response.Value <;> simp

/-- A team project whose probe finds no id, or an empty one, is passed over. -/
theorem search_cons_skip (lib : Lib) (c : Client) (log : List Http.Request)
    (org githubOrg teamProject : String) (rest : List String)
    (h : ∀ id, probe lib c log org githubOrg teamProject = some id → id = "") :
    c.searchTeamProjects lib org githubOrg (teamProject :: rest) log =
      c.searchTeamProjects lib org githubOrg rest
        (log ++ [endpointsRequest lib c org teamProject]) := by
  obtain ⟨h2, hsome, hnone⟩ := getTeamProjectGithubAppId_probe lib c log org githubOrg teamProject
  rw [Client.searchTeamProjects]
  generalize c.getTeamProjectGithubAppId lib log org githubOrg teamProject = r at h2 hsome hnone
  obtain ⟨r1, r2⟩ := r
  simp only at h2 hsome hnone
  subst h2
  cases hp : probe lib c log org githubOrg teamProject with
  | none =>
    rcases hnone hp with h1 | ⟨err, h1⟩ <;> subst h1 <;> simp
  | some id =>
    have := hsome id hp
    subst this
    simp [h id hp]

/-- A team project whose probe finds a non-empty id ends the search. -/
theorem search_cons_hit (lib : Lib) (c : Client) (log : List Http.Request)
    (org githubOrg teamProject id : String) (rest : List String)
    (h : probe lib c log org githubOrg teamProject = some id) (hid : id ≠ "") :
    c.searchTeamProjects lib org githubOrg (teamProject :: rest) log =
      (.ok id, log ++ [endpointsRequest lib c org teamProject]) := by
  obtain ⟨h2, hsome, -⟩ := getTeamProjectGithubAppId_probe lib c log org githubOrg teamProject
  rw [Client.searchTeamProjects]
  have h1 := hsome id h
  generalize c.getTeamProjectGithubAppId lib log org githubOrg teamProject = r at h2 h1
  obtain ⟨r1, r2⟩ := r
  simp only at h2 h1
  subst h2 h1
  simp [hid]

/-- The search passes over a run of team projects none of which yields a non-empty id. -/
theorem search_append_skip (lib : Lib) (c : Client) (org githubOrg : String)
    (before rest : List String) :
    ∀ log : List Http.Request,
      (∀ p x q, before = p ++ x :: q →
        ∀ id, probe lib c (log ++ p.map (endpointsRequest lib c org)) org githubOrg x = some id →
          id = "") →
      c.searchTeamProjects lib org githubOrg (before ++ rest) log =
        c.searchTeamProjects lib org githubOrg rest
          (log ++ before.map (endpointsRequest lib c org)) := by
  induction before with
  | nil => intro log _; simp
  | cons b bs ih =>
    intro log h
    rw [List.cons_append, search_cons_skip lib c log org githubOrg b _
      (by simpa using h [] b bs rfl), ih]
    · simp
    · intro p x q hpq id hid
      refine h (b :: p) x q (by rw [hpq]; rfl) id ?_
      simpa using hid

theorem search_ok (lib : Lib) (c : Client) (org githubOrg : String) (teamProjects : List String) :
    ∀ log : List Http.Request,
      ∃ id, (c.searchTeamProjects lib org githubOrg teamProjects log).1 = .ok id := by
  induction teamProjects with
  | nil => intro log; exact ⟨"", rfl⟩
  | cons t ts ih =>
    intro log
    rw [Client.searchTeamProjects]
    split
    · exact ih _
    · split
      · exact ⟨_, rfl⟩
      · exact ih _

theorem getGithubAppId_eq_search (lib : Lib) (c : Client) (log : List Http.Request)
    (org githubOrg : String) (teamProjects : List String) (horg : org ≠ "")
    (hgithubOrg : githubOrg ≠ "") :
    c.GetGithubAppId lib log org githubOrg teamProjects =
      c.searchTeamProjects lib org githubOrg teamProjects log := by
  unfold Client.GetGithubAppId
  cases teamProjects with
  | nil => simp [horg, hgithubOrg, Client.searchTeamProjects]
  | cons t ts => simp [horg, hgithubOrg]

/-- C15: with an empty identifier each of these fetchers returns an error and no result,
and the request log is unchanged: `GetTeamProjects` with an empty org, `GetRepos` with an
empty org or an empty team project, `GetGithubAppId` with an empty org or an empty
githubOrg, and the Bitbucket `GetRepos` with an empty project key (for every fuel). With
non-empty org and githubOrg and an empty list of team projects, `GetGithubAppId` returns
`""` and no error, the request log unchanged as well. -/
theorem empty_identifier_no_request (lib : Lib) (c : Client) (log : List Http.Request) :
    c.GetTeamProjects lib log "" = (.error "org cannot be empty", log) ∧
    (∀ teamProject, c.GetRepos lib log "" teamProject = (.error "org cannot be empty", log)) ∧
    (∀ org, ∃ err, c.GetRepos lib log org "" = (.error err, log)) ∧
    (∀ githubOrg teamProjects,
      c.GetGithubAppId lib log "" githubOrg teamProjects = (.error "org cannot be empty", log)) ∧
    (∀ org teamProjects,
      ∃ err, c.GetGithubAppId lib log org "" teamProjects = (.error err, log)) ∧
    (∀ (bbsLib : Bbs.Lib) (bbs : Bbs.Client) (fuel : Nat),
      bbs.GetRepos bbsLib fuel log "" = some (.error "projectKey cannot be empty", log)) ∧
    (∀ org githubOrg, org ≠ "" → githubOrg ≠ "" →
      c.GetGithubAppId lib log org githubOrg [] = (.ok "", log)) := by
  refine ⟨?_, ?_, ?_, ?_, ?_, ?_, ?_⟩
  · simp [Client.GetTeamProjects]
  · intro teamProject
    simp [Client.GetRepos]
  · intro org
    by_cases h : org = ""
    · exact ⟨"org cannot be empty", by simp [Client.GetRepos, h]⟩
    · exact ⟨"teamProject cannot be empty", by simp [Client.GetRepos, h]⟩
  · intro githubOrg teamProjects
    simp [Client.GetGithubAppId]
  · intro org teamProjects
    by_cases h : org = ""
    · exact ⟨"org cannot be empty", by simp [Client.GetGithubAppId, h]⟩
    · exact ⟨"githubOrg cannot be empty", by simp [Client.GetGithubAppId, h]⟩
  · intro bbsLib bbs fuel
    simp [Bbs.Client.GetRepos]
  · intro org githubOrg h1 h2
    simp [Client.GetGithubAppId, h1, h2]

/-- C15 witness: against the sample server, `GetGithubAppId` with non-empty org and
githubOrg and no team project returns `""` without a request. -/
theorem empty_identifier_no_request_witness :
    (sampleClient []).GetGithubAppId sampleLib [] "org" "octo" [] = (.ok "", []) :=
  (empty_identifier_no_request sampleLib (sampleClient []) []).2.2.2.2.2.2 "org" "octo"
    (by decide) (by decide)

/-- C17: `GetEnabledRepos` is `GetRepos` followed by the filter that keeps the repositories
with `IsDisabled = false`: it has the outcome that the specification words, it leaves the
request log as `GetRepos` leaves it (unchanged when an identifier is empty, extended by the
one request of `GetRepos` otherwise), it returns the error of `GetRepos` unchanged, and
otherwise the sub-list of the enabled repositories in their order. -/
theorem getEnabledRepos_filters_getRepos (lib : Lib) (c : Client) (log : List Http.Request)
    (org teamProject : String) :
    c.GetEnabledRepos lib log org teamProject = enabledReposSpec lib c log org teamProject ∧
    (c.GetEnabledRepos lib log org teamProject).2 = (c.GetRepos lib log org teamProject).2 ∧
    (c.GetRepos lib log org teamProject).2 =
      (if org = "" ∨ teamProject = "" then log
        else log ++ [reposRequest lib c org teamProject]) ∧
    (c.GetEnabledRepos lib log org teamProject).1 =
      (match (c.GetRepos lib log org teamProject).1 with
        | .error err => .error err
        | .ok repos => .ok (repos.filter (fun repo => repo.IsDisabled = false))) ∧
    (∀ repos, (c.GetEnabledRepos lib log org teamProject).1 = .ok repos →
      ∃ all, (c.GetRepos lib log org teamProject).1 = .ok all ∧ repos.Sublist all) := by
  have hspec : c.GetEnabledRepos lib log org teamProject =
      enabledReposSpec lib c log org teamProject := by
    unfold Client.GetEnabledRepos enabledReposSpec
    split
    · rfl
    · simp only [foldl_enabled, List.nil_append]
  refine ⟨hspec, ?_, ?_, ?_, ?_⟩
  · rw [hspec]
    unfold enabledReposSpec
    split <;> simp_all
  · unfold Client.GetRepos reposRequest
    by_cases h1 : org = ""
    · simp [h1]
    · by_cases h2 : teamProject = ""
      · simp [h1, h2]
      · simp only [h1, h2, if_false, or_self]
        split
        · rfl
        · split <;> rfl
  · rw [hspec]
    unfold enabledReposSpec
    split <;> simp_all
  · intro repos
    rw [hspec]
    unfold enabledReposSpec
    split
    · simp
    · rename_i all log2 heq
      intro h
      simp only [Except.ok.injEq] at h
      exact ⟨all, by rw [heq], h ▸ List.filter_sublist _⟩

/-- C18, amended: for non-empty org and githubOrg, when the team projects before
`teamProject` each yield no id (request failure, malformed answer, or no matching endpoint)
or an empty one, and the first matching endpoint of the listing of `teamProject` has the
non-empty id `id`, `GetGithubAppId` returns `id`; it has probed exactly the team projects up
to and including `teamProject`, in input order, and none of those after it. -/
theorem getGithubAppId_first_match (lib : Lib) (c : Client) (log : List Http.Request)
    (org githubOrg : String) (before : List String) (teamProject : String)
    (after : List String) (id : String)
    (horg : org ≠ "") (hgithubOrg : githubOrg ≠ "")
    (hbefore : ∀ p x q, before = p ++ x :: q →
      ∀ id, probe lib c (log ++ p.map (endpointsRequest lib c org)) org githubOrg x = some id →
        id = "")
    (hmatch : probe lib c (log ++ before.map (endpointsRequest lib c org)) org githubOrg
      teamProject = some id)
    (hid : id ≠ "") :
    c.GetGithubAppId lib log org githubOrg (before ++ teamProject :: after) =
      (.ok id, log ++ (before ++ [teamProject]).map (endpointsRequest lib c org)) := by
  rw [getGithubAppId_eq_search lib c log org githubOrg _ horg hgithubOrg,
    search_append_skip lib c org githubOrg before _ log hbefore,
    search_cons_hit lib c _ org githubOrg teamProject id after hmatch hid]
  simp

/-- C18 witness: the listing of the first team project does not parse, that of the second
holds an endpoint of type `github` named `Octo` with id `id-b`, and the third is not
probed. -/
theorem getGithubAppId_first_match_witness :
    probe sampleLib (sampleClient [.ok "garbage", .ok "app-b", .ok "app-c"]) [] "org" "octo"
      "A" = none ∧
    (sampleClient [.ok "garbage", .ok "app-b", .ok "app-c"]).GetGithubAppId sampleLib [] "org"
        "octo" ["A", "B", "C"] =
      (.ok "id-b",
        [endpointsRequest sampleLib (sampleClient [.ok "garbage", .ok "app-b", .ok "app-c"])
            "org" "A",
          endpointsRequest sampleLib (sampleClient [.ok "garbage", .ok "app-b", .ok "app-c"])
            "org" "B"]) :=
  ⟨rfl,
    getGithubAppId_first_match sampleLib (sampleClient [.ok "garbage", .ok "app-b", .ok "app-c"])
      [] "org" "octo" ["A"] "B" ["C"] "id-b" (by decide) (by decide)
      (by
        intro p x q h id hp
        cases p with
        | nil =>
          simp only [List.nil_append, List.cons.injEq] at h
          obtain ⟨rfl, -⟩ := h
          have h0 : probe sampleLib (sampleClient [.ok "garbage", .ok "app-b", .ok "app-c"])
              ([] ++ List.map (endpointsRequest sampleLib
                (sampleClient [.ok "garbage", .ok "app-b", .ok "app-c"]) "org") [])
              "org" "octo" "A" = none := rfl
          rw [h0] at hp
          cases hp
        | cons a p => simp at h)
      rfl (by decide)⟩

/-- C18 counterexample: the listing of the first team project `A` contains a matching
endpoint (type GitHub, name `octo`) whose id is empty, and that of the second team project
`B` a matching endpoint with id `id-b`. `GetGithubAppId` does not return the id taken from
`A`: it probes `B` as well and returns `id-b`. -/
theorem getGithubAppId_empty_id_counterexample :
    sampleLib.UnmarshalServiceEndpoints "empty-id" =
      .ok { Value := [{ ID := "", Kind := "GitHub", Name := "octo" }] } ∧
    matchesEndpoint sampleLib "octo" "A" { ID := "", Kind := "GitHub", Name := "octo" } = true ∧
    probe sampleLib (sampleClient [.ok "empty-id", .ok "app-b"]) [] "org" "octo" "A" =
      some "" ∧
    (sampleClient [.ok "empty-id", .ok "app-b"]).GetGithubAppId sampleLib [] "org" "octo"
        ["A", "B"] =
      (.ok "id-b",
        [endpointsRequest sampleLib (sampleClient [.ok "empty-id", .ok "app-b"]) "org" "A",
          endpointsRequest sampleLib (sampleClient [.ok "empty-id", .ok "app-b"]) "org" "B"]) :=
  ⟨rfl, rfl, rfl, rfl⟩

/-- C19: for non-empty org and githubOrg, `GetGithubAppId` returns no error, whatever the
server answers. When the request for the first team project fails or its answer does not
parse, the outcome is that of the search over the remaining team projects, entered after
that one request. When no team project yields an id (or only empty ones), the result is
`""` with no error, after one request per team project. -/
theorem getGithubAppId_never_fails (lib : Lib) (c : Client) (log : List Http.Request)
    (org githubOrg : String) (teamProjects : List String)
    (horg : org ≠ "") (hgithubOrg : githubOrg ≠ "") :
    (∃ id, (c.GetGithubAppId lib log org githubOrg teamProjects).1 = .ok id) ∧
    (∀ teamProject rest,
      ((∃ err, c.httpClient log (endpointsRequest lib c org teamProject) = .error err) ∨
        (∃ body err, c.httpClient log (endpointsRequest lib c org teamProject) = .ok body ∧
          lib.UnmarshalServiceEndpoints body = .error err)) →
      c.GetGithubAppId lib log org githubOrg (teamProject :: rest) =
        c.GetGithubAppId lib (log ++ [endpointsRequest lib c org teamProject]) org githubOrg
          rest) ∧
    ((∀ p x q, teamProjects = p ++ x :: q →
        ∀ id, probe lib c (log ++ p.map (endpointsRequest lib c org)) org githubOrg x = some id →
          id = "") →
      c.GetGithubAppId lib log org githubOrg teamProjects =
        (.ok "", log ++ teamProjects.map (endpointsRequest lib c org))) := by
  refine ⟨?_, ?_, ?_⟩
  · rw [getGithubAppId_eq_search lib c log org githubOrg _ horg hgithubOrg]
    exact search_ok lib c org githubOrg teamProjects log
  · intro teamProject rest hfail
    rw [getGithubAppId_eq_search lib c log org githubOrg _ horg hgithubOrg,
      getGithubAppId_eq_search lib c _ org githubOrg _ horg hgithubOrg]
    apply search_cons_skip
    intro id hp
    unfold probe at hp
    rcases hfail with ⟨err, h⟩ | ⟨body, err, h1, h2⟩
    · simp [h] at hp
    · simp [h1, h2] at hp
  · intro h
    have := search_append_skip lib c org githubOrg teamProjects [] log h
    rw [getGithubAppId_eq_search lib c log org githubOrg _ horg hgithubOrg]
    rw [List.append_nil] at this
    rw [this]
    rfl

/-- C19 witness: the request for the first team project fails, the answer for the second
does not parse and the listing of the third is empty; the result is `""` with no error,
after three requests. -/
theorem getGithubAppId_never_fails_witness :
    (sampleClient [.error "HTTP 500: ", .ok "garbage", .ok "no-endpoints"]).GetGithubAppId
        sampleLib [] "org" "octo" ["A", "B", "C"] =
      (.ok "",
        ["A", "B", "C"].map (endpointsRequest sampleLib
          (sampleClient [.error "HTTP 500: ", .ok "garbage", .ok "no-endpoints"]) "org")) ∧
    ∃ id, ((sampleClient [.error "HTTP 500: ", .ok "garbage", .ok "no-endpoints"]).GetGithubAppId
        sampleLib [] "org" "octo" ["A", "B", "C"]).1 = .ok id :=
  ⟨rfl,
    (getGithubAppId_never_fails sampleLib
      (sampleClient [.error "HTTP 500: ", .ok "garbage", .ok "no-endpoints"]) [] "org" "octo"
      ["A", "B", "C"] (by decide) (by decide)).1⟩

/-- The search over the team projects returns a non-empty id exactly when some team
project yields one at the log of the probes before it. -/
theorem search_nonempty_iff (lib : Lib) (c : Client) (org githubOrg : String)
    (teamProjects : List String) :
    ∀ log : List Http.Request,
      ((c.searchTeamProjects lib org githubOrg teamProjects log).1 ≠ .ok "" ↔
        ∃ p x q id, teamProjects = p ++ x :: q ∧
          probe lib c (log ++ p.map (endpointsRequest lib c org)) org githubOrg x = some id ∧
          id ≠ "") := by
  induction teamProjects with
  | nil =>
    intro log
    simp [Client.searchTeamProjects]
  | cons t ts ih =>
    intro log
    by_cases hhit : ∃ id, probe lib c log org githubOrg t = some id ∧ id ≠ ""
    · obtain ⟨id, hp, hid⟩ := hhit
      rw [search_cons_hit lib c log org githubOrg t id ts hp hid]
      constructor
      · intro _
        exact ⟨[], t, ts, id, rfl, by simpa using hp, hid⟩
      · intro _ h
        simp only [Except.ok.injEq] at h
        exact hid h
    · have hskip : ∀ id, probe lib c log org githubOrg t = some id → id = "" := by
        intro id hp
        by_contra hne
        exact hhit ⟨id, hp, hne⟩
      rw [search_cons_skip lib c log org githubOrg t ts hskip, ih]
      constructor
      · rintro ⟨p, x, q, id, hsplit, hp, hid⟩
        exact ⟨t :: p, x, q, id, by rw [hsplit]; rfl, by simpa using hp, hid⟩
      · rintro ⟨p, x, q, id, hsplit, hp, hid⟩
        cases p with
        | nil =>
          simp only [List.nil_append, List.cons.injEq] at hsplit
          obtain ⟨rfl, -⟩ := hsplit
          exact absurd (hskip id (by simpa using hp)) hid
        | cons a p =>
          simp only [List.cons_append, List.cons.injEq] at hsplit
          obtain ⟨rfl, rfl⟩ := hsplit
          exact ⟨p, x, q, id, rfl, by simpa using hp, hid⟩

/-- C30: the scan of a listing returns the id of its first matching endpoint, also when
that id is empty and a later endpoint of the listing matches with a non-empty id. For
non-empty org and githubOrg, a team project whose first matching endpoint has an empty id
is passed over like one without a match, and the search goes on with the next team
project; the id that `GetGithubAppId` returns is non-empty exactly when the first matching
endpoint of some team project, probed after those before it, has a non-empty id, and it is
`""` otherwise. -/
theorem getGithubAppId_empty_id_rule (lib : Lib) (c : Client) (log : List Http.Request)
    (org githubOrg : String) (horg : org ≠ "") (hgithubOrg : githubOrg ≠ "") :
    (∀ teamProject (before : List serviceEndpoint) (first : serviceEndpoint)
        (later : List serviceEndpoint),
      (∀ e ∈ before, matchesEndpoint lib githubOrg teamProject e = false) →
      matchesEndpoint lib githubOrg teamProject first = true →
      scanEndpoints lib githubOrg teamProject (before ++ first :: later) = first.ID) ∧
    (∀ teamProject rest,
      probe lib c log org githubOrg teamProject = some "" →
      c.GetGithubAppId lib log org githubOrg (teamProject :: rest) =
        c.GetGithubAppId lib (log ++ [endpointsRequest lib c org teamProject]) org githubOrg
          rest) ∧
    (∀ teamProjects,
      ((c.GetGithubAppId lib log org githubOrg teamProjects).1 ≠ .ok "" ↔
        ∃ p x q id, teamProjects = p ++ x :: q ∧
          probe lib c (log ++ p.map (endpointsRequest lib c org)) org githubOrg x = some id ∧
          id ≠ "") ∧
      ∃ id, (c.GetGithubAppId lib log org githubOrg teamProjects).1 = .ok id) := by
  refine ⟨?_, ?_, ?_⟩
  · intro teamProject before first later hbefore hfirst
    rw [scanEndpoints_eq_find]
    have hfind : List.find? (matchesEndpoint lib githubOrg teamProject)
        (before ++ first :: later) = some first := by
      induction before with
      | nil => simp [hfirst]
      | cons b bs ih =>
        have hb := hbefore b (List.mem_cons_self _ _)
        simp only [List.cons_append, List.find?_cons, hb]
        exact ih (fun e he => hbefore e (List.mem_cons_of_mem _ he))
    simp [hfind]
  · intro teamProject rest hp
    rw [getGithubAppId_eq_search lib c log org githubOrg _ horg hgithubOrg,
      getGithubAppId_eq_search lib c _ org githubOrg _ horg hgithubOrg]
    apply search_cons_skip
    intro id hid
    rw [hp] at hid
    exact (Option.some.inj hid).symm
  · intro teamProjects
    rw [getGithubAppId_eq_search lib c log org githubOrg _ horg hgithubOrg]
    exact ⟨search_nonempty_iff lib c org githubOrg teamProjects log,
      search_ok lib c org githubOrg teamProjects log⟩

/-- C30 witness: the listing of team project `A` holds, after an endpoint of another type,
a matching endpoint whose id is empty and then a matching endpoint with id `late`; the scan
returns `""`, `A` is passed over and the id of `B` is returned. -/
theorem getGithubAppId_empty_id_rule_witness :
    scanEndpoints sampleLibLate "octo" "A"
      [{ ID := "x", Kind := "Generic", Name := "octo" },
        { ID := "", Kind := "GitHub", Name := "octo" },
        { ID := "late", Kind := "GitHub", Name := "octo" }] = "" ∧
    probe sampleLibLate (sampleClient [.ok "empty-then-late", .ok "app-b"]) [] "org" "octo" "A" =
      some "" ∧
    (sampleClient [.ok "empty-then-late", .ok "app-b"]).GetGithubAppId sampleLibLate [] "org"
        "octo" ["A", "B"] =
      (.ok "id-b",
        [endpointsRequest sampleLibLate (sampleClient [.ok "empty-then-late", .ok "app-b"]) "org"
            "A",
          endpointsRequest sampleLibLate (sampleClient [.ok "empty-then-late", .ok "app-b"]) "org"
            "B"]) := by
  have h := getGithubAppId_empty_id_rule sampleLibLate
    (sampleClient [.ok "empty-then-late", .ok "app-b"]) [] "org" "octo" (by decide) (by decide)
  refine ⟨?_, rfl, ?_⟩
  · exact h.1 "A" [{ ID := "x", Kind := "Generic", Name := "octo" }]
      { ID := "", Kind := "GitHub", Name := "octo" }
      [{ ID := "late", Kind := "GitHub", Name := "octo" }]
      (by intro e he; simp only [List.mem_singleton] at he; subst he; rfl) rfl
  · exact (h.2.1 "A" ["B"] rfl).trans rfl

end Ado

/-! ## pkg/retry: the number of calls -/

namespace Retry

/-- A run of calls that all fail, up to the attempt bound. -/
theorem do_fail_run {σ : Type} (fn : σ → Option String × σ) (n : Nat) (s : Nat → σ)
    (e : Nat → String) :
    ∀ (m k fuel : Nat) (errorLog : List String),
      k + (m + 1) = n → m < fuel →
      (∀ i, k ≤ i → i < n → fn (s i) = (some (e i), s (i + 1))) →
      Do fn n fuel k errorLog (s k) =
        some (some (errorLog ++ (List.range' k (m + 1)).map e), s n) := by
  intro m
  induction m with
  | zero =>
    intro k fuel errorLog hk hfuel hfail
    obtain ⟨fuel, rfl⟩ : ∃ f, fuel = f + 1 := ⟨fuel - 1, by omega⟩
    unfold Do
    rw [hfail k (Nat.le_refl k) (by omega)]
    have hn : n ≠ 0 ∧ k + 1 = n := ⟨by omega, by omega⟩
    simp only [hn, and_self, if_true]
    rw [← hn.2]
    simp
  | succ m ih =>
    intro k fuel errorLog hk hfuel hfail
    obtain ⟨fuel, rfl⟩ : ∃ f, fuel = f + 1 := ⟨fuel - 1, by omega⟩
    unfold Do
    rw [hfail k (Nat.le_refl k) (by omega)]
    have hn : ¬ (n ≠ 0 ∧ k + 1 = n) := by omega
    simp only [hn, if_false]
    rw [ih (k + 1) fuel _ (by omega) (by omega)
      (fun i hi hin => hfail i (by omega) hin)]
    simp [List.range'_succ, List.append_assoc]

/-- A run of failing calls followed by a call that succeeds within the attempt bound. -/
theorem do_success_run {σ : Type} (fn : σ → Option String × σ) (n : Nat) (s : Nat → σ)
    (e : Nat → String) (t : σ) (j : Nat) :
    ∀ (m k fuel : Nat) (errorLog : List String),
      k + m = j → m < fuel → (n = 0 ∨ j < n) →
      (∀ i, k ≤ i → i < j → fn (s i) = (some (e i), s (i + 1))) →
      fn (s j) = (none, t) →
      Do fn n fuel k errorLog (s k) = some (none, t) := by
  intro m
  induction m with
  | zero =>
    intro k fuel errorLog hk hfuel _ _ hsucc
    obtain ⟨fuel, rfl⟩ : ∃ f, fuel = f + 1 := ⟨fuel - 1, by omega⟩
    obtain rfl : k = j := by omega
    unfold Do
    rw [hsucc]
  | succ m ih =>
    intro k fuel errorLog hk hfuel hn hfail hsucc
    obtain ⟨fuel, rfl⟩ : ∃ f, fuel = f + 1 := ⟨fuel - 1, by omega⟩
    unfold Do
    rw [hfail k (Nat.le_refl k) (by omega)]
    have hn2 : ¬ (n ≠ 0 ∧ k + 1 = n) := by omega
    simp only [hn2, if_false]
    exact ih (k + 1) fuel _ (by omega) (by omega) hn
      (fun i hi hij => hfail i (by omega) hij) hsucc

theorem stateAt_counted {σ : Type} (fn : σ → Option String × σ) (s : σ) (c : Nat) (i : Nat) :
    stateAt (counted fn) (s, c) i = (stateAt fn s i, c + i) := by
  induction i with
  | zero => rfl
  | succ i ih =>
    rw [stateAt, ih]
    rfl

/-- A failing call of the operation with a counter, in terms of the operation. -/
theorem counted_fail {σ : Type} (fn : σ → Option String × σ) (s : σ) (i : Nat)
    (h : outcomeAt fn s i ≠ none) :
    counted fn (stateAt fn s i, i) =
      (some ((outcomeAt fn s i).getD ""), (stateAt fn s (i + 1), i + 1)) := by
  unfold outcomeAt at h ⊢
  unfold counted
  cases hf : (fn (stateAt fn s i)).1 with
  | none => exact absurd hf h
  | some err => simp [stateAt, hf]

/-- C21: for a policy of `n ≥ 1` attempts and enough fuel for them: an operation whose
first `n` calls all fail is invoked exactly `n` times and `Execute` returns an error (the
`n` errors of the calls); an operation that first succeeds on its `k`-th call, `1 ≤ k ≤ n`,
is invoked exactly `k` times and `Execute` returns nil. The count of invocations is the
counter of `counted fn`, and the operation is left in its state after that many calls.
A policy built by `New` with no options has 3 attempts. -/
theorem execute_invocations {σ : Type} (p : Policy) (fn : σ → Option String × σ) (s : σ)
    (fuel : Nat) (hn : 1 ≤ p.maxAttempts) (hfuel : p.maxAttempts ≤ fuel) :
    ((∀ i, i < p.maxAttempts → outcomeAt fn s i ≠ none) →
      ∃ errs : List String,
        p.Execute (counted fn) fuel (s, 0) =
          some (some errs, (stateAt fn s p.maxAttempts, p.maxAttempts)) ∧
        errs = (List.range p.maxAttempts).map (fun i => (outcomeAt fn s i).getD "")) ∧
    (∀ k, 1 ≤ k → k ≤ p.maxAttempts →
      (∀ i, i < k - 1 → outcomeAt fn s i ≠ none) → outcomeAt fn s (k - 1) = none →
      p.Execute (counted fn) fuel (s, 0) = some (none, (stateAt fn s k, k))) ∧
    (New []).maxAttempts = 3 := by
  refine ⟨?_, ?_, rfl⟩
  · intro hfail
    refine ⟨_, ?_, rfl⟩
    unfold Policy.Execute
    have h := do_fail_run (counted fn) p.maxAttempts (fun i => (stateAt fn s i, i))
      (fun i => (outcomeAt fn s i).getD "") (p.maxAttempts - 1) 0 fuel []
      (by omega) (by omega)
      (fun i _ hi => counted_fail fn s i (hfail i hi))
    rw [show p.maxAttempts - 1 + 1 = p.maxAttempts by omega] at h
    simpa [List.range_eq_range'] using h
  · intro k hk1 hkn hfail hsucc
    unfold Policy.Execute
    have h := do_success_run (counted fn) p.maxAttempts (fun i => (stateAt fn s i, i))
      (fun i => (outcomeAt fn s i).getD "") (stateAt fn s k, k) (k - 1) (k - 1) 0 fuel []
      (by omega) (by omega) (Or.inr (by omega))
      (fun i _ hi => counted_fail fn s i (hfail i hi))
      (by
        unfold outcomeAt at hsucc
        obtain ⟨k, rfl⟩ : ∃ j, k = j + 1 := ⟨k - 1, by omega⟩
        simp only [Nat.add_sub_cancel] at hsucc ⊢
        simp [counted, stateAt, hsucc])
    simpa using h

/-- C21 witness: under the default policy of 3 attempts, the sample operation that never
succeeds is invoked 3 times and `Execute` returns the 3 errors; the one that succeeds on
its second call is invoked twice and `Execute` returns nil. -/
theorem execute_invocations_witness :
    (New []).Execute (counted (sampleOp 5)) 3 (0, 0) =
      some (some ["failure 0", "failure 1", "failure 2"], (3, 3)) ∧
    (New []).Execute (counted (sampleOp 1)) 3 (0, 0) = some (none, (2, 2)) := by
  have h := execute_invocations (New []) (sampleOp 5) 0 3 (by decide) (by decide)
  have h2 := execute_invocations (New []) (sampleOp 1) 0 3 (by decide) (by decide)
  constructor
  · obtain ⟨errs, h1, herrs⟩ := h.1 (by
      intro i hi
      have hi3 : i < 3 := hi
      interval_cases i <;> simp [outcomeAt, stateAt, sampleOp])
    rw [h1, herrs]
    rfl
  · exact (h2.2.1 2 (by decide) (by decide)
      (by
        intro i hi
        obtain rfl : i = 0 := by omega
        simp [outcomeAt, stateAt, sampleOp])
      rfl).trans rfl

/-- C22: `IsRetryableHTTPStatus` is true exactly for the members of
`HTTPRetryableStatusCodes`, which are 408, 429, 500, 502, 503 and 504; it is false for
every code from 200 to 299 and for 400, 401, 403 and 404. -/
theorem isRetryableHTTPStatus_iff (s : Int) :
    (IsRetryableHTTPStatus s = true ↔ s ∈ HTTPRetryableStatusCodes) ∧
    HTTPRetryableStatusCodes = [408, 429, 500, 502, 503, 504] ∧
    (IsRetryableHTTPStatus s = true ↔
      s = 408 ∨ s = 429 ∨ s = 500 ∨ s = 502 ∨ s = 503 ∨ s = 504) ∧
    (200 ≤ s ∧ s ≤ 299 → IsRetryableHTTPStatus s = false) ∧
    IsRetryableHTTPStatus 400 = false ∧ IsRetryableHTTPStatus 401 = false ∧
    IsRetryableHTTPStatus 403 = false ∧ IsRetryableHTTPStatus 404 = false := by
  have h : IsRetryableHTTPStatus s = true ↔
      s = 408 ∨ s = 429 ∨ s = 500 ∨ s = 502 ∨ s = 503 ∨ s = 504 := by
    simp [IsRetryableHTTPStatus, HTTPRetryableStatusCodes]
  refine ⟨?_, rfl, h, ?_, by decide, by decide, by decide, by decide⟩
  · simp [IsRetryableHTTPStatus, HTTPRetryableStatusCodes]
  · intro hs
    cases hr : IsRetryableHTTPStatus s with
    | false => rfl
    | true => exact absurd (h.1 hr) (by omega)

/-- The states of the closure of `ExecuteWithResult` along a run. -/
theorem resultClosure_step {σ T : Type} (fn : σ → (T × Option String) × σ) (zero : T) (s : σ)
    (i : Nat) :
    resultClosure fn
        (match i with
          | 0 => { result := zero, lastErr := none, inner := s }
          | j + 1 => { result := resultAt fn s j, lastErr := outcomeAt (erase fn) s j,
                       inner := stateAt (erase fn) s (j + 1) }) =
      (outcomeAt (erase fn) s i,
        { result := resultAt fn s i, lastErr := outcomeAt (erase fn) s i,
          inner := stateAt (erase fn) s (i + 1) }) := by
  cases i <;> rfl

/-- C28: for a policy of `n ≥ 1` attempts and enough fuel for them: when the function first
succeeds on its `k`-th call, `1 ≤ k ≤ n`, `ExecuteWithResult` returns the result of that
call and a nil error, after `k` calls; when its first `n` calls all fail, it returns an
error with the message `retry failed after <n> attempts: <error of the n-th call>`,
after `n` calls. -/
theorem executeWithResult_outcome {σ T : Type} (zero : T) (p : Policy)
    (fn : σ → (T × Option String) × σ) (s : σ) (fuel : Nat)
    (hn : 1 ≤ p.maxAttempts) (hfuel : p.maxAttempts ≤ fuel) :
    (∀ k, 1 ≤ k → k ≤ p.maxAttempts →
      (∀ i, i < k - 1 → outcomeAt (erase fn) s i ≠ none) →
      outcomeAt (erase fn) s (k - 1) = none →
      ExecuteWithResult zero p fn fuel s =
        some ((resultAt fn s (k - 1), none), stateAt (erase fn) s k)) ∧
    ((∀ i, i < p.maxAttempts → outcomeAt (erase fn) s i ≠ none) →
      ∃ lastErr, outcomeAt (erase fn) s (p.maxAttempts - 1) = some lastErr ∧
        ExecuteWithResult zero p fn fuel s =
          some ((resultAt fn s (p.maxAttempts - 1),
            some ("retry failed after " ++ toString p.maxAttempts ++ " attempts: " ++ lastErr)),
            stateAt (erase fn) s p.maxAttempts)) := by
  have hstep : ∀ i, outcomeAt (erase fn) s i ≠ none →
      resultClosure fn
          (match i with
            | 0 => { result := zero, lastErr := none, inner := s }
            | j + 1 => { result := resultAt fn s j, lastErr := outcomeAt (erase fn) s j,
                         inner := stateAt (erase fn) s (j + 1) }) =
        (some ((outcomeAt (erase fn) s i).getD ""),
          { result := resultAt fn s i, lastErr := outcomeAt (erase fn) s i,
            inner := stateAt (erase fn) s (i + 1) }) := by
    intro i hi
    rw [resultClosure_step]
    cases h : outcomeAt (erase fn) s i with
    | none => exact absurd h hi
    | some err => rfl
  constructor
  · intro k hk1 hkn hfail hsucc
    obtain ⟨k, rfl⟩ : ∃ j, k = j + 1 := ⟨k - 1, by omega⟩
    simp only [Nat.add_sub_cancel] at hfail hsucc ⊢
    have h := do_success_run (resultClosure fn) p.maxAttempts
      (fun i => match i with
        | 0 => { result := zero, lastErr := none, inner := s }
        | j + 1 => { result := resultAt fn s j, lastErr := outcomeAt (erase fn) s j,
                     inner := stateAt (erase fn) s (j + 1) })
      (fun i => (outcomeAt (erase fn) s i).getD "")
      { result := resultAt fn s k, lastErr := outcomeAt (erase fn) s k,
        inner := stateAt (erase fn) s (k + 1) } k k 0 fuel []
      (by omega) (by omega) (Or.inr (by omega))
      (fun i _ hi => hstep i (hfail i hi))
      (by rw [resultClosure_step, hsucc])
    unfold ExecuteWithResult Policy.Execute
    simp only []
    rw [h]
  · intro hfail
    obtain ⟨m, hm⟩ : ∃ m, p.maxAttempts = m + 1 := ⟨p.maxAttempts - 1, by omega⟩
    have hlast := hfail m (by omega)
    obtain ⟨lastErr, hlastErr⟩ : ∃ e, outcomeAt (erase fn) s m = some e := by
      cases h : outcomeAt (erase fn) s m with
      | none => exact absurd h hlast
      | some e => exact ⟨e, rfl⟩
    refine ⟨lastErr, by rw [hm, Nat.add_sub_cancel]; exact hlastErr, ?_⟩
    have h := do_fail_run (resultClosure fn) p.maxAttempts
      (fun i => match i with
        | 0 => { result := zero, lastErr := none, inner := s }
        | j + 1 => { result := resultAt fn s j, lastErr := outcomeAt (erase fn) s j,
                     inner := stateAt (erase fn) s (j + 1) })
      (fun i => (outcomeAt (erase fn) s i).getD "") m 0 fuel []
      (by omega) (by omega)
      (fun i _ hi => hstep i (hfail i hi))
    unfold ExecuteWithResult Policy.Execute
    simp only []
    rw [h, hm]
    simp only [Nat.add_sub_cancel, hlastErr]

/-- C28 witness: under the default policy of 3 attempts, the sample function that succeeds
on its second call yields the result of that call and no error; the one that never succeeds
yields the error `retry failed after 3 attempts: failure 2`. -/
theorem executeWithResult_outcome_witness :
    ExecuteWithResult 0 (New []) (sampleFn 1) 3 0 = some ((1, none), 2) ∧
    ExecuteWithResult 0 (New []) (sampleFn 5) 3 0 =
      some ((2, some "retry failed after 3 attempts: failure 2"), 3) := by
  have h := executeWithResult_outcome 0 (New []) (sampleFn 1) 0 3 (by decide) (by decide)
  have h2 := executeWithResult_outcome 0 (New []) (sampleFn 5) 0 3 (by decide) (by decide)
  constructor
  · exact (h.1 2 (by decide) (by decide)
      (by
        intro i hi
        obtain rfl : i = 0 := by omega
        simp [outcomeAt, stateAt, erase, sampleFn])
      rfl).trans rfl
  · obtain ⟨lastErr, hlast, h3⟩ := h2.2 (by
      intro i hi
      have hi3 : i < 3 := hi
      interval_cases i <;> simp [outcomeAt, stateAt, erase, sampleFn])
    have hfailure : outcomeAt (erase (sampleFn 5)) 0 ((New []).maxAttempts - 1) =
        some "failure 2" := rfl
    obtain rfl : "failure 2" = lastErr := Option.some.inj (hfailure.symm.trans hlast)
    exact h3.trans rfl

end Retry

/-! ## cmd/gei: the version gate and the validation of options -/

namespace Gei

/-- C23: `isGHESVersionAtLeast` is true exactly when the version string splits on `.` into
at least three components of which the first three parse as integers `a`, `b`, `c` with
`(a, b, c) ≥ (major, minor, patch)` in lexicographic order (that is `a > major`, or
`a = major` and `b > minor`, or `a = major`, `b = minor` and `c ≥ patch`). It is false, and
no error can arise, when there are fewer than three components or one of the first three
is not numeric. With the minimum (3, 8, 0): `3.8.0` gives true, `3.7.9` and `3.8` give
false. -/
theorem isGHESVersionAtLeast_iff (v : String) (major minor patch : Int) :
    (isGHESVersionAtLeast v major minor patch = true ↔
      ∃ (p0 p1 p2 : String) (rest : List String) (a b c : Int),
        stringsSplit v '.' = p0 :: p1 :: p2 :: rest ∧
        strconvAtoi p0 = some a ∧ strconvAtoi p1 = some b ∧ strconvAtoi p2 = some c ∧
        toLex (major, toLex (minor, patch)) ≤ toLex (a, toLex (b, c))) ∧
    (∀ a b c : Int,
      toLex (major, toLex (minor, patch)) ≤ toLex (a, toLex (b, c)) ↔
        a > major ∨ (a = major ∧ b > minor) ∨ (a = major ∧ b = minor ∧ c ≥ patch)) ∧
    ((stringsSplit v '.').length < 3 → isGHESVersionAtLeast v major minor patch = false) ∧
    (∀ (p0 p1 p2 : String) (rest : List String),
      stringsSplit v '.' = p0 :: p1 :: p2 :: rest →
      strconvAtoi p0 = none ∨ strconvAtoi p1 = none ∨ strconvAtoi p2 = none →
      isGHESVersionAtLeast v major minor patch = false) ∧
    isGHESVersionAtLeast "3.8.0" 3 8 0 = true ∧
    isGHESVersionAtLeast "3.7.9" 3 8 0 = false ∧
    isGHESVersionAtLeast "3.8" 3 8 0 = false := by
  have hlex : ∀ a b c : Int,
      toLex (major, toLex (minor, patch)) ≤ toLex (a, toLex (b, c)) ↔
        a > major ∨ (a = major ∧ b > minor) ∨ (a = major ∧ b = minor ∧ c ≥ patch) := by
    intro a b c
    rw [Prod.Lex.le_iff]
    simp only [ofLex_toLex]
    rw [Prod.Lex.le_iff]
    simp only [ofLex_toLex]
    constructor
    · rintro (h | ⟨h1, h | ⟨h2, h3⟩⟩)
      · exact Or.inl h
      · exact Or.inr (Or.inl ⟨h1.symm, h⟩)
      · exact Or.inr (Or.inr ⟨h1.symm, h2.symm, h3⟩)
    · rintro (h | ⟨h1, h⟩ | ⟨h1, h2, h3⟩)
      · exact Or.inl h
      · exact Or.inr ⟨h1.symm, Or.inl h⟩
      · exact Or.inr ⟨h1.symm, Or.inr ⟨h2.symm, h3⟩⟩
  refine ⟨?_, hlex, ?_, ?_, by decide, by decide, by decide⟩
  · unfold isGHESVersionAtLeast
    simp only []
    constructor
    · intro h
      split at h
      · exact absurd h (by simp)
      · rename_i hlen
        obtain ⟨p0, p1, p2, rest, hparts⟩ :
            ∃ p0 p1 p2 rest, stringsSplit v '.' = p0 :: p1 :: p2 :: rest := by
          match hs : stringsSplit v '.' with
          | [] => simp [hs] at hlen
          | [_] => simp [hs] at hlen
          | [_, _] => simp [hs] at hlen
          | p0 :: p1 :: p2 :: rest => exact ⟨p0, p1, p2, rest, rfl⟩
        rw [hparts] at h
        simp only [List.getD_cons_zero, List.getD_cons_succ] at h
        split at h
        · exact absurd h (by simp)
        · rename_i a ha
          split at h
          · exact absurd h (by simp)
          · rename_i b hb
            split at h
            · exact absurd h (by simp)
            · rename_i c hc
              refine ⟨p0, p1, p2, rest, a, b, c, hparts, ha, hb, hc, (hlex a b c).2 ?_⟩
              by_cases h1 : a > major
              · exact Or.inl h1
              · by_cases h2 : a = major ∧ b > minor
                · exact Or.inr (Or.inl h2)
                · by_cases h3 : a = major ∧ b = minor ∧ c ≥ patch
                  · exact Or.inr (Or.inr h3)
                  · simp [h1, h2, h3] at h
    · rintro ⟨p0, p1, p2, rest, a, b, c, hparts, ha, hb, hc, hle⟩
      have hcmp := (hlex a b c).1 hle
      rw [hparts]
      simp only [List.length_cons, List.getD_cons_zero, List.getD_cons_succ, ha, hb, hc]
      rw [if_neg (by omega)]
      by_cases h1 : a > major
      · simp [h1]
      · by_cases h2 : a = major ∧ b > minor
        · simp [h1, h2]
        · rcases hcmp with h | h | h
          · exact absurd h h1
          · exact absurd h h2
          · simp [h1, h2, h]
  · intro hlen
    unfold isGHESVersionAtLeast
    simp only [hlen, if_true]
  · intro p0 p1 p2 rest hparts hnone
    unfold isGHESVersionAtLeast
    simp only []
    rw [hparts]
    simp only [List.length_cons, List.getD_cons_zero, List.getD_cons_succ]
    rw [if_neg (by omega)]
    rcases hnone with h | h | h
    · rw [h]
    · rw [h]
      split <;> rfl
    · rw [h]
      split
      · rfl
      · split <;> rfl

theorem validateGenerateScriptOptions_eq (sys : Sys) (opts : generateScriptOptions) :
    validateGenerateScriptOptions sys opts =
      if stringsContains opts.githubSourceOrg "://" = true ∨
          stringsHasPrefix opts.githubSourceOrg "http" = true then
        .error "--github-source-org expects an organization name, not a URL. Please provide just the organization name (e.g., 'my-org' instead of 'https://github.com/my-org')"
      else if stringsContains opts.githubTargetOrg "://" = true ∨
          stringsHasPrefix opts.githubTargetOrg "http" = true then
        .error "--github-target-org expects an organization name, not a URL. Please provide just the organization name (e.g., 'my-org' instead of 'https://github.com/my-org')"
      else if opts.awsBucketName ≠ "" ∧ opts.ghesAPIURL = "" then
        .error "--ghes-api-url must be specified when --aws-bucket-name is specified"
      else if opts.awsBucketName ≠ "" ∧ opts.useGithubStorage = true then
        .error "the --use-github-storage flag was provided with an AWS S3 Bucket name. Archive cannot be uploaded to both locations"
      else if opts.noSSLVerify = true ∧ opts.ghesAPIURL = "" then
        .error "--ghes-api-url must be specified when --no-ssl-verify is specified"
      else if opts.useGithubStorage = true ∧ opts.ghesAPIURL = "" then
        .error "--ghes-api-url must be specified when --use-github-storage is specified"
      else if opts.ghesAPIURL ≠ "" ∧ (sys.ParseRequestURI opts.ghesAPIURL).isSome = true then
        .error "--ghes-api-url is invalid. Please check URL before trying again"
      else .ok () := by
  unfold validateGenerateScriptOptions
  simp only [bind, Except.bind, throw, throwThe, MonadExceptOf.throw, pure, Except.pure,
    Bool.or_eq_true, Bool.and_eq_true, decide_eq_true_eq]
  by_cases h1 : stringsContains opts.githubSourceOrg "://" = true ∨
      stringsHasPrefix opts.githubSourceOrg "http" = true
  · simp only [h1, if_true]
  by_cases h2 : stringsContains opts.githubTargetOrg "://" = true ∨
      stringsHasPrefix opts.githubTargetOrg "http" = true
  · simp only [h1, h2, if_true, if_false]
  by_cases h3 : opts.awsBucketName = "" <;> by_cases h4 : opts.ghesAPIURL = "" <;>
    by_cases h5 : opts.useGithubStorage = true <;> by_cases h6 : opts.noSSLVerify = true <;>
    by_cases h7 : (sys.ParseRequestURI opts.ghesAPIURL).isSome = true <;>
    simp [h1, h2, h3, h4, h5, h6, h7]

/-- The model of `strings.Contains` holds exactly when `substr` occurs in `s`. -/
theorem stringsContains_iff (s substr : String) :
    stringsContains s substr = true ↔ ∃ pre post : String, s = pre ++ substr ++ post := by
  unfold stringsContains
  rw [List.any_eq_true]
  constructor
  · rintro ⟨t, ht, hp⟩
    obtain ⟨pre, hpre⟩ := (List.mem_tails _ _).1 ht
    obtain ⟨post, hpost⟩ := List.isPrefixOf_iff_prefix.1 hp
    refine ⟨String.mk pre, String.mk post, ?_⟩
    rw [String.ext_iff, ← hpre, ← hpost]
    simp [List.append_assoc]
  · rintro ⟨pre, post, rfl⟩
    refine ⟨substr.data ++ post.data, (List.mem_tails _ _).2 ⟨pre.data, by simp⟩, ?_⟩
    exact List.isPrefixOf_iff_prefix.2 ⟨post.data, rfl⟩

/-- The model of `strings.HasPrefix` holds exactly when `s` starts with `p`. -/
theorem stringsHasPrefix_iff (s p : String) :
    stringsHasPrefix s p = true ↔ ∃ post : String, s = p ++ post := by
  unfold stringsHasPrefix
  rw [List.isPrefixOf_iff_prefix]
  constructor
  · rintro ⟨post, h⟩
    exact ⟨String.mk post, by simp [String.ext_iff, h]⟩
  · rintro ⟨post, rfl⟩
    exact ⟨post.data, by simp⟩

/-- C27: `validateGenerateScriptOptions` returns the source-org error whenever the source
org contains `://` or starts with `http`; else the target-org error whenever the target org
does; and an error whenever `--aws-bucket-name` is given without `--ghes-api-url` or together
with `--use-github-storage`, or `--no-ssl-verify` or `--use-github-storage` is given without
`--ghes-api-url` (one of the four storage errors when both org names pass). Whenever it
returns nil, neither org name is a URL, a bucket name implies a GHES API URL and no GitHub
storage, and `noSSLVerify` and `useGithubStorage` each imply a GHES API URL. An error of the
validation is returned by `runGenerateScript` unchanged, before any request. -/
theorem validate_options_rule (sys : Sys) (opts : generateScriptOptions) :
    (orgIsURL opts.githubSourceOrg = true →
      validateGenerateScriptOptions sys opts =
        .error "--github-source-org expects an organization name, not a URL. Please provide just the organization name (e.g., 'my-org' instead of 'https://github.com/my-org')") ∧
    (orgIsURL opts.githubSourceOrg = false → orgIsURL opts.githubTargetOrg = true →
      validateGenerateScriptOptions sys opts =
        .error "--github-target-org expects an organization name, not a URL. Please provide just the organization name (e.g., 'my-org' instead of 'https://github.com/my-org')") ∧
    ((opts.awsBucketName ≠ "" ∧ opts.ghesAPIURL = "") ∨
        (opts.awsBucketName ≠ "" ∧ opts.useGithubStorage = true) ∨
        (opts.noSSLVerify = true ∧ opts.ghesAPIURL = "") ∨
        (opts.useGithubStorage = true ∧ opts.ghesAPIURL = "") →
      ∃ err, validateGenerateScriptOptions sys opts = .error err ∧
        (orgIsURL opts.githubSourceOrg = false → orgIsURL opts.githubTargetOrg = false →
          err ∈ ["--ghes-api-url must be specified when --aws-bucket-name is specified",
            "the --use-github-storage flag was provided with an AWS S3 Bucket name. Archive cannot be uploaded to both locations",
            "--ghes-api-url must be specified when --no-ssl-verify is specified",
            "--ghes-api-url must be specified when --use-github-storage is specified"])) ∧
    (validateGenerateScriptOptions sys opts = .ok () →
      orgIsURL opts.githubSourceOrg = false ∧ orgIsURL opts.githubTargetOrg = false ∧
      (opts.awsBucketName ≠ "" → opts.ghesAPIURL ≠ "" ∧ opts.useGithubStorage = false) ∧
      (opts.noSSLVerify = true → opts.ghesAPIURL ≠ "") ∧
      (opts.useGithubStorage = true → opts.ghesAPIURL ≠ "")) ∧
    (∀ org : String, orgIsURL org = true ↔
      (∃ pre post : String, org = pre ++ "://" ++ post) ∨ ∃ post : String, org = "http" ++ post) ∧
    (∀ (err : String) (fuel : Nat), validateGenerateScriptOptions sys opts = .error err →
      runGenerateScript sys opts fuel =
        some { err := some err, requests := [], written := none }) := by
  have heq := validateGenerateScriptOptions_eq sys opts
  have hurl : ∀ org : String, orgIsURL org = true ↔
      (stringsContains org "://" = true ∨ stringsHasPrefix org "http" = true) := by
    intro org
    simp [orgIsURL]
  have hnot : ∀ org : String, orgIsURL org = false →
      ¬ (stringsContains org "://" = true ∨ stringsHasPrefix org "http" = true) := by
    intro org h hc
    rw [(hurl org).2 hc] at h
    exact Bool.noConfusion h
  refine ⟨?_, ?_, ?_, ?_, ?_, ?_⟩
  · intro h
    rw [heq, if_pos ((hurl _).1 h)]
  · intro h1 h2
    rw [heq, if_neg (hnot _ h1), if_pos ((hurl _).1 h2)]
  · intro hviol
    rw [heq]
    by_cases h1 : stringsContains opts.githubSourceOrg "://" = true ∨
        stringsHasPrefix opts.githubSourceOrg "http" = true
    · exact ⟨_, by rw [if_pos h1], fun hs => absurd h1 (hnot _ hs)⟩
    rw [if_neg h1]
    by_cases h2 : stringsContains opts.githubTargetOrg "://" = true ∨
        stringsHasPrefix opts.githubTargetOrg "http" = true
    · exact ⟨_, by rw [if_pos h2], fun _ ht => absurd h2 (hnot _ ht)⟩
    rw [if_neg h2]
    by_cases h3 : opts.awsBucketName ≠ "" ∧ opts.ghesAPIURL = ""
    · exact ⟨_, by rw [if_pos h3], fun _ _ => by simp⟩
    rw [if_neg h3]
    by_cases h4 : opts.awsBucketName ≠ "" ∧ opts.useGithubStorage = true
    · exact ⟨_, by rw [if_pos h4], fun _ _ => by simp⟩
    rw [if_neg h4]
    by_cases h5 : opts.noSSLVerify = true ∧ opts.ghesAPIURL = ""
    · exact ⟨_, by rw [if_pos h5], fun _ _ => by simp⟩
    rw [if_neg h5]
    by_cases h6 : opts.useGithubStorage = true ∧ opts.ghesAPIURL = ""
    · exact ⟨_, by rw [if_pos h6], fun _ _ => by simp⟩
    rcases hviol with h | h | h | h
    · exact absurd h h3
    · exact absurd h h4
    · exact absurd h h5
    · exact absurd h h6
  · intro hok
    rw [heq] at hok
    by_cases h1 : stringsContains opts.githubSourceOrg "://" = true ∨
        stringsHasPrefix opts.githubSourceOrg "http" = true
    · rw [if_pos h1] at hok; cases hok
    rw [if_neg h1] at hok
    by_cases h2 : stringsContains opts.githubTargetOrg "://" = true ∨
        stringsHasPrefix opts.githubTargetOrg "http" = true
    · rw [if_pos h2] at hok; cases hok
    rw [if_neg h2] at hok
    by_cases h3 : opts.awsBucketName ≠ "" ∧ opts.ghesAPIURL = ""
    · rw [if_pos h3] at hok; cases hok
    rw [if_neg h3] at hok
    by_cases h4 : opts.awsBucketName ≠ "" ∧ opts.useGithubStorage = true
    · rw [if_pos h4] at hok; cases hok
    rw [if_neg h4] at hok
    by_cases h5 : opts.noSSLVerify = true ∧ opts.ghesAPIURL = ""
    · rw [if_pos h5] at hok; cases hok
    rw [if_neg h5] at hok
    by_cases h6 : opts.useGithubStorage = true ∧ opts.ghesAPIURL = ""
    · rw [if_pos h6] at hok; cases hok
    refine ⟨?_, ?_, ?_, ?_, ?_⟩
    · cases h : orgIsURL opts.githubSourceOrg with
      | false => rfl
      | true => exact absurd ((hurl _).1 h) h1
    · cases h : orgIsURL opts.githubTargetOrg with
      | false => rfl
      | true => exact absurd ((hurl _).1 h) h2
    · intro ha
      refine ⟨fun hg => h3 ⟨ha, hg⟩, ?_⟩
      cases hu : opts.useGithubStorage with
      | false => rfl
      | true => exact absurd ⟨ha, hu⟩ h4
    · intro hn hg
      exact h5 ⟨hn, hg⟩
    · intro hu hg
      exact h6 ⟨hu, hg⟩
  · intro org
    rw [hurl, stringsContains_iff, stringsHasPrefix_iff]
  · intro err fuel herr
    unfold runGenerateScript
    rw [herr]

/-- C27 witness: a source org given as a URL is rejected with the source-org error, also when
the target org is a URL and a bucket name is given without a GHES API URL; the sample
options pass, and they name a GHES API URL. -/
theorem validate_options_rule_witness :
    validateGenerateScriptOptions (sampleSys "3.8.0")
        { sampleOpts with githubSourceOrg := "https://github.com/my-org",
                          githubTargetOrg := "http-org", awsBucketName := "bucket",
                          ghesAPIURL := "" } =
      .error "--github-source-org expects an organization name, not a URL. Please provide just the organization name (e.g., 'my-org' instead of 'https://github.com/my-org')" ∧
    validateGenerateScriptOptions (sampleSys "3.8.0") sampleOpts = .ok () ∧
    orgIsURL sampleOpts.githubSourceOrg = false ∧ orgIsURL sampleOpts.githubTargetOrg = false :=
  ⟨(validate_options_rule (sampleSys "3.8.0")
      { sampleOpts with githubSourceOrg := "https://github.com/my-org",
                        githubTargetOrg := "http-org", awsBucketName := "bucket",
                        ghesAPIURL := "" }).1 (by decide),
    rfl,
    ((validate_options_rule (sampleSys "3.8.0") sampleOpts).2.2.2.1 rfl).1,
    ((validate_options_rule (sampleSys "3.8.0") sampleOpts).2.2.2.1 rfl).2.1⟩

/-- The steps of `runGenerateScript`, with the PAT and the client of the source named. -/
theorem runGenerateScript_eq (sys : Sys) (opts : generateScriptOptions) (fuel : Nat) :
    runGenerateScript sys opts fuel =
      match validateGenerateScriptOptions sys opts with
      | .error err => some { err := some err, requests := [], written := none }
      | .ok () =>
        if githubPATOf sys opts = "" then
          some { err := some "GH_PAT or GH_SOURCE_PAT environment variable must be set",
                 requests := [], written := none }
        else
          match (sourceClient sys opts).GetRepos sys.lib fuel [] opts.githubSourceOrg with
          | none => none
          | some (.error err, log) =>
            some { err := some ("failed to get repositories: " ++ err), requests := log,
                   written := none }
          | some (.ok repos, log) =>
            if repos.length = 0 then
              some { err := some "a migration script could not be generated because no migratable repos were found",
                     requests := log, written := none }
            else
              match sys.WriteFile opts.output
                (Scriptgen.NewGenerator
                  (generatorOptions sys opts
                    (blobCredentialsRequired sys opts (sourceClient sys opts) log).1)
                  (repos.map (fun repo =>
                    { Name := repo.Name, Visibility := repo.Visibility }))).Generate with
              | some err =>
                some { err := some ("failed to write script: " ++ err),
                       requests := (blobCredentialsRequired sys opts (sourceClient sys opts)
                         log).2,
                       written := none }
              | none =>
                some { err := none,
                       requests := (blobCredentialsRequired sys opts (sourceClient sys opts)
                         log).2,
                       written := some (opts.output,
                         (Scriptgen.NewGenerator
                           (generatorOptions sys opts
                             (blobCredentialsRequired sys opts (sourceClient sys opts) log).1)
                           (repos.map (fun repo =>
                             { Name := repo.Name, Visibility := repo.Visibility }))).Generate) } :=
  rfl

/-- C26: the flag `blobCredentialsRequired` is false, and no request is made, when no GHES
API URL is given. When one is given, the flag is false exactly when `GetVersion` succeeds
with a non-empty version for which `isGHESVersionAtLeast version 3 8 0` holds, and true
otherwise. When `runGenerateScript` writes a script, it is the script of the generator
built with the options `generatorOptions`, whose field `BlobCredentialsRequired` is this
flag, computed with the client of the source after the requests of `GetRepos`. -/
theorem blobCredentialsRequired_rule (sys : Sys) (opts : generateScriptOptions) :
    (∀ (githubClient : Github.Client) (log : List Http.Request),
      (opts.ghesAPIURL = "" →
        blobCredentialsRequired sys opts githubClient log = (false, log)) ∧
      (opts.ghesAPIURL ≠ "" →
        ((blobCredentialsRequired sys opts githubClient log).1 = false ↔
          ∃ versionInfo,
            (githubClient.GetVersion sys.UnmarshalObject log).1 = .ok versionInfo ∧
            versionInfo.Version ≠ "" ∧
            isGHESVersionAtLeast versionInfo.Version 3 8 0 = true) ∧
        (blobCredentialsRequired sys opts githubClient log).2 =
          (githubClient.GetVersion sys.UnmarshalObject log).2)) ∧
    (∀ blob, (generatorOptions sys opts blob).BlobCredentialsRequired = blob) ∧
    (∀ (fuel : Nat) (run : Run) (path script : String),
      runGenerateScript sys opts fuel = some run → run.written = some (path, script) →
      ∃ (repos : List Github.Repo) (log : List Http.Request),
        (sourceClient sys opts).GetRepos sys.lib fuel [] opts.githubSourceOrg =
          some (.ok repos, log) ∧
        script =
          (Scriptgen.NewGenerator
            (generatorOptions sys opts
              (blobCredentialsRequired sys opts (sourceClient sys opts) log).1)
            (repos.map (fun repo =>
              { Name := repo.Name, Visibility := repo.Visibility }))).Generate) := by
  refine ⟨?_, fun _ => rfl, ?_⟩
  · intro githubClient log
    constructor
    · intro h
      simp [blobCredentialsRequired, h]
    · intro h
      unfold blobCredentialsRequired
      simp only [h, ne_eq, not_false_eq_true, if_true]
      generalize githubClient.GetVersion sys.UnmarshalObject log = r
      obtain ⟨r1, r2⟩ := r
      cases r1 with
      | error e => simp
      | ok versionInfo =>
        by_cases hv : versionInfo.Version = ""
        · simp [hv]
        · cases hge : isGHESVersionAtLeast versionInfo.Version 3 8 0 <;> simp [hv, hge]
  · intro fuel run path script hrun hwritten
    rw [runGenerateScript_eq] at hrun
    cases hv : validateGenerateScriptOptions sys opts with
    | error err =>
      rw [hv] at hrun
      simp only [Option.some.injEq] at hrun
      subst hrun
      cases hwritten
    | ok u =>
      rw [hv] at hrun
      simp only [] at hrun
      by_cases hpat : githubPATOf sys opts = ""
      · rw [if_pos hpat] at hrun
        simp only [Option.some.injEq] at hrun
        subst hrun
        cases hwritten
      · rw [if_neg hpat] at hrun
        cases hr : (sourceClient sys opts).GetRepos sys.lib fuel [] opts.githubSourceOrg with
        | none =>
          rw [hr] at hrun
          cases hrun
        | some res =>
          obtain ⟨res1, log⟩ := res
          rw [hr] at hrun
          cases res1 with
          | error err =>
            simp only [Option.some.injEq] at hrun
            subst hrun
            cases hwritten
          | ok repos =>
            simp only [] at hrun
            by_cases hlen : repos.length = 0
            · rw [if_pos hlen] at hrun
              simp only [Option.some.injEq] at hrun
              subst hrun
              cases hwritten
            · rw [if_neg hlen] at hrun
              refine ⟨repos, log, rfl, ?_⟩
              generalize (Scriptgen.NewGenerator
                (generatorOptions sys opts
                  (blobCredentialsRequired sys opts (sourceClient sys opts) log).1)
                (repos.map (fun repo =>
                  { Name := repo.Name, Visibility := repo.Visibility }))).Generate = text
                at hrun ⊢
              cases hw : sys.WriteFile opts.output text with
              | some err =>
                rw [hw] at hrun
                simp only [Option.some.injEq] at hrun
                subst hrun
                cases hwritten
              | none =>
                rw [hw] at hrun
                simp only [Option.some.injEq] at hrun
                subst hrun
                simp only [Option.some.injEq, Prod.mk.injEq] at hwritten
                exact hwritten.2.symm

/-- C26 witness: without a GHES API URL the flag is false; with one, it is false for the
installed version `3.8.0` and true for `3.7.9`; and the run of `runGenerateScript` against
a server of version `3.7.9` writes the script of the generator with the flag set, after the
request for the repositories and the request for the version. -/
theorem blobCredentialsRequired_rule_witness :
    blobCredentialsRequired (sampleSys "3.7.9") { sampleOpts with ghesAPIURL := "" }
      (sourceClient (sampleSys "3.7.9") { sampleOpts with ghesAPIURL := "" }) [] =
        (false, []) ∧
    (blobCredentialsRequired (sampleSys "3.8.0") sampleOpts
      (sourceClient (sampleSys "3.8.0") sampleOpts) []).1 = false ∧
    (blobCredentialsRequired (sampleSys "3.7.9") sampleOpts
      (sourceClient (sampleSys "3.7.9") sampleOpts) []).1 = true ∧
    ∃ (run : Run) (path script : String),
      runGenerateScript (sampleSys "3.7.9") sampleOpts 1 = some run ∧
      run.err = none ∧ run.requests.length = 2 ∧
      run.written = some (path, script) ∧ path = "./migrate.ps1" ∧
      script =
        (Scriptgen.NewGenerator (generatorOptions (sampleSys "3.7.9") sampleOpts true)
          [{ Name := "r", Visibility := "private" }]).Generate := by
  have h1 := blobCredentialsRequired_rule (sampleSys "3.7.9") { sampleOpts with ghesAPIURL := "" }
  have h2 := blobCredentialsRequired_rule (sampleSys "3.8.0") sampleOpts
  have h3 := blobCredentialsRequired_rule (sampleSys "3.7.9") sampleOpts
  refine ⟨(h1.1 _ []).1 rfl, ?_, ?_, ?_⟩
  · exact (((h2.1 (sourceClient (sampleSys "3.8.0") sampleOpts) []).2 (by decide)).1).2
      ⟨{ Version := "3.8.0", InstalledVersion := "3.8.0" }, rfl, by decide, by decide⟩
  · rfl
  · obtain ⟨run, hrun⟩ : ∃ run, runGenerateScript (sampleSys "3.7.9") sampleOpts 1 = some run :=
      ⟨_, rfl⟩
    have hwritten : run.written = some ("./migrate.ps1",
        (Scriptgen.NewGenerator (generatorOptions (sampleSys "3.7.9") sampleOpts true)
          [{ Name := "r", Visibility := "private" }]).Generate) := by
      have := Option.some.inj hrun
      rw [← this]
      rfl
    obtain ⟨repos, log, -, hscript⟩ := h3.2.2 1 run _ _ hrun hwritten
    refine ⟨run, _, _, hrun, ?_, ?_, hwritten, rfl, rfl⟩
    · rw [← Option.some.inj hrun]
    · rw [← Option.some.inj hrun]
      rfl

end Gei
